import Mathlib

/-!
# InterUSS DSS: shallow embedding and verification

Shallow embedding of the authorization, SCD subscription handler, RID subscription
repository, SCD constraint repository and HTTP gateway code of the DSS, with theorems
about it.

Conventions
* Go `(value, error)` results are `Except Error value`, or a pair of options where
  the source can return both as nil.
* Go pointers that may be nil are `Option`.
* Time instants are integers (microseconds); SQL `NULL` is `none`.
* A cell id (`s2.CellID`, an unsigned 64-bit integer) is a `Nat` below `2 ^ 64`; the
  `int64` stored in the database is an `Int`.
-/

set_option autoImplicit false

/-! ## Errors (`dsserr` codes and the `stacktrace` library) -/

namespace dsserr

/-- Error codes of `pkg/errors`, plus `NoCode` for an error that carries none. -/
inductive ErrorCode where
  | NoCode
  | BadRequest
  | NotFound
  | AlreadyExists
  | VersionMismatch
  | PermissionDenied
  | Unauthenticated
  | MissingOVNs
  | AreaTooLarge
  | Internal
  | Unavailable
  deriving DecidableEq, Repr

end dsserr

namespace stacktrace

/-- An error value: its code and its chain of messages, outermost first. -/
structure Error where
  code : dsserr.ErrorCode
  chain : List String
  deriving DecidableEq, Repr

/-- The message of the outermost layer of the error. -/
def Error.message (e : Error) : String := e.chain.headD ""

/-- Library `stacktrace.NewError(msg)`: a fresh error without code. -/
def NewError (msg : String) : Error := ⟨dsserr.ErrorCode.NoCode, [msg]⟩

/-- Library `stacktrace.NewErrorWithCode(code, msg)`. -/
def NewErrorWithCode (code : dsserr.ErrorCode) (msg : String) : Error := ⟨code, [msg]⟩

/-- Library `stacktrace.Propagate(cause, msg)`: a nil cause gives nil (the source relies on
it in `return ret, stacktrace.Propagate(err, ...)`); otherwise the code of the cause is
inherited and one message is added. -/
def Propagate (cause : Option Error) (msg : String) : Option Error :=
  match cause with
  | none => none
  | some e => some ⟨e.code, msg :: e.chain⟩

/-- Library `stacktrace.PropagateWithCode(cause, code, msg)`: a nil cause gives nil;
otherwise the given code is set (the cause's code when the given one is `NoCode`). -/
def PropagateWithCode (cause : Option Error) (code : dsserr.ErrorCode) (msg : String) :
    Option Error :=
  match cause with
  | none => none
  | some e => some ⟨if code = dsserr.ErrorCode.NoCode then e.code else code, msg :: e.chain⟩

/-- The function `Propagate` at a cause known to be an error. -/
def propagate (e : Error) (msg : String) : Error := ⟨e.code, msg :: e.chain⟩

/-- The function `PropagateWithCode` at a cause known to be an error. -/
def propagateWithCode (e : Error) (code : dsserr.ErrorCode) (msg : String) : Error :=
  ⟨if code = dsserr.ErrorCode.NoCode then e.code else code, msg :: e.chain⟩

end stacktrace

/-! ## `pkg/scd/models/operational_intents.go` -/

namespace scdmodels

/-- Go `type OperationalIntentState string`. -/
structure OperationalIntentState where
  val : String
  deriving DecidableEq, Repr

def OperationalIntentStateUnknown : OperationalIntentState := ⟨""⟩
def OperationalIntentStateAccepted : OperationalIntentState := ⟨"Accepted"⟩
def OperationalIntentStateActivated : OperationalIntentState := ⟨"Activated"⟩
def OperationalIntentStateNonconforming : OperationalIntentState := ⟨"Nonconforming"⟩
def OperationalIntentStateContingent : OperationalIntentState := ⟨"Contingent"⟩

/-- Source `OperationalIntentState.RequiresKey`: the `switch` with its `fallthrough`
from the Nonconforming case into the Contingent case, which returns false. -/
def OperationalIntentState.RequiresKey (s : OperationalIntentState) : Bool :=
  if s = OperationalIntentStateNonconforming then false
  else if s = OperationalIntentStateContingent then false
  else true

/-- Source `OperationalIntentState.String`. -/
def OperationalIntentState.String (s : OperationalIntentState) : String := s.val

end scdmodels

/-! ## `pkg/auth/auth.go`: scope validators -/

namespace auth

/-- Go `type Scope string`. -/
abbrev Scope := String

/-- Go `type ScopeSet map[Scope]struct{}`: the list of its keys; only membership is used
by the validators. -/
abbrev ScopeSet := List Scope

/-- Source `missingScopesError`. -/
structure missingScopesError where
  s : List String
  deriving DecidableEq, Repr

/-- Source `missingScopesError.Error`: `strings.Join(m.s, ", ")`. -/
def missingScopesError.Error (m : missingScopesError) : String :=
  String.intercalate ", " m.s

/-- Source `allScopesRequiredValidator`. -/
structure allScopesRequiredValidator where
  scopes : List Scope
  deriving DecidableEq, Repr

/-- Source `anyScopesRequiredValidator`. -/
structure anyScopesRequiredValidator where
  scopes : List Scope
  deriving DecidableEq, Repr

/-- The loop of `allScopesRequiredValidator.ValidateKeyClaimedScopes`: every required
scope that is not present in `scopes` is appended to `missing`. -/
def allScopesRequiredValidator.loop (scopes : ScopeSet) :
    List Scope → List String → List String
  | [], missing => missing
  | scope :: rest, missing =>
    if scope ∈ scopes then allScopesRequiredValidator.loop scopes rest missing
    else allScopesRequiredValidator.loop scopes rest (missing ++ [scope])

/-- Source `allScopesRequiredValidator.ValidateKeyClaimedScopes`; `none` is a nil error. -/
def allScopesRequiredValidator.ValidateKeyClaimedScopes (v : allScopesRequiredValidator)
    (scopes : ScopeSet) : Option missingScopesError :=
  let missing := allScopesRequiredValidator.loop scopes v.scopes []
  if missing.length > 0 then some ⟨missing⟩ else none

/-- Source `RequireAllScopes`. -/
def RequireAllScopes (scopes : List Scope) : allScopesRequiredValidator := ⟨scopes⟩

/-- The loop of `anyScopesRequiredValidator.ValidateKeyClaimedScopes`: it returns nil at
the first required scope that is present, and the error with all of them otherwise. -/
def anyScopesRequiredValidator.loop (scopes : ScopeSet) :
    List Scope → List String → Option missingScopesError
  | [], missing => some ⟨missing⟩
  | scope :: rest, missing =>
    if scope ∈ scopes then none
    else anyScopesRequiredValidator.loop scopes rest (missing ++ [scope])

/-- Source `anyScopesRequiredValidator.ValidateKeyClaimedScopes`; `none` is a nil error. -/
def anyScopesRequiredValidator.ValidateKeyClaimedScopes (v : anyScopesRequiredValidator)
    (scopes : ScopeSet) : Option missingScopesError :=
  anyScopesRequiredValidator.loop scopes v.scopes []

/-- Source `RequireAnyScope`. -/
def RequireAnyScope (scopes : List Scope) : anyScopesRequiredValidator := ⟨scopes⟩

/-- Source `scopesToString`. -/
def scopesToString (scopes : List Scope) (separator : String) : String :=
  String.intercalate separator scopes

/-- Source `scopeSetToString`; the order is that of the enumeration of the map. -/
def scopeSetToString (scopes : ScopeSet) (separator : String) : String :=
  String.intercalate separator scopes

/-- Source `allScopesRequiredValidator.Expectation`. -/
def allScopesRequiredValidator.Expectation (v : allScopesRequiredValidator) : String :=
  scopesToString v.scopes " and "

/-- Source `anyScopesRequiredValidator.Expectation`. -/
def anyScopesRequiredValidator.Expectation (v : anyScopesRequiredValidator) : String :=
  scopesToString v.scopes " or "

end auth

/-! ## `pkg/auth/auth.go`: context, token extraction and the interceptor -/

namespace dssmodels

/-- Go `type ID string` (a UUID in text form). -/
abbrev ID := String

/-- Go `type Owner string`. -/
abbrev Owner := String

/-- Go `type Manager string`. -/
abbrev Manager := String

/-- A `time.Time` instant, in microseconds. -/
abbrev Time := Int

end dssmodels

namespace auth

open dsserr stacktrace

/-- Go `metadata.MD`, a `map[string][]string`, as an association list. -/
abbrev MD := List (String × List String)

/-- Library `metadata.MD.Get`: the values stored under the key, none when it is absent. -/
def MD.Get (md : MD) (k : String) : List String := (md.lookup k).getD []

/-- The part of a `context.Context` the code reads: the incoming gRPC metadata and the
value stored under `ContextKeyOwner`. -/
structure Context where
  metadata : Option MD
  owner : Option dssmodels.Owner
  deriving DecidableEq, Repr

/-- Source `ContextWithOwner`. -/
def ContextWithOwner (ctx : Context) (owner : dssmodels.Owner) : Context :=
  { ctx with owner := some owner }

/-- Source `OwnerFromContext`: the zero value and false when no owner is stored. -/
def OwnerFromContext (ctx : Context) : dssmodels.Owner × Bool :=
  match ctx.owner with
  | some owner => (owner, true)
  | none => ("", false)

/-- Source `ManagerFromContext`. -/
def ManagerFromContext (ctx : Context) : dssmodels.Manager × Bool :=
  let (owner, ok) := OwnerFromContext ctx
  (owner, ok)

/-- Library `strings.TrimPrefix`. -/
def strings.TrimPrefix (s pre : String) : String :=
  if pre.isPrefixOf s then s.drop pre.length else s

/-- Source `getToken`. -/
def getToken (ctx : Context) : String × Bool :=
  match ctx.metadata with
  | none => ("", false)
  | some headers =>
    match MD.Get headers "authorization" with
    | [] => ("", false)
    | first :: _ => (strings.TrimPrefix first "Bearer ", true)

/-- The fields of the `claims` type that the interceptor reads. -/
structure claims where
  Audience : String
  Subject : String
  Scopes : ScopeSet
  deriving DecidableEq, Repr

/-- The two implementations of the interface `KeyClaimedScopesValidator`. -/
inductive KeyClaimedScopesValidator where
  | allScopes (v : allScopesRequiredValidator)
  | anyScopes (v : anyScopesRequiredValidator)
  deriving DecidableEq, Repr

/-- Interface method `ValidateKeyClaimedScopes`. -/
def KeyClaimedScopesValidator.ValidateKeyClaimedScopes (v : KeyClaimedScopesValidator)
    (scopes : ScopeSet) : Option missingScopesError :=
  match v with
  | .allScopes w => w.ValidateKeyClaimedScopes scopes
  | .anyScopes w => w.ValidateKeyClaimedScopes scopes

/-- Interface method `Expectation`. -/
def KeyClaimedScopesValidator.Expectation (v : KeyClaimedScopesValidator) : String :=
  match v with
  | .allScopes w => w.Expectation
  | .anyScopes w => w.Expectation

/-- Go `type Operation string`. -/
abbrev Operation := String

/-- Source `Authorizer` (without logger and lock); `κ` is the type of a key, and the two
maps are association lists read with `lookup`. -/
structure Authorizer (κ : Type) where
  keys : List κ
  scopesValidators : List (Operation × KeyClaimedScopesValidator)
  acceptedAudiences : List (String × Bool)

/-- Go map read `a.acceptedAudiences[aud]`: false when the key is absent. -/
def Authorizer.audienceAccepted {κ : Type} (a : Authorizer κ) (aud : String) : Bool :=
  (a.acceptedAudiences.lookup aud).getD false

/-- The map built by `NewRSAAuthorizer` from `configuration.AcceptedAudiences`. -/
def NewRSAAuthorizer.auds : List String → List (String × Bool)
  | [] => []
  | s :: rest => (s, true) :: NewRSAAuthorizer.auds rest

/-- Source `Authorizer.validateKeyClaimedScopes`; `FullMethod` is the gRPC method name. -/
def Authorizer.validateKeyClaimedScopes {κ : Type} (a : Authorizer κ) (FullMethod : String)
    (keyClaimedScopes : ScopeSet) : String × Option missingScopesError :=
  match a.scopesValidators.lookup FullMethod with
  | some validator =>
    let err := validator.ValidateKeyClaimedScopes keyClaimedScopes
    let expectation := if err.isSome then validator.Expectation else ""
    (expectation, err)
  | none => ("", none)

/-- The variables `validated`, `err` and `keyClaims` of `AuthInterceptor`. -/
structure keyLoopState where
  validated : Bool
  err : Option Error
  keyClaims : claims
  deriving DecidableEq, Repr

/-- The key loop of `AuthInterceptor`: each key is tried in turn with
`jwt.ParseWithClaims` (the parameter `parse`), stopping at the first that verifies. -/
def AuthInterceptor.keyLoop {κ : Type} (parse : String → κ → Except Error claims)
    (tknStr : String) : List κ → keyLoopState → keyLoopState
  | [], st => st
  | key :: rest, _ =>
    match parse tknStr key with
    | .ok c => ⟨true, none, c⟩
    | .error e => AuthInterceptor.keyLoop parse tknStr rest ⟨false, some e, ⟨"", "", []⟩⟩

/-- What a call of `AuthInterceptor` produces: the two returned values, and the context
the handler was invoked with (`none` when the handler was not invoked). -/
structure Intercepted (β : Type) where
  resp : Option β
  err : Option Error
  handlerCtx : Option Context

/-- Source `Authorizer.AuthInterceptor`. -/
def Authorizer.AuthInterceptor {κ α β : Type} (a : Authorizer κ)
    (parse : String → κ → Except Error claims) (ctx : Context) (req : α)
    (FullMethod : String) (handler : Context → α → Option β × Option Error) :
    Intercepted β :=
  match getToken ctx with
  | (_, false) =>
    ⟨none, some (NewErrorWithCode ErrorCode.Unauthenticated "Missing access token"), none⟩
  | (tknStr, true) =>
    let st := AuthInterceptor.keyLoop parse tknStr a.keys ⟨false, none, ⟨"", "", []⟩⟩
    if !st.validated then
      ⟨none, PropagateWithCode st.err ErrorCode.Unauthenticated
        "Access token validation failed", none⟩
    else if !a.audienceAccepted st.keyClaims.Audience then
      ⟨none, some (NewErrorWithCode ErrorCode.Unauthenticated
        ("Invalid access token audience: " ++ st.keyClaims.Audience)), none⟩
    else
      match a.validateKeyClaimedScopes FullMethod st.keyClaims.Scopes with
      | (expectation, some _) =>
        ⟨none, some (NewErrorWithCode ErrorCode.PermissionDenied
          ("Access token missing scopes; found "
            ++ scopeSetToString st.keyClaims.Scopes ", "
            ++ " while expecting " ++ expectation)), none⟩
      | (_, none) =>
        let hctx := ContextWithOwner ctx st.keyClaims.Subject
        let out := handler hctx req
        ⟨out.1, out.2, some hctx⟩

end auth

/-! ## Models used by the SCD handlers (`pkg/models`, `pkg/scd/models`) -/

namespace geo

/-- Go `s2.CellUnion`: a list of cell ids, each an unsigned 64-bit integer. -/
abbrev CellUnion := List Nat

end geo

namespace dssmodels

/-- A `float32` altitude; it is only carried around, never computed with. -/
abbrev Altitude := Int

/-- Go `dssmodels.Volume3D`. The `Footprint` is an interface whose only method is
`CalculateCovering`, so a footprint is given by what that method returns. -/
structure Volume3D where
  AltitudeLo : Option Altitude
  AltitudeHi : Option Altitude
  Footprint : Option (Except stacktrace.Error geo.CellUnion)

/-- Go `dssmodels.Volume4D`. -/
structure Volume4D where
  SpatialVolume : Option Volume3D
  StartTime : Option Time
  EndTime : Option Time

end dssmodels

namespace scdmodels

open dssmodels

/-- Go `type OVN string`. -/
abbrev OVN := String

/-- The fields of `scdmodels.Subscription` that the handlers read or write. -/
structure Subscription where
  ID : dssmodels.ID
  Manager : dssmodels.Manager
  Version : scdmodels.OVN
  StartTime : Option Time
  EndTime : Option Time
  AltitudeLo : Option Altitude
  AltitudeHi : Option Altitude
  Cells : geo.CellUnion
  USSBaseURL : String
  NotifyForOperationalIntents : Bool
  NotifyForConstraints : Bool
  NotificationIndex : Int
  deriving DecidableEq, Repr

/-- Source `OperationalIntent`. -/
structure OperationalIntent where
  ID : dssmodels.ID
  Manager : dssmodels.Manager
  Version : Int
  State : OperationalIntentState
  OVN : scdmodels.OVN
  StartTime : Option Time
  EndTime : Option Time
  USSBaseURL : String
  SubscriptionID : dssmodels.ID
  AltitudeLower : Option Altitude
  AltitudeUpper : Option Altitude
  Cells : geo.CellUnion
  deriving DecidableEq, Repr

/-- The fields of `scdmodels.Constraint` scanned by `fetchConstraints`. -/
structure Constraint where
  ID : dssmodels.ID
  Manager : dssmodels.Manager
  Version : Int
  USSBaseURL : String
  AltitudeLower : Option Altitude
  AltitudeUpper : Option Altitude
  StartTime : Option Time
  EndTime : Option Time
  Cells : geo.CellUnion
  OVN : scdmodels.OVN
  deriving DecidableEq, Repr

end scdmodels

namespace scdpb

/-- Generated message `scdpb.Time`. -/
structure Time where
  Value : dssmodels.Time
  Format : String
  deriving DecidableEq, Repr

/-- Generated message `scdpb.OperationalIntentReference`, with the fields that
`OperationalIntent.ToProto` sets. -/
structure OperationalIntentReference where
  Id : String
  Ovn : String
  Manager : String
  Version : Int
  UssBaseUrl : String
  SubscriptionId : String
  State : String
  UssAvailability : String
  TimeStart : Option Time
  TimeEnd : Option Time
  deriving DecidableEq, Repr

/-- Generated message `scdpb.ConstraintReference`: the field `Ovn` that the handler
overwrites, and the other fields as one value of type `γ`. -/
structure ConstraintReference (γ : Type) where
  Ovn : String
  rest : γ
  deriving DecidableEq, Repr

/-- Generated message `scdpb.PutSubscriptionParameters`; `ε` is the type of the message
`scdpb.Volume4D` in the field `Extents`. -/
structure PutSubscriptionParameters (ε : Type) where
  Extents : ε
  UssBaseUrl : String
  NotifyForOperationalIntents : Bool
  NotifyForConstraints : Bool

/-- Generated message `scdpb.PutSubscriptionResponse`; `π` is the type of the message
`scdpb.Subscription`. -/
structure PutSubscriptionResponse (π γ : Type) where
  Subscription : π
  OperationalIntentReferences : List OperationalIntentReference
  ConstraintReferences : List (ConstraintReference γ)

/-- Generated message `scdpb.DeleteSubscriptionResponse`. -/
structure DeleteSubscriptionResponse (π : Type) where
  Subscription : π

end scdpb

namespace scdmodels

/-- Source `OperationalIntent.ToProto` (it never returns an error). The two constants
`UssAvailabilityStateUnknown.String()` and `dssmodels.TimeFormatRFC3339` are parameters. -/
def OperationalIntent.ToProto (o : OperationalIntent) (UssAvailabilityStateUnknown : String)
    (TimeFormatRFC3339 : String) : scdpb.OperationalIntentReference :=
  { Id := o.ID
    Ovn := o.OVN
    Manager := o.Manager
    Version := o.Version
    UssBaseUrl := o.USSBaseURL
    SubscriptionId := o.SubscriptionID
    State := o.State.String
    UssAvailability := UssAvailabilityStateUnknown
    TimeStart := match o.StartTime with
      | some t => some ⟨t, TimeFormatRFC3339⟩
      | none => none
    TimeEnd := match o.EndTime with
      | some t => some ⟨t, TimeFormatRFC3339⟩
      | none => none }

end scdmodels

/-! ## `pkg/scd/subscriptions_handler.go` -/

namespace scd

open dsserr stacktrace dssmodels scdmodels

/-- What `CalculateSpatialCovering` can return as error. -/
inductive CoveringError where
  | ErrMissingSpatialVolume
  | ErrMissingFootprint
  | other (e : Error)

/-- A call of a method of `repos.Repository`, with its arguments. -/
inductive RepoCall where
  | GetSubscription (id : ID)
  | GetDependentOperationalIntents (id : ID)
  | GetOperationalIntent (id : ID)
  | UpsertSubscription (sub : Subscription)
  | SearchOperationalIntents (v : Volume4D)
  | SearchConstraints (v : Volume4D)
  | DeleteSubscription (id : ID)

/-- The calls that write to the repository. -/
def RepoCall.isWrite : RepoCall → Bool
  | .UpsertSubscription _ => true
  | .DeleteSubscription _ => true
  | _ => false

/-- The call is an `UpsertSubscription`. -/
def RepoCall.isUpsert : RepoCall → Bool
  | .UpsertSubscription _ => true
  | _ => false

/-- The call is a `DeleteSubscription`. -/
def RepoCall.isDelete : RepoCall → Bool
  | .DeleteSubscription _ => true
  | _ => false

/-- The interface `repos.Repository` over a store state `σ`: the methods the subscription
handlers call. A read returns its result; a write returns its result and the new state. -/
structure Repository (σ : Type) where
  GetSubscription : σ → ID → Except Error (Option Subscription)
  GetDependentOperationalIntents : σ → ID → Except Error (List ID)
  GetOperationalIntent : σ → ID → Except Error (Option OperationalIntent)
  UpsertSubscription : σ → Subscription → Except Error (Option Subscription) × σ
  DeleteSubscription : σ → ID → Option Error × σ
  SearchOperationalIntents : σ → Volume4D → Except Error (List OperationalIntent)
  SearchConstraints : σ → Volume4D → Except Error (List Constraint)

/-- The functions and constants the handlers use that are defined outside these sources,
as parameters: `dssmodels.IDFromString`, `scdmodels.ValidateUSSBaseURL`,
`dssmodels.Volume4DFromSCDProto`, `Volume4D.CalculateSpatialCovering`, the reading of
`DefaultClock.Now()`, `Subscription.AdjustTimeRange` (it validates and perhaps corrects
`StartTime` and `EndTime` of its receiver: it returns the two times as it leaves them, and
its error), `Subscription.ValidateDependentOps`, `Subscription.ToProto`, `Constraint.ToProto`
and the constants `NoOvnPhrase`, `UssAvailabilityStateUnknown`, `TimeFormatRFC3339`. -/
structure Env (ε π γ : Type) where
  IDFromString : String → Except Error ID
  ValidateUSSBaseURL : String → Option Error
  Volume4DFromSCDProto : ε → Except Error Volume4D
  CalculateSpatialCovering : Volume4D → geo.CellUnion × Option CoveringError
  now : Time
  AdjustTimeRange : Time → Subscription → Option Subscription
    → (Option Time × Option Time) × Option Error
  ValidateDependentOps : Subscription → List (Option OperationalIntent) → Option Error
  SubscriptionToProto : Subscription → List ID → Except Error π
  ConstraintToProto : Constraint → Except Error (scdpb.ConstraintReference γ)
  NoOvnPhrase : String
  UssAvailabilityStateUnknown : String
  TimeFormatRFC3339 : String

/-- Source `Server`: the flag the subscription handlers read. -/
structure Server where
  EnableHTTP : Bool

/-- The outcome of a handler: a response, an error, or a run-time panic (nil dereference). -/
inductive Outcome (α : Type) where
  | ok (a : α)
  | error (e : Error)
  | panic

/-- Source `GetOperations`, with the repository calls it makes. -/
def GetOperations {σ : Type} (r : Repository σ) (st : σ) :
    List ID → Except Error (List (Option OperationalIntent)) × List RepoCall
  | [] => (.ok [], [])
  | opID :: rest =>
    match r.GetOperationalIntent st opID with
    | .error err =>
      (.error (propagate err ("Could not retrieve dependent Operation " ++ opID)),
        [RepoCall.GetOperationalIntent opID])
    | .ok operation =>
      match GetOperations r st rest with
      | (.error e, calls) => (.error e, RepoCall.GetOperationalIntent opID :: calls)
      | (.ok res, calls) => (.ok (operation :: res), RepoCall.GetOperationalIntent opID :: calls)

end scd

namespace scd

open dsserr stacktrace dssmodels scdmodels

/-- What one run of a transaction closure leaves behind: the value it returns, the store
state and the repository calls it made, in order. -/
structure Run (σ α : Type) where
  result : Except Error α
  state : σ
  calls : List RepoCall

/-- What a handler leaves behind. -/
structure HandlerRun (σ α : Type) where
  outcome : Outcome α
  state : σ
  calls : List RepoCall

/-- Modelled from the spec: `Store.Transact` (the store is not part of these sources).
The closure runs against the store; its writes are committed when it returns without
error and rolled back when it returns an error, which is propagated unchanged. Without
concurrent transactions there is no serialization conflict, hence no retry. -/
def Transact {σ α : Type} (action : σ → Run σ α) (st : σ) : Run σ α :=
  let run := action st
  match run.result with
  | .ok _ => run
  | .error e => ⟨.error e, st, run.calls⟩

/-- Source `PutSubscription`, lines 33 to 87: parsing and validation of the request, up to
the construction of `subreq`. Returns the id, the manager, the extents and `subreq`. -/
def PutSubscription.prepare {ε π γ : Type} (a : Server) (env : Env ε π γ)
    (ctx : auth.Context) (subscriptionid : String) (version : String)
    (params : scdpb.PutSubscriptionParameters ε) :
    Outcome (ID × Manager × Volume4D × Subscription) :=
  match env.IDFromString subscriptionid with
  | .error _ =>
    .error (NewErrorWithCode ErrorCode.BadRequest
      ("Invalid ID format: `" ++ subscriptionid ++ "`"))
  | .ok id =>
    match auth.ManagerFromContext ctx with
    | (_, false) =>
      .error (NewErrorWithCode ErrorCode.PermissionDenied "Missing owner from context")
    | (manager, true) =>
      match (if !a.EnableHTTP then env.ValidateUSSBaseURL params.UssBaseUrl else none) with
      | some err =>
        .error (propagateWithCode err ErrorCode.BadRequest "Failed to validate base URL")
      | none =>
        match env.Volume4DFromSCDProto params.Extents with
        | .error err =>
          .error (propagateWithCode err ErrorCode.BadRequest "Unable to parse extents")
        | .ok extents =>
          match env.CalculateSpatialCovering extents with
          | (_, some (CoveringError.other err)) =>
            .error (propagateWithCode err ErrorCode.BadRequest "Invalid area")
          | (cells, _) =>
            match extents.SpatialVolume with
            | none => .panic
            | some vol =>
              let subreq : Subscription :=
                { ID := id
                  Manager := manager
                  Version := version
                  StartTime := extents.StartTime
                  EndTime := extents.EndTime
                  AltitudeLo := vol.AltitudeLo
                  AltitudeHi := vol.AltitudeHi
                  Cells := cells
                  USSBaseURL := params.UssBaseUrl
                  NotifyForOperationalIntents := params.NotifyForOperationalIntents
                  NotifyForConstraints := params.NotifyForConstraints
                  NotificationIndex := 0 }
              if !subreq.NotifyForOperationalIntents && !subreq.NotifyForConstraints then
                .error (NewErrorWithCode ErrorCode.BadRequest
                  "No notification triggers requested for Subscription")
              else .ok (id, manager, extents, subreq)

/-- Source `PutSubscription`, lines 104 to 145 of the closure: the checks against the
previous subscription `old` and against the dependent operational intents. Returns the
dependent ids or the error, the repository calls made, and `subreq` as updated. -/
def PutSubscription.checkOld {σ ε π γ : Type} (env : Env ε π γ) (r : Repository σ)
    (subreq : Subscription) (old : Option Subscription) (st : σ) :
    Except Error (List ID) × List RepoCall × Subscription :=
  match old with
  | none =>
    if subreq.Version ≠ "" then
      (.error (NewErrorWithCode ErrorCode.NotFound
        ("Subscription " ++ subreq.ID ++ " not found")), [], subreq)
    else (.ok [], [], subreq)
  | some old =>
    if subreq.Version = "" then
      (.error (NewErrorWithCode ErrorCode.AlreadyExists
        ("Subscription " ++ subreq.ID ++ " already exists")), [], subreq)
    else if subreq.Version ≠ old.Version then
      (.error (propagate
        (NewErrorWithCode ErrorCode.VersionMismatch
          ("Subscription version " ++ subreq.Version ++ " is not current"))
        ("Current version is " ++ old.Version ++ " but client specified version "
          ++ subreq.Version)), [], subreq)
    else if old.Manager ≠ subreq.Manager then
      (.error (propagate
        (NewErrorWithCode ErrorCode.PermissionDenied
          "Subscription is owned by different client")
        ("Subscription owned by " ++ old.Manager ++ ", but " ++ subreq.Manager
          ++ " attempted to modify")), [], subreq)
    else
      let subreq := { subreq with NotificationIndex := old.NotificationIndex }
      let c1 := [RepoCall.GetDependentOperationalIntents subreq.ID]
      match r.GetDependentOperationalIntents st subreq.ID with
      | .error err =>
        (.error (propagate err "Could not find dependent Operation Ids"), c1, subreq)
      | .ok dependentOpIds =>
        match GetOperations r st dependentOpIds with
        | (.error err, c2) =>
          (.error (propagate err "Could not get all dependent Operations"), c1 ++ c2, subreq)
        | (.ok operations, c2) =>
          match env.ValidateDependentOps subreq operations with
          | some err => (.error err, c1 ++ c2, subreq)
          | none => (.ok dependentOpIds, c1 ++ c2, subreq)

/-- Source `PutSubscription`, lines 185 to 194: the references of the relevant operational
intents, with the OVN replaced for those of another manager. -/
def PutSubscription.attachOperations {ε π γ : Type} (env : Env ε π γ) (manager : Manager) :
    List OperationalIntent → List scdpb.OperationalIntentReference
      → List scdpb.OperationalIntentReference
  | [], refs => refs
  | op :: rest, refs =>
    let op := if op.Manager ≠ manager then { op with OVN := env.NoOvnPhrase } else op
    let pop := op.ToProto env.UssAvailabilityStateUnknown env.TimeFormatRFC3339
    PutSubscription.attachOperations env manager rest (refs ++ [pop])

/-- Source `PutSubscription`, lines 203 to 213: the references of the constraints found,
with the OVN replaced for those of another manager. -/
def PutSubscription.attachConstraints {ε π γ : Type} (env : Env ε π γ) (manager : Manager) :
    List Constraint → List (scdpb.ConstraintReference γ)
      → Except Error (List (scdpb.ConstraintReference γ))
  | [], refs => .ok refs
  | constraint :: rest, refs =>
    match env.ConstraintToProto constraint with
    | .error err => .error (propagate err "Could not convert Constraint to proto")
    | .ok p =>
      let p := if constraint.Manager ≠ manager then { p with Ovn := env.NoOvnPhrase } else p
      PutSubscription.attachConstraints env manager rest (refs ++ [p])

/-- Source `PutSubscription`, lines 156 to 216 of the closure: the response for the stored
subscription `sub`. -/
def PutSubscription.respond {σ ε π γ : Type} (env : Env ε π γ) (r : Repository σ)
    (manager : Manager) (extents : Volume4D) (sub : Subscription)
    (dependentOpIds : List ID) (st : σ) :
    Except Error (scdpb.PutSubscriptionResponse π γ) × List RepoCall :=
  let vol : Volume4D :=
    { StartTime := sub.StartTime
      EndTime := sub.EndTime
      SpatialVolume := some
        { AltitudeLo := sub.AltitudeLo
          AltitudeHi := sub.AltitudeHi
          Footprint := some (.ok sub.Cells) } }
  let found : Except Error (List OperationalIntent) × List RepoCall :=
    if sub.Cells.length > 0 then
      match r.SearchOperationalIntents st vol with
      | .error err =>
        (.error (propagate err "Could not search Operations in repo"),
          [RepoCall.SearchOperationalIntents vol])
      | .ok ops => (.ok ops, [RepoCall.SearchOperationalIntents vol])
    else (.ok [], [])
  match found with
  | (.error e, c1) => (.error e, c1)
  | (.ok relevantOperations, c1) =>
    match env.SubscriptionToProto sub dependentOpIds with
    | .error err => (.error (propagate err "Could not convert Subscription to proto"), c1)
    | .ok p =>
      let opRefs :=
        if sub.NotifyForOperationalIntents then
          PutSubscription.attachOperations env manager relevantOperations []
        else []
      if sub.NotifyForConstraints then
        let c2 := c1 ++ [RepoCall.SearchConstraints extents]
        match r.SearchConstraints st extents with
        | .error err => (.error (propagate err "Could not search Constraints in repo"), c2)
        | .ok constraints =>
          match PutSubscription.attachConstraints env manager constraints [] with
          | .error e => (.error e, c2)
          | .ok conRefs => (.ok ⟨p, opRefs, conRefs⟩, c2)
      else (.ok ⟨p, opRefs, []⟩, c1)

/-- Source `PutSubscription`, the closure `action` (lines 92 to 217), run against the store
state `st`. Also returned: the captured variable `subreq` as the run leaves it. -/
def PutSubscription.action {σ ε π γ : Type} (env : Env ε π γ) (r : Repository σ)
    (id : ID) (manager : Manager) (extents : Volume4D) (subreq : Subscription) (st : σ) :
    Run σ (scdpb.PutSubscriptionResponse π γ) × Subscription :=
  let c0 := [RepoCall.GetSubscription subreq.ID]
  match r.GetSubscription st subreq.ID with
  | .error err => (⟨.error (propagate err "Could not get Subscription from repo"), st, c0⟩, subreq)
  | .ok old =>
    let adjusted := env.AdjustTimeRange env.now subreq old
    let subreq := { subreq with StartTime := adjusted.1.1, EndTime := adjusted.1.2 }
    match adjusted.2 with
    | some err =>
      (⟨.error (propagate err "Error adjusting time range of Subscription"), st, c0⟩, subreq)
    | none =>
      match PutSubscription.checkOld env r subreq old st with
      | (.error e, c1, subreq) => (⟨.error e, st, c0 ++ c1⟩, subreq)
      | (.ok dependentOpIds, c1, subreq) =>
        let c2 := c0 ++ c1 ++ [RepoCall.UpsertSubscription subreq]
        match r.UpsertSubscription st subreq with
        | (.error err, st1) =>
          (⟨.error (propagate err "Could not upsert Subscription into repo"), st1, c2⟩, subreq)
        | (.ok none, st1) =>
          (⟨.error (NewError ("UpsertSubscription returned no Subscription for ID: " ++ id)),
            st1, c2⟩, subreq)
        | (.ok (some sub), st1) =>
          match PutSubscription.respond env r manager extents sub dependentOpIds st1 with
          | (res, c3) => (⟨res, st1, c2 ++ c3⟩, subreq)

/-- Source `Server.PutSubscription`, run against the store state `st`. -/
def Server.PutSubscription {σ ε π γ : Type} (a : Server) (env : Env ε π γ)
    (r : Repository σ) (ctx : auth.Context) (subscriptionid : String) (version : String)
    (params : scdpb.PutSubscriptionParameters ε) (st : σ) :
    HandlerRun σ (scdpb.PutSubscriptionResponse π γ) :=
  match PutSubscription.prepare a env ctx subscriptionid version params with
  | .panic => ⟨.panic, st, []⟩
  | .error e => ⟨.error e, st, []⟩
  | .ok (id, manager, extents, subreq) =>
    let run := Transact (fun s => (PutSubscription.action env r id manager extents subreq s).1) st
    match run.result with
    | .error err => ⟨.error err, run.state, run.calls⟩
    | .ok result => ⟨.ok result, run.state, run.calls⟩

/-- Source `Server.CreateSubscription`: a put with the empty version. -/
def Server.CreateSubscription {σ ε π γ : Type} (a : Server) (env : Env ε π γ)
    (r : Repository σ) (ctx : auth.Context) (subscriptionid : String)
    (params : scdpb.PutSubscriptionParameters ε) (st : σ) :
    HandlerRun σ (scdpb.PutSubscriptionResponse π γ) :=
  a.PutSubscription env r ctx subscriptionid "" params st

/-- Source `Server.UpdateSubscription`: a put with the version of the request. -/
def Server.UpdateSubscription {σ ε π γ : Type} (a : Server) (env : Env ε π γ)
    (r : Repository σ) (ctx : auth.Context) (subscriptionid : String) (version : String)
    (params : scdpb.PutSubscriptionParameters ε) (st : σ) :
    HandlerRun σ (scdpb.PutSubscriptionResponse π γ) :=
  a.PutSubscription env r ctx subscriptionid version params st

/-- Source `DeleteSubscription`, the closure `action` (lines 360 to 403). -/
def DeleteSubscription.action {σ ε π γ : Type} (env : Env ε π γ) (r : Repository σ)
    (id : ID) (manager : Manager) (st : σ) : Run σ (scdpb.DeleteSubscriptionResponse π) :=
  let c0 := [RepoCall.GetSubscription id]
  match r.GetSubscription st id with
  | .error err => ⟨.error (propagate err "Could not get Subscription from repo"), st, c0⟩
  | .ok none =>
    ⟨.error (NewErrorWithCode ErrorCode.NotFound ("Subscription " ++ id ++ " not found")),
      st, c0⟩
  | .ok (some old) =>
    if old.Manager ≠ manager then
      ⟨.error (propagate
        (NewErrorWithCode ErrorCode.PermissionDenied
          "Subscription is owned by different client")
        ("Subscription owned by " ++ old.Manager ++ ", but " ++ manager
          ++ " attempted to delete")), st, c0⟩
    else
      let c1 := c0 ++ [RepoCall.GetDependentOperationalIntents id]
      match r.GetDependentOperationalIntents st id with
      | .error err => ⟨.error (propagate err "Could not find dependent Operations"), st, c1⟩
      | .ok dependentOps =>
        if dependentOps.length > 0 then
          ⟨.error (propagate
            (NewErrorWithCode ErrorCode.BadRequest
              "Subscriptions with dependent Operations may not be removed")
            ("Subscription had " ++ toString dependentOps.length
              ++ " dependent Operations")), st, c1⟩
        else
          let c2 := c1 ++ [RepoCall.DeleteSubscription id]
          match r.DeleteSubscription st id with
          | (some err, st1) =>
            ⟨.error (propagate err "Could not delete Subscription from repo"), st1, c2⟩
          | (none, st1) =>
            match env.SubscriptionToProto old dependentOps with
            | .error err =>
              ⟨.error (propagate err "Error converting Subscription model to proto"), st1, c2⟩
            | .ok p => ⟨.ok ⟨p⟩, st1, c2⟩

/-- Source `Server.DeleteSubscription`, run against the store state `st`. -/
def Server.DeleteSubscription {σ ε π γ : Type} (_ : Server) (env : Env ε π γ)
    (r : Repository σ) (ctx : auth.Context) (subscriptionid : String) (st : σ) :
    HandlerRun σ (scdpb.DeleteSubscriptionResponse π) :=
  match env.IDFromString subscriptionid with
  | .error _ => ⟨.error (NewErrorWithCode ErrorCode.BadRequest "Invalid ID format"), st, []⟩
  | .ok id =>
    match auth.ManagerFromContext ctx with
    | (_, false) =>
      ⟨.error (NewErrorWithCode ErrorCode.PermissionDenied "Missing owner from context"),
        st, []⟩
    | (manager, true) =>
      let run := Transact (DeleteSubscription.action env r id manager) st
      match run.result with
      | .error err => ⟨.error err, run.state, run.calls⟩
      | .ok response => ⟨.ok response, run.state, run.calls⟩

/-! ### Concrete instances, for running the handlers on inputs -/

/-- An in-memory repository over the list of stored subscriptions: no operational intent
and no constraint is stored. -/
def memRepo : Repository (List Subscription) where
  GetSubscription st id := .ok (st.find? (fun s => decide (s.ID = id)))
  GetDependentOperationalIntents _ _ := .ok []
  GetOperationalIntent _ _ := .ok none
  UpsertSubscription st sub :=
    (.ok (some sub), sub :: st.filter (fun s => decide (s.ID ≠ sub.ID)))
  DeleteSubscription st id := (none, st.filter (fun s => decide (s.ID ≠ id)))
  SearchOperationalIntents _ _ := .ok []
  SearchConstraints _ _ := .ok []

/-- An environment in which every string is an id, every base URL and every time range is
valid, and the extents of a request are its `Volume4D` with an empty covering. -/
def memEnv : Env Volume4D ID Unit where
  IDFromString s := .ok s
  ValidateUSSBaseURL _ := none
  Volume4DFromSCDProto v := .ok v
  CalculateSpatialCovering _ := ([], none)
  now := 0
  AdjustTimeRange _ s _ := ((s.StartTime, s.EndTime), none)
  ValidateDependentOps _ _ := none
  SubscriptionToProto s _ := .ok s.ID
  ConstraintToProto c := .ok ⟨c.OVN, ()⟩
  NoOvnPhrase := "Available from USS"
  UssAvailabilityStateUnknown := "Unknown"
  TimeFormatRFC3339 := "RFC3339"

/-- A stored subscription of manager `uss1`, with version `v1`. -/
def memSub : Subscription :=
  { ID := "sub-1", Manager := "uss1", Version := "v1", StartTime := some 0,
    EndTime := some 100, AltitudeLo := none, AltitudeHi := none, Cells := [1],
    USSBaseURL := "https://uss1.example", NotifyForOperationalIntents := true,
    NotifyForConstraints := false, NotificationIndex := 3 }

/-- Request parameters asking for notifications on operational intents. -/
def memParams : scdpb.PutSubscriptionParameters Volume4D :=
  { Extents := ⟨some ⟨none, none, none⟩, some 0, some 100⟩
    UssBaseUrl := "https://uss.example"
    NotifyForOperationalIntents := true
    NotifyForConstraints := false }

/-- The context of an authenticated call of the given manager. -/
def memCtx (manager : Manager) : auth.Context := ⟨none, some manager⟩

/-- The error code of an outcome, if it is an error. -/
def Outcome.code? {α : Type} : Outcome α → Option ErrorCode
  | .error e => some e.code
  | _ => none

end scd

/-! ## A table model of the SQL statements used by the repositories -/

namespace sql

/-- An SQL truth value: `none` is `NULL`. -/
abbrev Truth := Option Bool

/-- SQL `a <= b` on nullable timestamps: `NULL` when an operand is `NULL`. -/
def le (a b : Option dssmodels.Time) : Truth :=
  match a, b with
  | some x, some y => some (decide (x ≤ y))
  | _, _ => none

/-- SQL `a >= b` on nullable timestamps: `NULL` when an operand is `NULL`. -/
def ge (a b : Option dssmodels.Time) : Truth :=
  match a, b with
  | some x, some y => some (decide (y ≤ x))
  | _, _ => none

/-- SQL `COALESCE(t, true)`. -/
def coalesceTrue (t : Truth) : Truth :=
  match t with
  | none => some true
  | some b => some b

/-- SQL `p AND q` in three-valued logic. -/
def and (p q : Truth) : Truth :=
  match p, q with
  | some false, _ => some false
  | _, some false => some false
  | some true, some true => some true
  | _, _ => none

/-- The array operator `a && b`: the two arrays have an element in common. -/
def overlaps (a b : List Int) : Truth := some (a.any (fun x => b.contains x))

/-- A `WHERE` clause selects the rows on which its condition is true (not false, not
`NULL`). -/
def holds (t : Truth) : Bool :=
  match t with
  | some true => true
  | _ => false

/-- Statement `UPDATE t SET ... WHERE cond RETURNING ...`: the new table and the rows
returned (the updated rows, as updated). -/
def update {ρ : Type} (tbl : List ρ) (cond : ρ → Truth) (set : ρ → ρ) : List ρ × List ρ :=
  (tbl.map (fun r => if holds (cond r) then set r else r),
   (tbl.filter (fun r => holds (cond r))).map set)

/-- Statement `DELETE FROM t WHERE cond RETURNING ...`: the new table and the rows
returned (the deleted rows). -/
def delete {ρ : Type} (tbl : List ρ) (cond : ρ → Truth) : List ρ × List ρ :=
  (tbl.filter (fun r => !holds (cond r)), tbl.filter (fun r => holds (cond r)))

/-- Statement `SELECT ... FROM t WHERE cond LIMIT n`. -/
def select {ρ : Type} (tbl : List ρ) (cond : ρ → Truth) (limit : Nat) : List ρ :=
  (tbl.filter (fun r => holds (cond r))).take limit

end sql

namespace geo

/-- Go conversion `int64(cell)` of an unsigned 64-bit cell id (two's complement). -/
def toInt64 (cell : Nat) : Int :=
  if cell % 2 ^ 64 < 2 ^ 63 then ((cell % 2 ^ 64 : Nat) : Int)
  else ((cell % 2 ^ 64 : Nat) : Int) - 2 ^ 64

/-- Go conversion `s2.CellID(id)` of an `int64` to an unsigned 64-bit cell id. -/
def toCellID (id : Int) : Nat := (id % 2 ^ 64).toNat

/-- The loop `cids[i] = int64(cell)` of the repository methods. -/
def cellsToInt64 (cells : CellUnion) : List Int := cells.map toInt64

/-- Modelled from the spec: `geo.CellUnionFromInt64`, the total, order-preserving adaptor
from `[]int64` to a cell union (its file is not part of these sources). -/
def CellUnionFromInt64 (cids : List Int) : CellUnion := cids.map toCellID

end geo

/-! ## `pkg/rid/store/cockroach/subscriptions.go` and `subcriptions_v3.go` -/

namespace dssmodels

/-- Modelled from the spec: the RID timestamp-version `dssmodels.Version`, the
last-updated-at time of the record (its file is not part of these sources). -/
structure Version where
  t : Time
  deriving DecidableEq, Repr

/-- Modelled from the spec: `dssmodels.VersionFromTime`. -/
def VersionFromTime (t : Time) : Version := ⟨t⟩

/-- Modelled from the spec: `Version.ToTimestamp`. -/
def Version.ToTimestamp (v : Version) : Time := v.t

end dssmodels

namespace ridmodels

open dssmodels

/-- The fields of `ridmodels.Subscription` that the repository reads and writes. The
repository methods modelled here dereference `Version`, so it is not optional. -/
structure Subscription where
  ID : dssmodels.ID
  URL : String
  NotificationIndex : Int
  Owner : dssmodels.Owner
  Cells : geo.CellUnion
  StartTime : Option Time
  EndTime : Option Time
  Writer : String
  Version : dssmodels.Version
  deriving DecidableEq, Repr

end ridmodels

namespace ridstore

open dsserr stacktrace dssmodels

/-- A row of the table `subscriptions`. The column `writer` exists from schema version 4
on; it is nullable, as are the two times. -/
structure Row where
  id : ID
  owner : Owner
  url : String
  notification_index : Int
  cells : List Int
  starts_at : Option Time
  ends_at : Option Time
  writer : Option String
  updated_at : Time
  deriving DecidableEq, Repr

/-- The table `subscriptions`. -/
abbrev Table := List Row

/-- Source `subscriptionRepo.process`, the body of the loop over the rows returned: one
row scanned into a subscription (`writer.String` is empty for `NULL`). -/
def subscriptionRepo.scan (row : Row) : ridmodels.Subscription :=
  { ID := row.id
    Owner := row.owner
    URL := row.url
    NotificationIndex := row.notification_index
    Cells := geo.CellUnionFromInt64 row.cells
    StartTime := row.starts_at
    EndTime := row.ends_at
    Writer := row.writer.getD ""
    Version := VersionFromTime row.updated_at }

/-- Source `subscriptionRepo.process`, on the rows a statement returns. -/
def subscriptionRepo.process : List Row → List ridmodels.Subscription
  | [] => []
  | row :: rows => subscriptionRepo.scan row :: subscriptionRepo.process rows

/-- Source `subscriptionRepo.processOne`. -/
def subscriptionRepo.processOne (rows : List Row) : Except Error (Option ridmodels.Subscription) :=
  let subs := subscriptionRepo.process rows
  if subs.length > 1 then
    .error (NewError ("Query returned " ++ toString subs.length
      ++ " subscriptions when only 0 or 1 was expected"))
  else
    match subs with
    | [] => .ok none
    | sub :: _ => .ok (some sub)

/-- Source `subscriptionRepoV3.process`, the body of the loop: the version 3 schema has no
`writer` column, so `Writer` keeps its zero value. -/
def subscriptionRepoV3.scan (row : Row) : ridmodels.Subscription :=
  { ID := row.id
    Owner := row.owner
    URL := row.url
    NotificationIndex := row.notification_index
    Cells := geo.CellUnionFromInt64 row.cells
    StartTime := row.starts_at
    EndTime := row.ends_at
    Writer := ""
    Version := VersionFromTime row.updated_at }

/-- Source `subscriptionRepoV3.process`. -/
def subscriptionRepoV3.process : List Row → List ridmodels.Subscription
  | [] => []
  | row :: rows => subscriptionRepoV3.scan row :: subscriptionRepoV3.process rows

/-- Source `subscriptionRepoV3.processOne`. -/
def subscriptionRepoV3.processOne (rows : List Row) :
    Except Error (Option ridmodels.Subscription) :=
  let subs := subscriptionRepoV3.process rows
  if subs.length > 1 then
    .error (NewError ("Query returned " ++ toString subs.length
      ++ " subscriptions when only 0 or 1 was expected"))
  else
    match subs with
    | [] => .ok none
    | sub :: _ => .ok (some sub)

/-- The condition `cells && $1 AND ends_at >= $2` of `UpdateNotificationIdxsInCells`. -/
def inCellsAndActive (cids : List Int) (now : Time) (row : Row) : sql.Truth :=
  sql.and (sql.overlaps row.cells cids) (sql.ge row.ends_at (some now))

/-- Source `subscriptionRepo.UpdateNotificationIdxsInCells`, with `now` the reading of
`c.clock.Now()`: the subscriptions returned and the new table. -/
def subscriptionRepo.UpdateNotificationIdxsInCells (now : Time) (cells : geo.CellUnion)
    (tbl : Table) : Except Error (List ridmodels.Subscription) × Table :=
  let cids := geo.cellsToInt64 cells
  let res := sql.update tbl (inCellsAndActive cids now)
    (fun row => { row with notification_index := row.notification_index + 1 })
  (.ok (subscriptionRepo.process res.2), res.1)

/-- Source `subscriptionRepoV3.UpdateNotificationIdxsInCells`. -/
def subscriptionRepoV3.UpdateNotificationIdxsInCells (now : Time) (cells : geo.CellUnion)
    (tbl : Table) : Except Error (List ridmodels.Subscription) × Table :=
  let cids := geo.cellsToInt64 cells
  let res := sql.update tbl (inCellsAndActive cids now)
    (fun row => { row with notification_index := row.notification_index + 1 })
  (.ok (subscriptionRepoV3.process res.2), res.1)

/-- The loop of `UpdateSubscription` over `s.Cells`: each cell is validated with
`geo.ValidateCell` (a parameter) and converted with `int64(cell)`. -/
def validateCells (ValidateCell : Nat → Option Error) :
    geo.CellUnion → Except Error (List Int)
  | [] => .ok []
  | cell :: rest =>
    match ValidateCell cell with
    | some err => .error (propagate err "Error validating cell")
    | none =>
      match validateCells ValidateCell rest with
      | .error e => .error e
      | .ok cids => .ok (geo.toInt64 cell :: cids)

/-- The condition `id = $1 AND updated_at = $2` of `UpdateSubscription` and
`DeleteSubscription`. -/
def idAndVersion (id : ID) (updated_at : Time) (row : Row) : sql.Truth :=
  sql.and (some (decide (row.id = id))) (some (decide (row.updated_at = updated_at)))

/-- Source `subscriptionRepo.UpdateSubscription`, with `PgUUID` the method `ID.PgUUID` of
`dssmodels` (the UUID of an id, or the error for an id that is not a UUID) and `txnow` the
value of `transaction_timestamp()`: the result and the new table. -/
def subscriptionRepo.UpdateSubscription (ValidateCell : Nat → Option Error)
    (PgUUID : ID → Except Error ID) (txnow : Time)
    (s : ridmodels.Subscription) (tbl : Table) :
    Except Error (Option ridmodels.Subscription) × Table :=
  match validateCells ValidateCell s.Cells with
  | .error e => (.error e, tbl)
  | .ok cids =>
    match PgUUID s.ID with
    | .error err => (.error (propagate err "Failed to convert id to PgUUID"), tbl)
    | .ok id =>
      let res := sql.update tbl (idAndVersion id s.Version.ToTimestamp)
        (fun row => { row with
          id := id
          url := s.URL
          notification_index := s.NotificationIndex
          cells := cids
          starts_at := s.StartTime
          ends_at := s.EndTime
          writer := some s.Writer
          updated_at := txnow })
      (subscriptionRepo.processOne res.2, res.1)

/-- Source `subscriptionRepoV3.UpdateSubscription`: as above, without the `writer`
column. -/
def subscriptionRepoV3.UpdateSubscription (ValidateCell : Nat → Option Error)
    (PgUUID : ID → Except Error ID) (txnow : Time)
    (s : ridmodels.Subscription) (tbl : Table) :
    Except Error (Option ridmodels.Subscription) × Table :=
  match validateCells ValidateCell s.Cells with
  | .error e => (.error e, tbl)
  | .ok cids =>
    match PgUUID s.ID with
    | .error err => (.error (propagate err "Failed to convert id to PgUUID"), tbl)
    | .ok id =>
      let res := sql.update tbl (idAndVersion id s.Version.ToTimestamp)
        (fun row => { row with
          id := id
          url := s.URL
          notification_index := s.NotificationIndex
          cells := cids
          starts_at := s.StartTime
          ends_at := s.EndTime
          updated_at := txnow })
      (subscriptionRepoV3.processOne res.2, res.1)

/-- Source `subscriptionRepo.DeleteSubscription`: the result and the new table. -/
def subscriptionRepo.DeleteSubscription (PgUUID : ID → Except Error ID)
    (s : ridmodels.Subscription) (tbl : Table) :
    Except Error (Option ridmodels.Subscription) × Table :=
  match PgUUID s.ID with
  | .error err => (.error (propagate err "Failed to convert id to PgUUID"), tbl)
  | .ok id =>
    let res := sql.delete tbl (idAndVersion id s.Version.ToTimestamp)
    (subscriptionRepo.processOne res.2, res.1)

/-- Source `subscriptionRepoV3.DeleteSubscription`. -/
def subscriptionRepoV3.DeleteSubscription (PgUUID : ID → Except Error ID)
    (s : ridmodels.Subscription) (tbl : Table) :
    Except Error (Option ridmodels.Subscription) × Table :=
  match PgUUID s.ID with
  | .error err => (.error (propagate err "Failed to convert id to PgUUID"), tbl)
  | .ok id =>
    let res := sql.delete tbl (idAndVersion id s.Version.ToTimestamp)
    (subscriptionRepoV3.processOne res.2, res.1)

end ridstore

/-! ## `pkg/scd/store/cockroach/constraints.go` -/

namespace scdstore

open dsserr stacktrace dssmodels scdmodels

/-- A row of the table `scd_constraints`, with the columns of `constraintFieldsWithIndices`
(the two times are nullable). -/
structure Row where
  id : ID
  owner : Manager
  version : Int
  url : String
  altitude_lower : Option Altitude
  altitude_upper : Option Altitude
  starts_at : Option Time
  ends_at : Option Time
  cells : List Int
  updated_at : Time
  deriving DecidableEq, Repr

/-- The table `scd_constraints`. -/
abbrev Table := List Row

/-- Source `repo.fetchConstraints`, the body of the loop over the rows: one row scanned
into a constraint; `NewOVNFromTime` is a parameter. -/
def fetchConstraints.scan (NewOVNFromTime : Time → String → OVN) (row : Row) : Constraint :=
  { ID := row.id
    Manager := row.owner
    Version := row.version
    USSBaseURL := row.url
    AltitudeLower := row.altitude_lower
    AltitudeUpper := row.altitude_upper
    StartTime := row.starts_at
    EndTime := row.ends_at
    Cells := geo.CellUnionFromInt64 row.cells
    OVN := NewOVNFromTime row.updated_at row.id }

/-- Source `repo.fetchConstraints`, on the rows a query returns. -/
def fetchConstraints (NewOVNFromTime : Time → String → OVN) : List Row → List Constraint
  | [] => []
  | row :: rows =>
    fetchConstraints.scan NewOVNFromTime row :: fetchConstraints NewOVNFromTime rows

/-- The condition of the query of `SearchConstraints`:
`cells && $1 AND COALESCE(starts_at <= $3, true) AND COALESCE(ends_at >= $2, true)`. -/
def searchCondition (cids : List Int) (startTime endTime : Option Time) (row : Row) :
    sql.Truth :=
  sql.and
    (sql.and (sql.overlaps row.cells cids) (sql.coalesceTrue (sql.le row.starts_at endTime)))
    (sql.coalesceTrue (sql.ge row.ends_at startTime))

/-- Source `repo.SearchConstraints`: the result and the number of queries sent to the
database. Parameters: `Volume4D.CalculateSpatialCovering` (the cells and the error it
returns), the constant `dssmodels.MaxResultLimit` and `NewOVNFromTime`. -/
def SearchConstraints (CalculateSpatialCovering : Volume4D → geo.CellUnion × Option Error)
    (MaxResultLimit : Nat) (NewOVNFromTime : Time → String → OVN) (v4d : Volume4D)
    (tbl : Table) : Except Error (List Constraint) × Nat :=
  match CalculateSpatialCovering v4d with
  | (_, some err) => (.error (propagate err "Could not calculate spatial covering"), 0)
  | (cells, none) =>
    if cells.length = 0 then (.ok [], 0)
    else
      let cids := geo.cellsToInt64 cells
      let rows := sql.select tbl (searchCondition cids v4d.StartTime v4d.EndTime)
        MaxResultLimit
      (.ok (fetchConstraints NewOVNFromTime rows), 1)

/-- The words of the specification "a time that is unset or `<=` a bound": it holds when
the time is unset; a bound that is unset bounds nothing. -/
def unsetOrLe (t bound : Option Time) : Prop :=
  match t, bound with
  | some x, some y => x ≤ y
  | _, _ => True

/-- The words of the specification "a time that is unset or `>=` a bound". -/
def unsetOrGe (t bound : Option Time) : Prop :=
  match t, bound with
  | some x, some y => y ≤ x
  | _, _ => True

instance (t bound : Option Time) : Decidable (unsetOrLe t bound) := by
  unfold unsetOrLe
  split <;> infer_instance

instance (t bound : Option Time) : Decidable (unsetOrGe t bound) := by
  unfold unsetOrGe
  split <;> infer_instance

/-- The words of the specification for a record `R` found by the search of `V`: the cells
of `R` meet the covering of `V`, `R.startTime <= V.endTime` and `R.endTime >= V.startTime`
(each for times that are set). -/
def Intersects (covering : geo.CellUnion) (v4d : Volume4D) (row : Row) : Prop :=
  (∃ n ∈ covering, geo.toInt64 n ∈ row.cells)
  ∧ unsetOrLe row.starts_at v4d.EndTime
  ∧ unsetOrGe row.ends_at v4d.StartTime

instance (covering : geo.CellUnion) (v4d : Volume4D) (row : Row) :
    Decidable (Intersects covering v4d row) := by
  unfold Intersects
  infer_instance

end scdstore

namespace ridstore

/-- A table `subscriptions` with two rows, for running the repository on inputs. -/
def exampleTable : Table :=
  [ { id := "a", owner := "uss1", url := "https://uss1.example", notification_index := 4,
      cells := [10, 11], starts_at := some 0, ends_at := some 100, writer := some "w",
      updated_at := 10 },
    { id := "b", owner := "uss2", url := "https://uss2.example", notification_index := 0,
      cells := [12], starts_at := some 0, ends_at := some 5, writer := none,
      updated_at := 20 } ]

/-- A stand-in for `ID.PgUUID`: a text of 36 characters is taken as the UUID it spells,
any other text is refused. -/
def examplePgUUID (id : dssmodels.ID) : Except stacktrace.Error dssmodels.ID :=
  if id.length = 36 then .ok id else .error (stacktrace.NewError "cannot parse UUID")

/-- A stand-in for `geo.ValidateCell` that refuses the cell id 0, which is no cell. -/
def exampleValidateCell (cell : Nat) : Option stacktrace.Error :=
  if cell = 0 then some (stacktrace.NewError "invalid cell") else none

/-- A table `subscriptions` with two rows whose ids are UUIDs. -/
def uuidTable : Table :=
  [ { id := "00000000-0000-4000-8000-00000000000a", owner := "uss1",
      url := "https://uss1.example", notification_index := 4, cells := [10, 11],
      starts_at := some 0, ends_at := some 100, writer := some "w", updated_at := 10 },
    { id := "00000000-0000-4000-8000-00000000000b", owner := "uss2",
      url := "https://uss2.example", notification_index := 0, cells := [12],
      starts_at := some 0, ends_at := some 5, writer := none, updated_at := 20 } ]

/-- A subscription with the given id, version and cells. -/
def uuidSub (id : dssmodels.ID) (version : dssmodels.Time) (cells : geo.CellUnion) :
    ridmodels.Subscription :=
  { ID := id, URL := "https://uss1.example/v2", NotificationIndex := 4, Owner := "uss1",
    Cells := cells, StartTime := some 0, EndTime := some 200, Writer := "w",
    Version := ⟨version⟩ }

/-- The error of a result, if it is one. -/
def failure {α : Type} (res : Except stacktrace.Error α) : Option stacktrace.Error :=
  match res with
  | .error e => some e
  | .ok _ => none

end ridstore

namespace scdstore

open dsserr stacktrace dssmodels scdmodels

/-- A table `scd_constraints` with three rows, for running the repository on inputs: the
second row has no start time, the third meets no cell of the searches below. -/
def exampleTable : Table :=
  [ { id := "c1", owner := "uss1", version := 1, url := "https://uss1.example",
      altitude_lower := none, altitude_upper := none, starts_at := some 10,
      ends_at := some 20, cells := [7, 8], updated_at := 1 },
    { id := "c2", owner := "uss2", version := 1, url := "https://uss2.example",
      altitude_lower := none, altitude_upper := none, starts_at := none,
      ends_at := some 50, cells := [8], updated_at := 2 },
    { id := "c3", owner := "uss2", version := 2, url := "https://uss2.example",
      altitude_lower := none, altitude_upper := none, starts_at := some 0,
      ends_at := none, cells := [9], updated_at := 3 } ]

/-- The volume with the given time bounds, whose covering is the cell 8 under
`exampleCovering`. -/
def exampleVolume (startTime endTime : Option Time) : Volume4D :=
  ⟨some ⟨none, none, some (.ok [8])⟩, startTime, endTime⟩

/-- A covering function: the covering stored in the footprint, an error when the volume
has no spatial volume or no footprint. -/
def exampleCovering (v : Volume4D) : geo.CellUnion × Option Error :=
  match v.SpatialVolume with
  | none => ([], some (NewError "missing spatial volume"))
  | some vol =>
    match vol.Footprint with
    | none => ([], some (NewError "missing footprint"))
    | some (.ok cells) => (cells, none)
    | some (.error e) => ([], some e)

/-- The ids of the constraints a search returns (empty on error), and the number of
queries. -/
def searchIds (limit : Nat) (v : Volume4D) (tbl : Table) : List ID × Nat :=
  match SearchConstraints exampleCovering limit (fun _ id => id) v tbl with
  | (.ok cs, n) => (cs.map (fun c => c.ID), n)
  | (.error _, n) => ([], n)

end scdstore

/-! ## `pkg/auth/auth.go`: construction of the authorizer -/

namespace auth

open dsserr stacktrace

/-- Source `Configuration`, without the refresh cadence: `KeyResolver` is given by what
its `ResolveKeys` returns when the authorizer is created. -/
structure Configuration (κ : Type) where
  KeyResolver : Except Error (List κ)
  ScopesValidators : List (Operation × KeyClaimedScopesValidator)
  AcceptedAudiences : List String

/-- Source `NewRSAAuthorizer`: the authorizer as it is returned (the goroutine that refreshes
the keys afterwards is not modelled). -/
def NewRSAAuthorizer {κ : Type} (configuration : Configuration κ) :
    Except Error (Authorizer κ) :=
  match configuration.KeyResolver with
  | .error err => .error (propagate err "Unable to resolve keys")
  | .ok keys =>
    .ok { scopesValidators := configuration.ScopesValidators
          acceptedAudiences := NewRSAAuthorizer.auds configuration.AcceptedAudiences
          keys := keys }

/-- The claims the first key of `keys` that verifies the token gives, if a key verifies it
(the keys are tried in turn and the first that verifies the token wins). -/
def firstVerified {κ : Type} (parse : String → κ → Except Error claims) (tknStr : String)
    (keys : List κ) : Option claims :=
  keys.findSome? (fun key => (parse tknStr key).toOption)

/-- A token parser for running the interceptor on inputs: the key `1` verifies every
token, no other key does; every token has the given audience, the subject `uss1` and the
scope set `read`. -/
def exampleParse (audience : String) (_ : String) (key : Nat) : Except Error claims :=
  if key = 1 then .ok ⟨audience, "uss1", ["read"]⟩
  else .error (NewError "crypto/rsa: verification error")

/-- A context whose metadata carries the given `authorization` value. -/
def exampleCtx (authorization : String) : Context :=
  ⟨some [("authorization", [authorization])], none⟩

/-- A handler that answers with the owner found in its context. -/
def exampleHandler (ctx : Context) (_ : Unit) : Option String × Option Error :=
  (some (OwnerFromContext ctx).1, none)

/-- A configuration with the keys `0` and `1`, the scope `read` required for the method
`/Get`, and the given accepted audiences. -/
def exampleConfiguration (audiences : List String) : Configuration Nat :=
  { KeyResolver := .ok [0, 1]
    ScopesValidators := [("/Get", .allScopes (RequireAllScopes ["read"]))]
    AcceptedAudiences := audiences }

/-- The authorizer of `exampleConfiguration`. -/
def exampleAuthorizer (audiences : List String) : Authorizer Nat :=
  { keys := [0, 1]
    scopesValidators := [("/Get", .allScopes (RequireAllScopes ["read"]))]
    acceptedAudiences := NewRSAAuthorizer.auds audiences }

/-- The error code of what the interceptor returns, and whether the handler was invoked. -/
def Intercepted.summary {β : Type} (r : Intercepted β) : Option ErrorCode × Bool :=
  (r.err.map (fun e => e.code), r.handlerCtx.isSome)

end auth

/-! ## `cmds/http-gateway/main.go`: the error handler of the gateway -/

namespace codes

/-- Library `codes.Code`, an unsigned 32-bit integer. -/
abbrev Code := Nat

def OK : Code := 0
def Canceled : Code := 1
def Unknown : Code := 2
def InvalidArgument : Code := 3
def DeadlineExceeded : Code := 4
def NotFound : Code := 5
def AlreadyExists : Code := 6
def PermissionDenied : Code := 7
def ResourceExhausted : Code := 8
def FailedPrecondition : Code := 9
def Aborted : Code := 10
def OutOfRange : Code := 11
def Unimplemented : Code := 12
def Internal : Code := 13
def Unavailable : Code := 14
def DataLoss : Code := 15
def Unauthenticated : Code := 16

/-- The seventeen codes that the library defines. -/
def standard : List Code := List.range 17

end codes

namespace http

def StatusOK : Nat := 200
def StatusBadRequest : Nat := 400
def StatusUnauthorized : Nat := 401
def StatusForbidden : Nat := 403
def StatusNotFound : Nat := 404
def StatusRequestTimeout : Nat := 408
def StatusConflict : Nat := 409
def StatusRequestEntityTooLarge : Nat := 413
def StatusTooManyRequests : Nat := 429
def StatusInternalServerError : Nat := 500
def StatusNotImplemented : Nat := 501
def StatusServiceUnavailable : Nat := 503
def StatusGatewayTimeout : Nat := 504

/-- Library `http.Header`, a `map[string][]string`, as an association list. -/
abbrev Header := List (String × List String)

/-- Library `Header.Del`. -/
def Header.Del (h : Header) (key : String) : Header := h.filter (fun kv => kv.1 != key)

/-- Library `Header.Set`. -/
def Header.Set (h : Header) (key value : String) : Header :=
  Header.Del h key ++ [(key, [value])]

/-- Library `Header.Add`. -/
def Header.Add (h : Header) (key value : String) : Header :=
  match h.lookup key with
  | some vs => Header.Del h key ++ [(key, vs ++ [value])]
  | none => h ++ [(key, [value])]

end http

namespace gateway

open dsserr stacktrace

/-- The two codes of `pkg/errors` that `myCodeToHTTPStatus` names,
`codes.Code(uint16(errors.AreaTooLarge))` and `codes.Code(uint16(errors.MissingOVNs))`, as
parameters (their declaration is not part of these sources). -/
structure ErrorCodes where
  AreaTooLarge : codes.Code
  MissingOVNs : codes.Code

/-- Source `myCodeToHTTPStatus`: the `switch`, its cases in the order of the source, and
the status returned after it. -/
def myCodeToHTTPStatus (errors : ErrorCodes) (code : codes.Code) : Nat :=
  if code = codes.OK then http.StatusOK
  else if code = codes.Canceled then http.StatusRequestTimeout
  else if code = codes.Unknown then http.StatusInternalServerError
  else if code = codes.InvalidArgument then http.StatusBadRequest
  else if code = codes.DeadlineExceeded then http.StatusGatewayTimeout
  else if code = codes.NotFound then http.StatusNotFound
  else if code = codes.AlreadyExists then http.StatusConflict
  else if code = codes.PermissionDenied then http.StatusForbidden
  else if code = codes.Unauthenticated then http.StatusUnauthorized
  else if code = codes.ResourceExhausted then http.StatusTooManyRequests
  else if code = codes.FailedPrecondition then http.StatusBadRequest
  else if code = codes.Aborted then http.StatusConflict
  else if code = codes.OutOfRange then http.StatusBadRequest
  else if code = codes.Unimplemented then http.StatusNotImplemented
  else if code = codes.Internal then http.StatusInternalServerError
  else if code = codes.Unavailable then http.StatusServiceUnavailable
  else if code = codes.DataLoss then http.StatusInternalServerError
  else if code = errors.AreaTooLarge then http.StatusRequestEntityTooLarge
  else if code = errors.MissingOVNs then http.StatusConflict
  else http.StatusInternalServerError

/-- Generated message `auxpb.StandardErrorResponse`; `Code` is an `int32`. -/
structure StandardErrorResponse where
  Error : String
  Message : String
  Code : Int
  ErrorId : String
  deriving DecidableEq, Repr

/-- A detail of a status, by its dynamic type: an `scdpb.AirspaceConflictResponse` (with
content of type `χ`), an `auxpb.StandardErrorResponse`, or a value of another type, of
which only the name of the type is used. -/
inductive Detail (χ : Type) where
  | AirspaceConflictResponse (body : χ)
  | StandardErrorResponse (result : StandardErrorResponse)
  | other (typeName : String)

/-- Library `status.Status`: code, message and details. -/
structure Status (χ : Type) where
  Code : codes.Code
  Message : String
  Details : List (Detail χ)

/-- The error given to the handler: a status error, or another error with its text. -/
inductive CallError (χ : Type) where
  | ofStatus (s : Status χ)
  | other (text : String)

/-- Library `status.FromError`, followed by the replacement of the source when the error
is not a status: `status.New(codes.Unknown, err.Error())`. -/
def statusOf {χ : Type} (err : CallError χ) : Status χ :=
  match err with
  | .ofStatus s => s
  | .other text => ⟨codes.Unknown, text, []⟩

/-- A message given to `marshaler.Marshal`. -/
inductive Body (χ : Type) where
  | conflict (body : χ)
  | standard (body : StandardErrorResponse)

/-- Interface `runtime.Marshaler`: its content type, its `Marshal`, and, when it is a
`*runtime.HTTPBodyMarshaler`, the content type it gives for the status. -/
structure Marshaler (χ : Type) where
  ContentType : String
  Marshal : Body χ → Except Error String
  httpBodyContentType : Option (Status χ → String)

/-- Library `runtime.ServerMetadata`. -/
structure ServerMetadata where
  HeaderMD : List (String × List String)
  TrailerMD : List (String × List String)

/-- The library functions of the header forwarding, as parameters:
`runtime.DefaultHeaderMatcher`, `textproto.CanonicalMIMEHeaderKey` and the constant
`runtime.MetadataTrailerPrefix`. -/
structure HeaderRules where
  DefaultHeaderMatcher : String → Option String
  CanonicalMIMEHeaderKey : String → String
  MetadataTrailerPrefix : String

/-- What the handler leaves in the `http.ResponseWriter`: the header, the status given to
`WriteHeader`, the body written, and the messages given to `marshaler.Marshal`. -/
structure Written (χ : Type) where
  header : http.Header
  status : Nat
  body : String
  marshalled : List (Body χ)

/-- Go conversion `int32(code)` of an unsigned 32-bit code. -/
def toInt32 (code : codes.Code) : Int :=
  if code % 2 ^ 32 < 2 ^ 31 then ((code % 2 ^ 32 : Nat) : Int)
  else ((code % 2 ^ 32 : Nat) : Int) - 2 ^ 32

/-- Source `myHTTPError`, the text `fallback`, with `%d` of `codes.Internal`. -/
def fallback (errID : String) : String :=
  "\x7b\"error\": \"Internal server error (fallback) " ++ errID
    ++ "\", \"message\": \"Internal server error (fallback) " ++ errID
    ++ "\", \"error_id\": \"" ++ errID
    ++ "\", \"code\": " ++ toString codes.Internal ++ "\x7d"

/-- Source `handleForwardResponseServerMetadata`, the inner loop over the values. -/
def addValues (w : http.Header) (key : String) : List String → http.Header
  | [] => w
  | v :: vs => addValues (http.Header.Add w key v) key vs

/-- Source `handleForwardResponseServerMetadata`. -/
def handleForwardResponseServerMetadata (rules : HeaderRules) (w : http.Header) :
    List (String × List String) → http.Header
  | [] => w
  | (k, vs) :: rest =>
    match rules.DefaultHeaderMatcher k with
    | some h => handleForwardResponseServerMetadata rules (addValues w h vs) rest
    | none => handleForwardResponseServerMetadata rules w rest

/-- Source `handleForwardResponseTrailerHeader`. -/
def handleForwardResponseTrailerHeader (rules : HeaderRules) (w : http.Header) :
    List (String × List String) → http.Header
  | [] => w
  | (k, _) :: rest =>
    let tKey := rules.CanonicalMIMEHeaderKey (rules.MetadataTrailerPrefix ++ k)
    handleForwardResponseTrailerHeader rules (http.Header.Add w "Trailer" tKey) rest

/-- Source `handleForwardResponseTrailer`. -/
def handleForwardResponseTrailer (rules : HeaderRules) (w : http.Header) :
    List (String × List String) → http.Header
  | [] => w
  | (k, vs) :: rest =>
    handleForwardResponseTrailer rules (addValues w (rules.MetadataTrailerPrefix ++ k) vs) rest

/-- Source `myHTTPError`, lines 249 to 291: the content marshalled for the status `s`. It
returns `buf`, `marshalingErr` and the messages given to `marshaler.Marshal`. -/
def marshalContent {χ : Type} (errors : ErrorCodes) (marshaler : Marshaler χ)
    (errID : String) (s : Status χ) : String × Option Error × List (Body χ) :=
  let special : String × Option Error × List (Body χ) × Bool :=
    if s.Code = errors.MissingOVNs then
      match s.Details with
      | [] => ("", some (NewError "Missing Details from Status"), [], true)
      | Detail.AirspaceConflictResponse body :: _ =>
        match marshaler.Marshal (.conflict body) with
        | .ok buf => (buf, none, [.conflict body], true)
        | .error e => ("", some e, [.conflict body], true)
      | Detail.StandardErrorResponse _ :: _ =>
        ("", some (NewError ("Unable to cast s.Details()[0] from "
          ++ "*auxpb.StandardErrorResponse to *scdpb.AirspaceConflictResponse")), [], true)
      | Detail.other typeName :: _ =>
        ("", some (NewError ("Unable to cast s.Details()[0] from " ++ typeName
          ++ " to *scdpb.AirspaceConflictResponse")), [], true)
    else
      match s.Details with
      | [Detail.StandardErrorResponse result] =>
        match marshaler.Marshal (.standard result) with
        | .ok buf => (buf, none, [.standard result], true)
        | .error e => ("", some e, [.standard result], true)
      | _ => ("", none, [], false)
  if !special.2.2.2 then
    let body : StandardErrorResponse :=
      { Error := s.Message
        Message := s.Message
        Code := toInt32 s.Code
        ErrorId := errID }
    match marshaler.Marshal (.standard body) with
    | .ok buf => (buf, none, [.standard body])
    | .error e => ("", some e, [.standard body])
  else (special.1, special.2.1, special.2.2.1)

/-- Source `myHTTPError`: `errID` is what `errors.MakeErrID()` returns, `md` the server
metadata of the context (if any), `w` the header of the response writer before the
call. -/
def myHTTPError {χ : Type} (errors : ErrorCodes) (rules : HeaderRules) (errID : String)
    (md : Option ServerMetadata) (marshaler : Marshaler χ) (w : http.Header)
    (err : CallError χ) : Written χ :=
  let s := statusOf err
  let w1 := http.Header.Del w "Trailer"
  let contentType :=
    match marshaler.httpBodyContentType with
    | some ContentTypeFromMessage => ContentTypeFromMessage s
    | none => marshaler.ContentType
  let w2 := http.Header.Set w1 "Content-Type" contentType
  let content := marshalContent errors marshaler errID s
  match content.2.1 with
  | some _ =>
    { header := w2
      status := http.StatusInternalServerError
      body := fallback errID
      marshalled := content.2.2 }
  | none =>
    let md := md.getD ⟨[], []⟩
    let w3 := handleForwardResponseServerMetadata rules w2 md.HeaderMD
    let w4 := handleForwardResponseTrailerHeader rules w3 md.TrailerMD
    let st := myCodeToHTTPStatus errors s.Code
    { header := handleForwardResponseTrailer rules w4 md.TrailerMD
      status := st
      body := content.1
      marshalled := content.2.2 }

end gateway

namespace gateway

open dsserr stacktrace

/-- Codes of `pkg/errors` for running the handler on inputs: 17 and 18. -/
def exampleErrors : ErrorCodes := ⟨17, 18⟩

/-- Header rules that forward every header under its own name. -/
def exampleRules : HeaderRules := ⟨fun k => some k, fun k => k, "Grpc-Trailer-"⟩

/-- A marshaler that writes a conflict response as its text and a standard error response
as its message followed by its code and its error id. -/
def exampleMarshaler : Marshaler String :=
  { ContentType := "application/json"
    Marshal := fun body =>
      match body with
      | .conflict text => .ok text
      | .standard r => .ok (r.Message ++ "/" ++ toString r.Code ++ "/" ++ r.ErrorId)
    httpBodyContentType := none }

end gateway

/-! ## `OperationalIntent.SetCells`, and the retry of the closure of `PutSubscription` -/

namespace scdmodels

/-- Source `OperationalIntent.SetCells`, the loop that appends `s2.CellID(id)` for each
id. -/
def OperationalIntent.SetCells.loop : List Int → geo.CellUnion → geo.CellUnion
  | [], cells => cells
  | id :: rest, cells => OperationalIntent.SetCells.loop rest (cells ++ [geo.toCellID id])

/-- Source `OperationalIntent.SetCells`. -/
def OperationalIntent.SetCells (o : OperationalIntent) (cids : List Int) :
    OperationalIntent :=
  { o with Cells := OperationalIntent.SetCells.loop cids [] }

/-- An operational intent for running `SetCells` on inputs. -/
def exampleIntent : OperationalIntent :=
  { ID := "op-1", Manager := "uss1", Version := 1, State := OperationalIntentStateAccepted,
    OVN := "ovn", StartTime := some 0, EndTime := some 100,
    USSBaseURL := "https://uss1.example", SubscriptionID := "sub-1", AltitudeLower := none,
    AltitudeUpper := none, Cells := [1] }

end scdmodels

namespace scd

open dsserr stacktrace dssmodels scdmodels

/-- Modelled from the spec: a retry by `Store.Transact` (the store is not part of these
sources). On a serialization conflict the store runs the same closure again from the
start: the second attempt runs against the store state `st2` and with the captured
variable `subreq` as the first attempt left it. The two attempts may read the clock at
different times (`env1.now`, `env2.now`). -/
def PutSubscription.retry {σ ε π γ : Type} (env1 env2 : Env ε π γ) (r : Repository σ)
    (id : ID) (manager : Manager) (extents : Volume4D) (subreq : Subscription)
    (st1 st2 : σ) : Run σ (scdpb.PutSubscriptionResponse π γ) × Subscription :=
  let first := PutSubscription.action env1 r id manager extents subreq st1
  PutSubscription.action env2 r id manager extents first.2 st2

/-- The subscriptions given to `UpsertSubscription` in a list of repository calls. -/
def upserted : List RepoCall → List Subscription
  | [] => []
  | RepoCall.UpsertSubscription sub :: rest => sub :: upserted rest
  | _ :: rest => upserted rest

/-- The environment `memEnv` with the clock reading `now` and with an `AdjustTimeRange`
that fills the times the request omits: the start time from the previous subscription,
or from the clock for a new subscription; the end time from the previous subscription,
or one day after the start for a new subscription. Times that are set are kept. -/
def fillEnv (now : Time) : Env Volume4D ID Unit :=
  { memEnv with
    now := now
    AdjustTimeRange := fun now s old =>
      let start : Option Time :=
        match s.StartTime, old with
        | some t, _ => some t
        | none, some o => o.StartTime
        | none, none => some now
      let finish : Option Time :=
        match s.EndTime, old with
        | some t, _ => some t
        | none, some o => o.EndTime
        | none, none => start.map (fun t => t + 86400000000)
      ((start, finish), none) }

/-- A request model without start and end time, as `prepare` builds it for manager
`uss1`, id `sub-1` and the given version. -/
def openSubreq (version : OVN) : Subscription :=
  { ID := "sub-1", Manager := "uss1", Version := version, StartTime := none,
    EndTime := none, AltitudeLo := none, AltitudeHi := none, Cells := [],
    USSBaseURL := "https://uss.example", NotifyForOperationalIntents := true,
    NotifyForConstraints := false, NotificationIndex := 0 }

/-- The extents of a request without start and end time. -/
def openExtents : Volume4D := ⟨some ⟨none, none, none⟩, none, none⟩

end scd

/-! ## `pkg/scd/models/operational_intents.go`: `ValidateTimeRange` -/

namespace dssmodels

/-- Library `time.Duration` bounds: a duration is a signed 64-bit count of nanoseconds. -/
def minDuration : Int := -9223372036854775808

/-- The largest `time.Duration`. -/
def maxDuration : Int := 9223372036854775807

/-- Library `time.Time.Sub`: the duration `t - u` in nanoseconds (times are counted in
microseconds here); a difference outside the range of `time.Duration` gives the largest or
the smallest duration. -/
def Time.Sub (t u : Time) : Int :=
  let d := (t - u) * 1000
  if d > maxDuration then maxDuration
  else if d < minDuration then minDuration
  else d

end dssmodels

namespace scdmodels

open dsserr stacktrace dssmodels

/-- Source `OperationalIntent.ValidateTimeRange`: `none` is the nil error. -/
def OperationalIntent.ValidateTimeRange (o : OperationalIntent) : Option Error :=
  match o.StartTime with
  | none => some (NewErrorWithCode ErrorCode.BadRequest "Operation must have an time_start")
  | some startTime =>
    match o.EndTime with
    | none => some (NewErrorWithCode ErrorCode.BadRequest "Operation must have an time_end")
    | some endTime =>
      if Time.Sub endTime startTime < 0 then
        some (NewErrorWithCode ErrorCode.BadRequest
          "Operation time_end must be after time_start")
      else none

end scdmodels

/-! ## `pkg/rid/store/cockroach`: the searches and `ListExpiredSubscriptions` -/

namespace sql

/-- SQL `a = b` on nullable strings: `NULL` when an operand is `NULL`. -/
def eq (a b : Option String) : Truth :=
  match a, b with
  | some x, some y => some (decide (x = y))
  | _, _ => none

/-- SQL `p OR q` in three-valued logic. -/
def or (p q : Truth) : Truth :=
  match p, q with
  | some true, _ => some true
  | _, some true => some true
  | some false, some false => some false
  | _, _ => none

end sql

namespace ridstore

open dsserr stacktrace dssmodels

/-- The condition `cells && $1 AND subscriptions.owner = $2 AND ends_at >= $3` of
`SearchSubscriptionsByOwner`. -/
def inCellsOwnedAndActive (cids : List Int) (owner : Owner) (now : Time) (row : Row) :
    sql.Truth :=
  sql.and (sql.and (sql.overlaps row.cells cids) (sql.eq (some row.owner) (some owner)))
    (sql.ge row.ends_at (some now))

/-- Source `subscriptionRepo.SearchSubscriptions`, with `now` the reading of
`c.clock.Now()` and `MaxResultLimit` the constant of `dssmodels`: the result and the number
of queries issued. -/
def subscriptionRepo.SearchSubscriptions (MaxResultLimit : Nat) (now : Time)
    (cells : geo.CellUnion) (tbl : Table) : Except Error (List ridmodels.Subscription) × Nat :=
  if cells.length = 0 then
    (.error (NewErrorWithCode ErrorCode.BadRequest "no location provided"), 0)
  else
    let cids := geo.cellsToInt64 cells
    (.ok (subscriptionRepo.process (sql.select tbl (inCellsAndActive cids now) MaxResultLimit)),
      1)

/-- Source `subscriptionRepo.SearchSubscriptionsByOwner`. -/
def subscriptionRepo.SearchSubscriptionsByOwner (MaxResultLimit : Nat) (now : Time)
    (cells : geo.CellUnion) (owner : Owner) (tbl : Table) :
    Except Error (List ridmodels.Subscription) × Nat :=
  if cells.length = 0 then
    (.error (NewErrorWithCode ErrorCode.BadRequest "no location provided"), 0)
  else
    let cids := geo.cellsToInt64 cells
    (.ok (subscriptionRepo.process
      (sql.select tbl (inCellsOwnedAndActive cids owner now) MaxResultLimit)), 1)

/-- Source `subscriptionRepoV3.SearchSubscriptions`. -/
def subscriptionRepoV3.SearchSubscriptions (MaxResultLimit : Nat) (now : Time)
    (cells : geo.CellUnion) (tbl : Table) : Except Error (List ridmodels.Subscription) × Nat :=
  if cells.length = 0 then
    (.error (NewErrorWithCode ErrorCode.BadRequest "no location provided"), 0)
  else
    let cids := geo.cellsToInt64 cells
    (.ok (subscriptionRepoV3.process
      (sql.select tbl (inCellsAndActive cids now) MaxResultLimit)), 1)

/-- Source `subscriptionRepoV3.SearchSubscriptionsByOwner`. -/
def subscriptionRepoV3.SearchSubscriptionsByOwner (MaxResultLimit : Nat) (now : Time)
    (cells : geo.CellUnion) (owner : Owner) (tbl : Table) :
    Except Error (List ridmodels.Subscription) × Nat :=
  if cells.length = 0 then
    (.error (NewErrorWithCode ErrorCode.BadRequest "no location provided"), 0)
  else
    let cids := geo.cellsToInt64 cells
    (.ok (subscriptionRepoV3.process
      (sql.select tbl (inCellsOwnedAndActive cids owner now) MaxResultLimit)), 1)

/-- The text `writerQuery` of `ListExpiredSubscriptions` read as a condition on a row, for
a writer without a quote character: the quoted writer, or the text
`'' OR writer = NULL` when the writer is empty, placed in `(writer = ...)`. -/
def writerCondition (writer : String) (row : Row) : sql.Truth :=
  if writer.length = 0 then sql.or (sql.eq row.writer (some "")) (sql.eq row.writer none)
  else sql.eq row.writer (some writer)

/-- The condition `ends_at + INTERVAL 'n' MINUTE <= CURRENT_TIMESTAMP` (times in
microseconds). -/
def expired (expiredDurationInMin : Int) (current : Time) (row : Row) : sql.Truth :=
  sql.le (row.ends_at.map (fun e => e + expiredDurationInMin * 60000000)) (some current)

/-- Source `subscriptionRepo.ListExpiredSubscriptions`, with the constant
`expiredDurationInMin` of the package and `current` the value of `CURRENT_TIMESTAMP`. The
statement has no `LIMIT`. -/
def subscriptionRepo.ListExpiredSubscriptions (expiredDurationInMin : Int) (current : Time)
    (writer : String) (tbl : Table) : Except Error (List ridmodels.Subscription) :=
  .ok (subscriptionRepo.process (tbl.filter (fun row =>
    sql.holds (sql.and (expired expiredDurationInMin current row)
      (writerCondition writer row)))))

/-- Source `subscriptionRepoV3.ListExpiredSubscriptions`: always the empty list. -/
def subscriptionRepoV3.ListExpiredSubscriptions (_writer : String) (_tbl : Table) :
    Except Error (List ridmodels.Subscription) :=
  .ok []

/-- A table with three rows that ended long ago: one written by `w`, one with the empty
writer and one whose writer is `NULL`; and one row that has not ended. -/
def expiredTable : Table :=
  [ { id := "w", owner := "uss1", url := "u", notification_index := 0, cells := [10],
      starts_at := some 0, ends_at := some 100, writer := some "w", updated_at := 1 },
    { id := "empty", owner := "uss1", url := "u", notification_index := 0, cells := [10],
      starts_at := some 0, ends_at := some 100, writer := some "", updated_at := 2 },
    { id := "null", owner := "uss1", url := "u", notification_index := 0, cells := [10],
      starts_at := some 0, ends_at := some 100, writer := none, updated_at := 3 },
    { id := "live", owner := "uss1", url := "u", notification_index := 0, cells := [10],
      starts_at := some 0, ends_at := some 5000000000, writer := some "", updated_at := 4 } ]

/-- The ids of the subscriptions a repository call returned. -/
def idsOf (res : Except Error (List ridmodels.Subscription)) : Option (List ID) :=
  match res with
  | .ok subs => some (subs.map (fun s => s.ID))
  | .error _ => none

end ridstore

/-! ## `pkg/auth/auth.go`: `FromFileKeyResolver` -/

namespace auth

open dsserr stacktrace

/-- What `ioutil.ReadFile`, `pem.Decode`, `x509.ParsePKIXPublicKey` and the type assertion
to `*rsa.PublicKey` give for one key file: the first step that fails, or the key. -/
inductive KeyFile (κ : Type) where
  | unreadable (err : Error)
  | notPEM
  | unparsable (err : Error)
  | notRSA
  | key (k : κ)

/-- Source `FromFileKeyResolver`: the configured files and the cached keys (`none` is the
nil slice). -/
structure FromFileKeyResolver (κ : Type) where
  KeyFiles : List String
  keys : Option (List κ)
  deriving DecidableEq, Repr

/-- Source `FromFileKeyResolver.ResolveKeys`, the loop over the key files: every key
parsed is appended to `r.keys` at once; the first failure returns. The result is the
error, if any, and `r.keys` as the loop leaves it. -/
def FromFileKeyResolver.ResolveKeys.loop {κ : Type} (files : String → KeyFile κ) :
    List String → Option (List κ) → Option Error × Option (List κ)
  | [], keys => (none, keys)
  | f :: rest, keys =>
    match files f with
    | .unreadable err => (some (propagate err "Error reading key file"), keys)
    | .notPEM => (some (NewError "Failed to decode key file"), keys)
    | .unparsable err => (some (propagate err "Error parsing key as x509 public key"), keys)
    | .notRSA => (some (NewError ("Could not create RSA public key from " ++ f)), keys)
    | .key k => FromFileKeyResolver.ResolveKeys.loop files rest (some (keys.getD [] ++ [k]))

/-- Source `FromFileKeyResolver.ResolveKeys`, with `files` the content of the file system at
the time of the call: the keys or the error returned, and the resolver after the call. -/
def FromFileKeyResolver.ResolveKeys {κ : Type} (files : String → KeyFile κ)
    (r : FromFileKeyResolver κ) : Except Error (List κ) × FromFileKeyResolver κ :=
  match r.keys with
  | some keys => (.ok keys, r)
  | none =>
    match FromFileKeyResolver.ResolveKeys.loop files r.KeyFiles r.keys with
    | (some err, keys) => (.error err, { r with keys := keys })
    | (none, keys) => (.ok (keys.getD []), { r with keys := keys })

/-- A file system with the key `1` in `a.pem`, the key `2` in `b.pem`, and no other
readable file. -/
def exampleFiles (f : String) : KeyFile Nat :=
  if f = "a.pem" then .key 1
  else if f = "b.pem" then .key 2
  else .unreadable (NewError "open: no such file or directory")

/-- The keys of a call of `ResolveKeys`, if it returned without error. -/
def resolved {κ : Type} (res : Except Error (List κ) × FromFileKeyResolver κ) :
    Option (List κ) :=
  match res.1 with
  | .ok keys => some keys
  | .error _ => none

/-- A verification that succeeds with the key `1` only; the claims have the audience
`dss`, the subject `uss1` and no scope at all. -/
def noScopeParse (_ : String) (key : Nat) : Except Error claims :=
  if key = 1 then .ok ⟨"dss", "uss1", []⟩
  else .error (NewError "crypto/rsa: verification error")

end auth

/-! ## `cmds/http-gateway/main.go`: the retry loop of `main` -/

namespace gateway

/-- Library `time.Second`, in nanoseconds. -/
def Second : Nat := 1000000000

/-- Library `time.Minute`. -/
def Minute : Nat := 60 * Second

/-- Source constant `codeRetryable`. -/
def codeRetryable : Nat := 1

/-- The root cause of an error, as far as `main` compares it. -/
inductive RootCause where
  | nil
  | Canceled
  | ErrServerClosed
  | other (msg : String)
  deriving DecidableEq, Repr

/-- An error returned by `RunHTTPProxy`: its code (`stacktrace.GetCode`) and its root
cause (`stacktrace.RootCause`). -/
structure ProxyError where
  code : Nat
  rootCause : RootCause
  deriving DecidableEq, Repr

/-- How far `main` got: `returned` after a `break`, `panicked` after `logger.Panic`,
`indexOutOfRange` if `backoffs[backoff]` were out of range, and `retrying` when the next
call of `RunHTTPProxy` is under way. -/
inductive Ending where
  | returned
  | panicked
  | indexOutOfRange
  | retrying
  deriving DecidableEq, Repr

/-- A run of the loop of `main`: the number of calls of `RunHTTPProxy` that returned, the
values of `backoff` used as an index, the durations passed to `time.Sleep`, and how far
the run got. -/
structure MainRun where
  attempts : Nat
  indices : List Nat
  sleeps : List Nat
  ending : Ending
  deriving DecidableEq, Repr

/-- Source `main`, the slice `backoffs`. -/
def backoffs : List Nat :=
  [5 * Second, 15 * Second, 1 * Minute, 1 * Minute, 1 * Minute, 5 * Minute]

/-- Source `main`, the `for` loop, with `results` what the successive calls of
`RunHTTPProxy` return (`none` is the nil error) and `backoff` the loop variable. When all
the given results are used up the loop is still running. -/
def main.loop : List (Option ProxyError) → Nat → MainRun → MainRun
  | [], _, run => { run with ending := Ending.retrying }
  | result :: rest, backoff, run =>
    let run := { run with attempts := run.attempts + 1 }
    match result with
    | none => { run with ending := Ending.returned }
    | some err =>
      if err.code = codeRetryable then
        match backoffs[backoff]? with
        | none => { run with ending := Ending.indexOutOfRange }
        | some d =>
          let run := { run with indices := run.indices ++ [backoff], sleeps := run.sleeps ++ [d] }
          main.loop rest (if backoff < backoffs.length - 1 then backoff + 1 else backoff) run
      else
        match err.rootCause with
        | RootCause.other _ => { run with ending := Ending.panicked }
        | _ => { run with ending := Ending.returned }

/-- Source `main`, from `backoff := 0` on. -/
def main (results : List (Option ProxyError)) : MainRun :=
  main.loop results 0 ⟨0, [], [], Ending.retrying⟩

/-- A failure of `RunHTTPProxy` with the retryable code. -/
def retryableError : Option ProxyError := some ⟨codeRetryable, RootCause.other "connect"⟩

end gateway

/-! ## `pkg/scd/subscriptions_handler.go`: records that differ in foreign OVNs -/

namespace scd

open dsserr stacktrace dssmodels scdmodels

/-- The operational intent `op` with the OVN blanked if it is a record of a manager other
than `manager`. -/
def eraseForeignOVN (manager : Manager) (op : OperationalIntent) : OperationalIntent :=
  if op.Manager = manager then op else { op with OVN := "" }

/-- The operational intents `ops` with the OVN blanked on every record of a manager other
than `manager`: two lists with the same image differ only in the OVNs of records owned by
other managers. -/
def eraseForeignOVNs (manager : Manager) (ops : List OperationalIntent) :
    List OperationalIntent :=
  ops.map (eraseForeignOVN manager)

/-- The constraints with the OVN blanked on every record of another manager. -/
def eraseForeignConstraintOVNs (manager : Manager) (cs : List Constraint) : List Constraint :=
  cs.map (fun c => if c.Manager = manager then c else { c with OVN := "" })

/-- A repository like `memRepo` whose searches find the given records. -/
def recordsRepo (ops : List OperationalIntent) (cs : List Constraint) :
    Repository (List Subscription) :=
  { memRepo with
    SearchOperationalIntents := fun _ _ => .ok ops
    SearchConstraints := fun _ _ => .ok cs }

/-- An operational intent of manager `uss2` with the given OVN. -/
def foreignIntent (ovn : OVN) : OperationalIntent :=
  { exampleIntent with ID := "op-2", Manager := "uss2", OVN := ovn }

/-- A constraint of the given manager with the given OVN. -/
def exampleConstraint (manager : Manager) (ovn : OVN) : Constraint :=
  { ID := "c-1", Manager := manager, Version := 1, USSBaseURL := "https://uss.example",
    AltitudeLower := none, AltitudeUpper := none, StartTime := some 0, EndTime := some 100,
    Cells := [1], OVN := ovn }

/-- The environment `memEnv` with a covering of one cell for every volume. -/
def coverEnv : Env Volume4D ID Unit :=
  { memEnv with CalculateSpatialCovering := fun _ => ([1], none) }

/-- Request parameters asking for both kinds of notification. -/
def bothParams : scdpb.PutSubscriptionParameters Volume4D :=
  { memParams with NotifyForConstraints := true }

/-- A stored subscription of `uss1` that asks for both kinds of notification. -/
def bothSub : Subscription :=
  { memSub with NotifyForConstraints := true }

end scd

/-! ## `pkg/models/geo_test.go`: the covering that `TestPolygonCovering` expects -/

namespace geo

/-- The value of a hexadecimal digit. -/
def hexDigit (c : Char) : Option Nat :=
  if '0' ≤ c ∧ c ≤ '9' then some (c.toNat - '0'.toNat)
  else if 'a' ≤ c ∧ c ≤ 'f' then some (c.toNat - 'a'.toNat + 10)
  else if 'A' ≤ c ∧ c ≤ 'F' then some (c.toNat - 'A'.toNat + 10)
  else none

/-- Library `strconv.ParseUint(s, 16, 64)` on the digits of a token of at most 16 digits. -/
def parseHex : List Char → Nat → Option Nat
  | [], n => some n
  | c :: rest, n =>
    match hexDigit c with
    | none => none
    | some d => parseHex rest (16 * n + d)

/-- Library `s2.CellIDFromToken`: the token is a hexadecimal number with the trailing
zeros removed; an invalid token gives the cell id 0. -/
def CellIDFromToken (s : String) : Nat :=
  if s.length > 16 then 0
  else
    match parseHex s.toList 0 with
    | none => 0
    | some n => if s.length < 16 then (n * 2 ^ (4 * (16 - s.length))) % 2 ^ 64 else n

/-- The position of the lowest bit set in a number that is not 0, searched below `fuel`
positions. -/
def findLSBSetNonZero64 (n : Nat) : Nat → Nat → Nat
  | 0, i => i
  | fuel + 1, i => if n / 2 ^ i % 2 = 1 then i else findLSBSetNonZero64 n fuel (i + 1)

/-- Library `s2.CellID.Level`. -/
def Level (ci : Nat) : Nat := 30 - findLSBSetNonZero64 ci 64 0 / 2

/-- Source `TestPolygonCovering`, the value `want`. -/
def wantCovering : CellUnion :=
  [ CellIDFromToken "808fb0ac", CellIDFromToken "808fb744", CellIDFromToken "808fb754",
    CellIDFromToken "808fb75c", CellIDFromToken "808fb9fc", CellIDFromToken "808fba04",
    CellIDFromToken "808fba0c", CellIDFromToken "808fba14", CellIDFromToken "808fba1c",
    CellIDFromToken "808fba5c", CellIDFromToken "808fba64", CellIDFromToken "808fba6c",
    CellIDFromToken "808fba74", CellIDFromToken "808fba8c", CellIDFromToken "808fbad4",
    CellIDFromToken "808fbadc", CellIDFromToken "808fbae4", CellIDFromToken "808fbaec",
    CellIDFromToken "808fbaf4", CellIDFromToken "808fbb2c" ]

end geo

/-! ## Theorems -/

section Theorems

open dsserr stacktrace

/-- The loop of the all-scopes validator appends the absent required scopes, in order. -/
theorem auth.allScopes_loop_eq (scopes : auth.ScopeSet) (req : List auth.Scope)
    (missing : List String) :
    auth.allScopesRequiredValidator.loop scopes req missing
      = missing ++ req.filter (fun s => decide (s ∉ scopes)) := by
  induction req generalizing missing with
  | nil => simp [auth.allScopesRequiredValidator.loop]
  | cons a rest ih =>
    by_cases h : a ∈ scopes
    · simp [auth.allScopesRequiredValidator.loop, h, ih]
    · simp [auth.allScopesRequiredValidator.loop, h, ih]

/-- The loop of the any-scope validator returns nil exactly when a required scope is
claimed. -/
theorem auth.anyScopes_loop_none (scopes : auth.ScopeSet) (req : List auth.Scope)
    (missing : List String) :
    auth.anyScopesRequiredValidator.loop scopes req missing = none
      ↔ ∃ s ∈ req, s ∈ scopes := by
  induction req generalizing missing with
  | nil => simp [auth.anyScopesRequiredValidator.loop]
  | cons a rest ih =>
    by_cases h : a ∈ scopes
    · simp [auth.anyScopesRequiredValidator.loop, h]
    · simp [auth.anyScopesRequiredValidator.loop, h, ih]

/-- C7: for every state value `s` (named or not), `s.RequiresKey()` is false exactly when
`s` is Nonconforming or Contingent, and true otherwise; in particular it is true for the
unknown state, Accepted and Activated. -/
theorem C7_RequiresKey_iff (s : scdmodels.OperationalIntentState) :
    (s.RequiresKey = false ↔
      (s = scdmodels.OperationalIntentStateNonconforming
        ∨ s = scdmodels.OperationalIntentStateContingent))
    ∧ (s.RequiresKey = true ↔
      ¬ (s = scdmodels.OperationalIntentStateNonconforming
        ∨ s = scdmodels.OperationalIntentStateContingent))
    ∧ scdmodels.OperationalIntentStateUnknown.RequiresKey = true
    ∧ scdmodels.OperationalIntentStateAccepted.RequiresKey = true
    ∧ scdmodels.OperationalIntentStateActivated.RequiresKey = true
    ∧ scdmodels.OperationalIntentStateNonconforming.RequiresKey = false
    ∧ scdmodels.OperationalIntentStateContingent.RequiresKey = false := by
  refine ⟨?_, ?_, by decide, by decide, by decide, by decide, by decide⟩
  · unfold scdmodels.OperationalIntentState.RequiresKey
    by_cases h1 : s = scdmodels.OperationalIntentStateNonconforming
    · simp [h1]
    · by_cases h2 : s = scdmodels.OperationalIntentStateContingent
      · simp [h2]
      · simp [h1, h2]
  · unfold scdmodels.OperationalIntentState.RequiresKey
    by_cases h1 : s = scdmodels.OperationalIntentStateNonconforming
    · simp [h1]
    · by_cases h2 : s = scdmodels.OperationalIntentStateContingent
      · simp [h2]
      · simp [h1, h2]

/-- C8: `RequireAllScopes(required...).ValidateKeyClaimedScopes(claimed)` returns nil if
and only if every required scope is in the claimed set, and when it returns an error the
error text is the required scopes absent from the claimed set, in the order required,
joined by ", " (and that list is not empty). -/
theorem C8_RequireAllScopes_validate (required : List auth.Scope) (claimed : auth.ScopeSet) :
    ((auth.RequireAllScopes required).ValidateKeyClaimedScopes claimed = none
      ↔ ∀ s ∈ required, s ∈ claimed)
    ∧ ∀ e, (auth.RequireAllScopes required).ValidateKeyClaimedScopes claimed = some e →
        e.Error = String.intercalate ", " (required.filter (fun s => decide (s ∉ claimed)))
        ∧ required.filter (fun s => decide (s ∉ claimed)) ≠ [] := by
  have key : required.filter (fun s => decide (s ∉ claimed)) = []
      ↔ ∀ s ∈ required, s ∈ claimed := by
    simp [List.filter_eq_nil_iff]
  simp only [auth.RequireAllScopes, auth.allScopesRequiredValidator.ValidateKeyClaimedScopes,
    auth.allScopes_loop_eq, List.nil_append]
  generalize required.filter (fun s => decide (s ∉ claimed)) = m at key ⊢
  cases m with
  | nil =>
    refine ⟨by simpa using key, ?_⟩
    intro e he
    simp at he
  | cons a l =>
    refine ⟨by simpa using key, ?_⟩
    intro e he
    simp only [List.length_cons, gt_iff_lt, Nat.zero_lt_succ, if_true,
      Option.some.injEq] at he
    subst he
    exact ⟨rfl, by simp⟩

/-- C9: `RequireAnyScope(required...).ValidateKeyClaimedScopes(claimed)` returns nil if and
only if at least one required scope is in the claimed set; a validator built from no
required scope rejects every claimed set. -/
theorem C9_RequireAnyScope_validate (required : List auth.Scope) (claimed : auth.ScopeSet) :
    ((auth.RequireAnyScope required).ValidateKeyClaimedScopes claimed = none
      ↔ ∃ s ∈ required, s ∈ claimed)
    ∧ (auth.RequireAnyScope []).ValidateKeyClaimedScopes claimed ≠ none := by
  constructor
  · simp only [auth.RequireAnyScope, auth.anyScopesRequiredValidator.ValidateKeyClaimedScopes]
    exact auth.anyScopes_loop_none claimed required []
  · simp [auth.RequireAnyScope, auth.anyScopesRequiredValidator.ValidateKeyClaimedScopes,
      auth.anyScopesRequiredValidator.loop]

/-- When no key verifies the token the key loop ends unvalidated, and with the error of
the last key when there is at least one key. -/
theorem auth.keyLoop_all_fail {κ : Type} (parse : String → κ → Except Error auth.claims)
    (tkn : String) (keys : List κ) (st : auth.keyLoopState)
    (hfail : ∀ k ∈ keys, ∃ e, parse tkn k = .error e) (hst : st.validated = false) :
    (auth.AuthInterceptor.keyLoop parse tkn keys st).validated = false
    ∧ (keys ≠ [] → ∃ e, (auth.AuthInterceptor.keyLoop parse tkn keys st).err = some e) := by
  induction keys generalizing st with
  | nil => simp [auth.AuthInterceptor.keyLoop, hst]
  | cons k rest ih =>
    obtain ⟨e, he⟩ := hfail k (List.mem_cons_self k rest)
    have hrest : ∀ k ∈ rest, ∃ e, parse tkn k = .error e :=
      fun k hk => hfail k (List.mem_cons_of_mem _ hk)
    have h := ih ⟨false, some e, ⟨"", "", []⟩⟩ hrest rfl
    simp only [auth.AuthInterceptor.keyLoop, he]
    refine ⟨h.1, fun _ => ?_⟩
    cases rest with
    | nil => exact ⟨e, by simp [auth.AuthInterceptor.keyLoop]⟩
    | cons k2 rest2 => exact h.2 (by simp)

/-- The parts of C10 that the code satisfies: a request without token is rejected with
Unauthenticated "Missing access token", and with at least one resolved key, a token that
no key verifies is rejected with Unauthenticated; the handler is not invoked. -/
theorem auth.AuthInterceptor_rejects {κ α β : Type} (a : auth.Authorizer κ)
    (parse : String → κ → Except Error auth.claims) (ctx : auth.Context) (req : α)
    (FullMethod : String) (handler : auth.Context → α → Option β × Option Error) :
    ((ctx.metadata = none ∨ ∃ md, ctx.metadata = some md ∧ auth.MD.Get md "authorization" = [])
      → (a.AuthInterceptor parse ctx req FullMethod handler).err
          = some ⟨ErrorCode.Unauthenticated, ["Missing access token"]⟩
        ∧ (a.AuthInterceptor parse ctx req FullMethod handler).resp = none
        ∧ (a.AuthInterceptor parse ctx req FullMethod handler).handlerCtx = none)
    ∧ (∀ tkn, auth.getToken ctx = (tkn, true) → a.keys ≠ []
        → (∀ k ∈ a.keys, ∃ e, parse tkn k = .error e)
        → (∃ e, (a.AuthInterceptor parse ctx req FullMethod handler).err = some e
            ∧ e.code = ErrorCode.Unauthenticated)
          ∧ (a.AuthInterceptor parse ctx req FullMethod handler).resp = none
          ∧ (a.AuthInterceptor parse ctx req FullMethod handler).handlerCtx = none) := by
  constructor
  · intro h
    have hg : auth.getToken ctx = ("", false) := by
      rcases h with h | ⟨md, h1, h2⟩
      · simp [auth.getToken, h]
      · simp [auth.getToken, h1, h2]
    simp [auth.Authorizer.AuthInterceptor, hg, NewErrorWithCode]
  · intro tkn hg hne hfail
    obtain ⟨hv, herr⟩ := auth.keyLoop_all_fail parse tkn a.keys
      ⟨false, none, ⟨"", "", []⟩⟩ hfail rfl
    obtain ⟨e, he⟩ := herr hne
    simp [auth.Authorizer.AuthInterceptor, hg, hv, he, PropagateWithCode]

/-- C10 (the code at the failing input): with an empty key set and a token present in the
metadata, `AuthInterceptor` returns a nil response and a nil error (no Unauthenticated
error), without invoking the handler. -/
theorem C10_AuthInterceptor_empty_keys {α β : Type}
    (parse : String → Unit → Except Error auth.claims) (req : α) (FullMethod : String)
    (handler : auth.Context → α → Option β × Option Error)
    (validators : List (auth.Operation × auth.KeyClaimedScopesValidator))
    (auds : List (String × Bool)) :
    (auth.Authorizer.AuthInterceptor ⟨[], validators, auds⟩ parse
        ⟨some [("authorization", ["Bearer abc"])], none⟩ req FullMethod handler).err = none
    ∧ (auth.Authorizer.AuthInterceptor ⟨[], validators, auds⟩ parse
        ⟨some [("authorization", ["Bearer abc"])], none⟩ req FullMethod handler).resp = none
    ∧ (auth.Authorizer.AuthInterceptor ⟨[], validators, auds⟩ parse
        ⟨some [("authorization", ["Bearer abc"])], none⟩ req FullMethod handler).handlerCtx
        = none := by
  simp [auth.Authorizer.AuthInterceptor, auth.getToken, auth.MD.Get, List.lookup,
    auth.AuthInterceptor.keyLoop, PropagateWithCode]

/-! ### SCD subscription handlers -/

/-- What a successful `prepare` tells about its results. -/
theorem scd.prepare_ok {ε π γ : Type} (a : scd.Server) (env : scd.Env ε π γ)
    (ctx : auth.Context) (sid version : String) (params : scdpb.PutSubscriptionParameters ε)
    (id : dssmodels.ID) (manager : dssmodels.Manager) (extents : dssmodels.Volume4D)
    (subreq : scdmodels.Subscription)
    (h : scd.PutSubscription.prepare a env ctx sid version params
      = .ok (id, manager, extents, subreq)) :
    env.IDFromString sid = .ok id ∧ auth.ManagerFromContext ctx = (manager, true)
    ∧ subreq.ID = id ∧ subreq.Manager = manager ∧ subreq.Version = version := by
  unfold scd.PutSubscription.prepare at h
  split at h
  · simp at h
  · rename_i id1 hid
    split at h
    · simp at h
    · rename_i manager1 hm
      split at h
      · simp at h
      · split at h
        · simp at h
        · split at h
          · simp at h
          · split at h
            · simp at h
            · simp only at h
              split at h
              · simp at h
              · simp only [scd.Outcome.ok.injEq, Prod.mk.injEq] at h
                obtain ⟨h1, h2, _, h4⟩ := h
                subst h1 h2 h4
                exact ⟨hid, hm, rfl, rfl, rfl⟩

/-- The checks against no previous subscription: a non-empty version is NotFound. -/
theorem scd.checkOld_none {σ ε π γ : Type} (env : scd.Env ε π γ) (r : scd.Repository σ)
    (subreq : scdmodels.Subscription) (st : σ) (hv : subreq.Version ≠ "") :
    ∃ e, scd.PutSubscription.checkOld env r subreq none st = (.error e, [], subreq)
      ∧ e.code = ErrorCode.NotFound := by
  simp [scd.PutSubscription.checkOld, hv, NewErrorWithCode]

/-- The checks against a previous subscription `o`, in the order of the source: empty
version, then version mismatch, then manager mismatch. -/
theorem scd.checkOld_some {σ ε π γ : Type} (env : scd.Env ε π γ) (r : scd.Repository σ)
    (subreq o : scdmodels.Subscription) (st : σ) :
    (subreq.Version = "" →
      ∃ e, scd.PutSubscription.checkOld env r subreq (some o) st = (.error e, [], subreq)
        ∧ e.code = ErrorCode.AlreadyExists)
    ∧ (subreq.Version ≠ "" → subreq.Version ≠ o.Version →
      ∃ e, scd.PutSubscription.checkOld env r subreq (some o) st = (.error e, [], subreq)
        ∧ e.code = ErrorCode.VersionMismatch)
    ∧ (subreq.Version ≠ "" → subreq.Version = o.Version → o.Manager ≠ subreq.Manager →
      ∃ e, scd.PutSubscription.checkOld env r subreq (some o) st = (.error e, [], subreq)
        ∧ e.code = ErrorCode.PermissionDenied) := by
  refine ⟨?_, ?_, ?_⟩
  · intro h
    simp [scd.PutSubscription.checkOld, h, NewErrorWithCode]
  · intro h1 h2
    simp [scd.PutSubscription.checkOld, h1, h2, NewErrorWithCode, propagate]
  · intro h1 h2 h3
    have h4 : o.Version ≠ "" := by rw [← h2]; exact h1
    simp [scd.PutSubscription.checkOld, h2, h3, h4, NewErrorWithCode, propagate]

/-- A put that passes `prepare` and whose checks against the previous subscription reject
it fails with the error of the checks, after the single call `GetSubscription`, and leaves
the store as it was. -/
theorem scd.PutSubscription_rejected {σ ε π γ : Type} (a : scd.Server)
    (env : scd.Env ε π γ) (r : scd.Repository σ) (ctx : auth.Context)
    (sid version : String) (params : scdpb.PutSubscriptionParameters ε) (st : σ)
    (id : dssmodels.ID) (manager : dssmodels.Manager) (extents : dssmodels.Volume4D)
    (subreq : scdmodels.Subscription) (old : Option scdmodels.Subscription)
    (code : ErrorCode)
    (hprep : scd.PutSubscription.prepare a env ctx sid version params
      = .ok (id, manager, extents, subreq))
    (hget : r.GetSubscription st id = .ok old)
    (hadj : (env.AdjustTimeRange env.now subreq old).2 = none)
    (hchk : ∀ sr : scdmodels.Subscription, sr.Version = version → sr.Manager = manager →
      ∃ e, scd.PutSubscription.checkOld env r sr old st = (.error e, [], sr)
        ∧ e.code = code) :
    (∃ e, (a.PutSubscription env r ctx sid version params st).outcome = .error e
        ∧ e.code = code)
    ∧ (a.PutSubscription env r ctx sid version params st).calls
        = [scd.RepoCall.GetSubscription id]
    ∧ (a.PutSubscription env r ctx sid version params st).state = st := by
  obtain ⟨_, _, hsid, hsm, hsv⟩ := scd.prepare_ok a env ctx sid version params id manager
    extents subreq hprep
  subst hsid
  obtain ⟨e, he, hcode⟩ := hchk
    { subreq with StartTime := (env.AdjustTimeRange env.now subreq old).1.1,
                  EndTime := (env.AdjustTimeRange env.now subreq old).1.2 } hsv hsm
  simp only [scd.Server.PutSubscription, hprep, scd.Transact, scd.PutSubscription.action,
    hget, hadj, he]
  refine ⟨⟨e, rfl, hcode⟩, ?_, ?_⟩
  · simp
  · trivial

/-- C1: in `PutSubscription`, for a request that passes the validation done before the
transaction (the id parses, a manager is in the context), when `GetSubscription` answers
and `AdjustTimeRange` succeeds: with no stored subscription and a non-empty version the
call fails with NotFound; with a stored subscription and the empty version it fails with
AlreadyExists (also through `CreateSubscription`); with a stored subscription and a
non-empty version different from the stored one it fails with VersionMismatch. In the
three cases `UpsertSubscription` is not called and the store is unchanged. -/
theorem C1_PutSubscription_version_discipline {σ ε π γ : Type} (a : scd.Server)
    (env : scd.Env ε π γ) (r : scd.Repository σ) (ctx : auth.Context)
    (sid version : String) (params : scdpb.PutSubscriptionParameters ε) (st : σ)
    (id : dssmodels.ID) (manager : dssmodels.Manager) (extents : dssmodels.Volume4D)
    (subreq : scdmodels.Subscription) (old : Option scdmodels.Subscription)
    (hprep : scd.PutSubscription.prepare a env ctx sid version params
      = .ok (id, manager, extents, subreq))
    (hget : r.GetSubscription st id = .ok old)
    (hadj : (env.AdjustTimeRange env.now subreq old).2 = none) :
    (old = none → version ≠ "" →
      (∃ e, (a.PutSubscription env r ctx sid version params st).outcome = .error e
          ∧ e.code = ErrorCode.NotFound)
      ∧ (∀ c ∈ (a.PutSubscription env r ctx sid version params st).calls, c.isUpsert = false)
      ∧ (a.PutSubscription env r ctx sid version params st).state = st)
    ∧ (∀ o, old = some o → version = "" →
      (∃ e, (a.PutSubscription env r ctx sid version params st).outcome = .error e
          ∧ e.code = ErrorCode.AlreadyExists)
      ∧ (∃ e, (a.CreateSubscription env r ctx sid params st).outcome = .error e
          ∧ e.code = ErrorCode.AlreadyExists)
      ∧ (∀ c ∈ (a.PutSubscription env r ctx sid version params st).calls, c.isUpsert = false)
      ∧ (a.PutSubscription env r ctx sid version params st).state = st)
    ∧ (∀ o, old = some o → version ≠ "" → version ≠ o.Version →
      (∃ e, (a.PutSubscription env r ctx sid version params st).outcome = .error e
          ∧ e.code = ErrorCode.VersionMismatch)
      ∧ (∀ c ∈ (a.PutSubscription env r ctx sid version params st).calls, c.isUpsert = false)
      ∧ (a.PutSubscription env r ctx sid version params st).state = st) := by
  refine ⟨?_, ?_, ?_⟩
  · intro ho hv
    subst ho
    obtain ⟨h1, h2, h3⟩ := scd.PutSubscription_rejected a env r ctx sid version params st id
      manager extents subreq none ErrorCode.NotFound hprep hget hadj
      (fun sr hsv _ => scd.checkOld_none env r sr st (by rw [hsv]; exact hv))
    exact ⟨h1, by rw [h2]; simp [scd.RepoCall.isUpsert], h3⟩
  · intro o ho hv
    subst ho
    obtain ⟨h1, h2, h3⟩ := scd.PutSubscription_rejected a env r ctx sid version params st id
      manager extents subreq (some o) ErrorCode.AlreadyExists hprep hget hadj
      (fun sr hsv _ => (scd.checkOld_some env r sr o st).1 (by rw [hsv]; exact hv))
    refine ⟨h1, ?_, by rw [h2]; simp [scd.RepoCall.isUpsert], h3⟩
    subst hv
    exact h1
  · intro o ho hv hne
    subst ho
    obtain ⟨h1, h2, h3⟩ := scd.PutSubscription_rejected a env r ctx sid version params st id
      manager extents subreq (some o) ErrorCode.VersionMismatch hprep hget hadj
      (fun sr hsv _ => (scd.checkOld_some env r sr o st).2.1 (by rw [hsv]; exact hv)
        (by rw [hsv]; exact hne))
    exact ⟨h1, by rw [h2]; simp [scd.RepoCall.isUpsert], h3⟩

/-- C1, at a concrete input: manager `uss1` puts its stored subscription `sub-1` (version
`v1`) with the stale version `v0`. -/
theorem C1_PutSubscription_version_discipline_witness :
    (∃ e, (scd.Server.PutSubscription ⟨true⟩ scd.memEnv scd.memRepo (scd.memCtx "uss1")
        "sub-1" "v0" scd.memParams [scd.memSub]).outcome = .error e
        ∧ e.code = ErrorCode.VersionMismatch)
    ∧ (∀ c ∈ (scd.Server.PutSubscription ⟨true⟩ scd.memEnv scd.memRepo (scd.memCtx "uss1")
        "sub-1" "v0" scd.memParams [scd.memSub]).calls, c.isUpsert = false)
    ∧ (scd.Server.PutSubscription ⟨true⟩ scd.memEnv scd.memRepo (scd.memCtx "uss1")
        "sub-1" "v0" scd.memParams [scd.memSub]).state = [scd.memSub] :=
  (C1_PutSubscription_version_discipline ⟨true⟩ scd.memEnv scd.memRepo (scd.memCtx "uss1")
    "sub-1" "v0" scd.memParams [scd.memSub] "sub-1" "uss1" scd.memParams.Extents
    { ID := "sub-1", Manager := "uss1", Version := "v0", StartTime := some 0,
      EndTime := some 100, AltitudeLo := none, AltitudeHi := none, Cells := [],
      USSBaseURL := "https://uss.example", NotifyForOperationalIntents := true,
      NotifyForConstraints := false, NotificationIndex := 0 }
    (some scd.memSub) rfl rfl rfl).2.2 scd.memSub rfl (by decide) (by decide)

/-- C2 as stated fails: manager `uss2` puts the subscription `sub-1` stored for manager
`uss1`, with the empty version and with a stale version; the calls fail with AlreadyExists
and VersionMismatch, not with PermissionDenied. -/
theorem C2_PutSubscription_other_manager_counterexample :
    scd.memRepo.GetSubscription [scd.memSub] "sub-1" = .ok (some scd.memSub)
    ∧ scd.memSub.Manager ≠ "uss2"
    ∧ (scd.Server.PutSubscription ⟨true⟩ scd.memEnv scd.memRepo (scd.memCtx "uss2")
        "sub-1" "" scd.memParams [scd.memSub]).outcome.code? = some ErrorCode.AlreadyExists
    ∧ (scd.Server.PutSubscription ⟨true⟩ scd.memEnv scd.memRepo (scd.memCtx "uss2")
        "sub-1" "" scd.memParams [scd.memSub]).outcome.code?
        ≠ some ErrorCode.PermissionDenied
    ∧ (scd.Server.PutSubscription ⟨true⟩ scd.memEnv scd.memRepo (scd.memCtx "uss2")
        "sub-1" "v0" scd.memParams [scd.memSub]).outcome.code?
        = some ErrorCode.VersionMismatch
    ∧ (scd.Server.PutSubscription ⟨true⟩ scd.memEnv scd.memRepo (scd.memCtx "uss2")
        "sub-1" "v0" scd.memParams [scd.memSub]).outcome.code?
        ≠ some ErrorCode.PermissionDenied := by
  refine ⟨rfl, by decide, by decide, by decide, by decide, by decide⟩

/-- A delete by another manager than the one of the stored subscription fails with
PermissionDenied after the single call `GetSubscription`, and leaves the store as it
was. -/
theorem scd.DeleteSubscription_other_manager {σ ε π γ : Type} (a : scd.Server)
    (env : scd.Env ε π γ) (r : scd.Repository σ) (ctx : auth.Context) (sid : String)
    (st : σ) (id : dssmodels.ID) (manager : dssmodels.Manager) (o : scdmodels.Subscription)
    (hid : env.IDFromString sid = .ok id)
    (hctx : auth.ManagerFromContext ctx = (manager, true))
    (hget : r.GetSubscription st id = .ok (some o)) (hmgr : o.Manager ≠ manager) :
    (∃ e, (a.DeleteSubscription env r ctx sid st).outcome = .error e
        ∧ e.code = ErrorCode.PermissionDenied)
    ∧ (a.DeleteSubscription env r ctx sid st).calls = [scd.RepoCall.GetSubscription id]
    ∧ (a.DeleteSubscription env r ctx sid st).state = st := by
  simp [scd.Server.DeleteSubscription, hid, hctx, scd.Transact, scd.DeleteSubscription.action,
    hget, hmgr, NewErrorWithCode, propagate]

/-- C2 (amended): for a stored subscription `o` whose manager differs from the caller,
`DeleteSubscription` fails with PermissionDenied; `PutSubscription` (for a request that
passes the validation before the transaction and `AdjustTimeRange`) fails with
PermissionDenied when the supplied version is non-empty and equal to the stored one, with
AlreadyExists when it is empty, and with VersionMismatch when it is non-empty and differs
from the stored one. -/
theorem C2_other_manager_rejected {σ ε π γ : Type} (a : scd.Server)
    (env : scd.Env ε π γ) (r : scd.Repository σ) (ctx : auth.Context) (sid : String)
    (st : σ) (id : dssmodels.ID) (manager : dssmodels.Manager) (o : scdmodels.Subscription)
    (hid : env.IDFromString sid = .ok id)
    (hctx : auth.ManagerFromContext ctx = (manager, true))
    (hget : r.GetSubscription st id = .ok (some o)) (hmgr : o.Manager ≠ manager) :
    (∃ e, (a.DeleteSubscription env r ctx sid st).outcome = .error e
        ∧ e.code = ErrorCode.PermissionDenied)
    ∧ ∀ (version : String) (params : scdpb.PutSubscriptionParameters ε)
        (extents : dssmodels.Volume4D) (subreq : scdmodels.Subscription),
        scd.PutSubscription.prepare a env ctx sid version params
          = .ok (id, manager, extents, subreq) →
        (env.AdjustTimeRange env.now subreq (some o)).2 = none →
        (version ≠ "" → version = o.Version →
          ∃ e, (a.PutSubscription env r ctx sid version params st).outcome = .error e
            ∧ e.code = ErrorCode.PermissionDenied)
        ∧ (version = "" →
          ∃ e, (a.PutSubscription env r ctx sid version params st).outcome = .error e
            ∧ e.code = ErrorCode.AlreadyExists)
        ∧ (version ≠ "" → version ≠ o.Version →
          ∃ e, (a.PutSubscription env r ctx sid version params st).outcome = .error e
            ∧ e.code = ErrorCode.VersionMismatch) := by
  refine ⟨(scd.DeleteSubscription_other_manager a env r ctx sid st id manager o hid hctx
    hget hmgr).1, ?_⟩
  intro version params extents subreq hprep hadj
  refine ⟨?_, ?_, ?_⟩
  · intro hv heq
    exact (scd.PutSubscription_rejected a env r ctx sid version params st id manager extents
      subreq (some o) ErrorCode.PermissionDenied hprep hget hadj
      (fun sr hsv hsm => (scd.checkOld_some env r sr o st).2.2 (by rw [hsv]; exact hv)
        (by rw [hsv]; exact heq) (by rw [hsm]; exact hmgr))).1
  · intro hv
    exact (scd.PutSubscription_rejected a env r ctx sid version params st id manager extents
      subreq (some o) ErrorCode.AlreadyExists hprep hget hadj
      (fun sr hsv _ => (scd.checkOld_some env r sr o st).1 (by rw [hsv]; exact hv))).1
  · intro hv hne
    exact (scd.PutSubscription_rejected a env r ctx sid version params st id manager extents
      subreq (some o) ErrorCode.VersionMismatch hprep hget hadj
      (fun sr hsv _ => (scd.checkOld_some env r sr o st).2.1 (by rw [hsv]; exact hv)
        (by rw [hsv]; exact hne))).1

/-- C2 (amended), at a concrete input: manager `uss2` deletes, and puts with the current
version `v1`, the subscription `sub-1` stored for manager `uss1`. -/
theorem C2_other_manager_rejected_witness :
    (∃ e, (scd.Server.DeleteSubscription ⟨true⟩ scd.memEnv scd.memRepo (scd.memCtx "uss2")
        "sub-1" [scd.memSub]).outcome = .error e ∧ e.code = ErrorCode.PermissionDenied)
    ∧ (∃ e, (scd.Server.PutSubscription ⟨true⟩ scd.memEnv scd.memRepo (scd.memCtx "uss2")
        "sub-1" "v1" scd.memParams [scd.memSub]).outcome = .error e
        ∧ e.code = ErrorCode.PermissionDenied) :=
  have h := C2_other_manager_rejected ⟨true⟩ scd.memEnv scd.memRepo (scd.memCtx "uss2")
    "sub-1" [scd.memSub] "sub-1" "uss2" scd.memSub rfl rfl rfl (by decide)
  ⟨h.1, (h.2 "v1" scd.memParams scd.memParams.Extents
    { ID := "sub-1", Manager := "uss2", Version := "v1", StartTime := some 0,
      EndTime := some 100, AltitudeLo := none, AltitudeHi := none, Cells := [],
      USSBaseURL := "https://uss.example", NotifyForOperationalIntents := true,
      NotifyForConstraints := false, NotificationIndex := 0 }
    rfl rfl).1 (by decide) (by decide)⟩

/-- A put by another manager than the one of the stored subscription makes no write call
and leaves the store as it was, whatever the request and the version. -/
theorem scd.PutSubscription_other_manager_no_write {σ ε π γ : Type} (a : scd.Server)
    (env : scd.Env ε π γ) (r : scd.Repository σ) (ctx : auth.Context)
    (sid version : String) (params : scdpb.PutSubscriptionParameters ε) (st : σ)
    (id : dssmodels.ID) (manager : dssmodels.Manager) (o : scdmodels.Subscription)
    (hid : env.IDFromString sid = .ok id)
    (hctx : auth.ManagerFromContext ctx = (manager, true))
    (hget : r.GetSubscription st id = .ok (some o)) (hmgr : o.Manager ≠ manager) :
    (∀ c ∈ (a.PutSubscription env r ctx sid version params st).calls, c.isWrite = false)
    ∧ (a.PutSubscription env r ctx sid version params st).state = st := by
  cases hprep : scd.PutSubscription.prepare a env ctx sid version params with
  | panic => simp [scd.Server.PutSubscription, hprep]
  | error e => simp [scd.Server.PutSubscription, hprep]
  | ok res =>
    obtain ⟨id1, manager1, extents, subreq⟩ := res
    obtain ⟨hid1, hctx1, hsid, _, _⟩ := scd.prepare_ok a env ctx sid version params id1
      manager1 extents subreq hprep
    have e1 : id1 = id := by
      rw [hid] at hid1
      injection hid1 with h
      exact h.symm
    have e2 : manager1 = manager := by
      rw [hctx] at hctx1
      exact (congrArg Prod.fst hctx1).symm
    subst e1 e2
    cases hadj : (env.AdjustTimeRange env.now subreq (some o)).2 with
    | some err =>
      simp [scd.Server.PutSubscription, hprep, scd.Transact, scd.PutSubscription.action,
        hsid, hget, hadj, scd.RepoCall.isWrite]
    | none =>
      have key : ∃ code, ∀ sr : scdmodels.Subscription, sr.Version = version →
          sr.Manager = manager1 →
          ∃ e, scd.PutSubscription.checkOld env r sr (some o) st = (.error e, [], sr)
            ∧ e.code = code := by
        by_cases hv : version = ""
        · exact ⟨ErrorCode.AlreadyExists, fun sr hsv _ =>
            (scd.checkOld_some env r sr o st).1 (by rw [hsv]; exact hv)⟩
        · by_cases heq : version = o.Version
          · exact ⟨ErrorCode.PermissionDenied, fun sr hsv hsm =>
              (scd.checkOld_some env r sr o st).2.2 (by rw [hsv]; exact hv)
                (by rw [hsv]; exact heq) (by rw [hsm]; exact hmgr)⟩
          · exact ⟨ErrorCode.VersionMismatch, fun sr hsv _ =>
              (scd.checkOld_some env r sr o st).2.1 (by rw [hsv]; exact hv)
                (by rw [hsv]; exact heq)⟩
      obtain ⟨code, hchk⟩ := key
      obtain ⟨_, h2, h3⟩ := scd.PutSubscription_rejected a env r ctx sid version params st
        id1 manager1 extents subreq (some o) code hprep hget hadj hchk
      exact ⟨by rw [h2]; simp [scd.RepoCall.isWrite], h3⟩

/-- C3: for every store state and every caller `P`, when the id of the request holds a
stored subscription `o`: `PutSubscription` calls `UpsertSubscription`, and
`DeleteSubscription` calls the repository `DeleteSubscription`, only if `o.Manager = P`;
a call by any other manager makes no write call and leaves the store as it was, so that
the stored subscription is still read back. -/
theorem C3_writes_only_by_manager {σ ε π γ : Type} (a : scd.Server)
    (env : scd.Env ε π γ) (r : scd.Repository σ) (ctx : auth.Context)
    (sid version : String) (params : scdpb.PutSubscriptionParameters ε) (st : σ)
    (id : dssmodels.ID) (P : dssmodels.Manager) (o : scdmodels.Subscription)
    (hid : env.IDFromString sid = .ok id)
    (hctx : auth.ManagerFromContext ctx = (P, true))
    (hget : r.GetSubscription st id = .ok (some o)) :
    ((∃ c ∈ (a.PutSubscription env r ctx sid version params st).calls, c.isUpsert = true)
      → o.Manager = P)
    ∧ ((∃ c ∈ (a.DeleteSubscription env r ctx sid st :
          scd.HandlerRun σ (scdpb.DeleteSubscriptionResponse π)).calls, c.isDelete = true)
      → o.Manager = P)
    ∧ (o.Manager ≠ P →
      (∀ c ∈ (a.PutSubscription env r ctx sid version params st).calls, c.isWrite = false)
      ∧ (a.PutSubscription env r ctx sid version params st).state = st
      ∧ (∀ c ∈ (a.DeleteSubscription env r ctx sid st :
          scd.HandlerRun σ (scdpb.DeleteSubscriptionResponse π)).calls, c.isWrite = false)
      ∧ (a.DeleteSubscription env r ctx sid st :
          scd.HandlerRun σ (scdpb.DeleteSubscriptionResponse π)).state = st
      ∧ r.GetSubscription (a.PutSubscription env r ctx sid version params st).state id
          = .ok (some o)
      ∧ r.GetSubscription (a.DeleteSubscription env r ctx sid st :
          scd.HandlerRun σ (scdpb.DeleteSubscriptionResponse π)).state id
          = .ok (some o)) := by
  have hput := scd.PutSubscription_other_manager_no_write a env r ctx sid version params st
    id P o hid hctx hget
  have hdel := scd.DeleteSubscription_other_manager a env r ctx sid st id P o hid hctx hget
  refine ⟨?_, ?_, ?_⟩
  · rintro ⟨c, hc, hup⟩
    by_contra hne
    have hw := (hput hne).1 c hc
    cases c <;> simp [scd.RepoCall.isUpsert, scd.RepoCall.isWrite] at hup hw
  · rintro ⟨c, hc, hd⟩
    by_contra hne
    have h2 := (hdel hne).2.1
    rw [h2] at hc
    simp only [List.mem_singleton] at hc
    subst hc
    simp [scd.RepoCall.isDelete] at hd
  · intro hne
    obtain ⟨p1, p2⟩ := hput hne
    obtain ⟨_, d2, d3⟩ := hdel hne
    refine ⟨p1, p2, ?_, d3, ?_, ?_⟩
    · rw [d2]
      simp [scd.RepoCall.isWrite]
    · rw [p2]
      exact hget
    · rw [d3]
      exact hget

/-- C3, at a concrete input: manager `uss2` puts (with the current version `v1`) and
deletes the subscription `sub-1` stored for manager `uss1`. -/
theorem C3_writes_only_by_manager_witness :
    (∀ c ∈ (scd.Server.PutSubscription ⟨true⟩ scd.memEnv scd.memRepo (scd.memCtx "uss2")
        "sub-1" "v1" scd.memParams [scd.memSub]).calls, c.isWrite = false)
    ∧ (scd.Server.PutSubscription ⟨true⟩ scd.memEnv scd.memRepo (scd.memCtx "uss2")
        "sub-1" "v1" scd.memParams [scd.memSub]).state = [scd.memSub]
    ∧ (scd.Server.DeleteSubscription ⟨true⟩ scd.memEnv scd.memRepo (scd.memCtx "uss2")
        "sub-1" [scd.memSub]).state = [scd.memSub] :=
  have h := (C3_writes_only_by_manager ⟨true⟩ scd.memEnv scd.memRepo (scd.memCtx "uss2")
    "sub-1" "v1" scd.memParams [scd.memSub] "sub-1" "uss2" scd.memSub rfl rfl rfl).2.2
    (by decide)
  ⟨h.1, h.2.1, h.2.2.2.1⟩

/-- On the concrete store, the manager of the subscription does reach the writes: its put
with the current version calls `UpsertSubscription`, and its delete calls the repository
`DeleteSubscription` and empties the store. -/
theorem scd.manager_writes_example :
    ((scd.Server.PutSubscription ⟨true⟩ scd.memEnv scd.memRepo (scd.memCtx "uss1")
        "sub-1" "v1" scd.memParams [scd.memSub]).calls.any scd.RepoCall.isUpsert) = true
    ∧ ((scd.Server.DeleteSubscription ⟨true⟩ scd.memEnv scd.memRepo (scd.memCtx "uss1")
        "sub-1" [scd.memSub]).calls.any scd.RepoCall.isDelete) = true
    ∧ (scd.Server.DeleteSubscription ⟨true⟩ scd.memEnv scd.memRepo (scd.memCtx "uss1")
        "sub-1" [scd.memSub]).state = [] := by
  refine ⟨by decide, by decide, by decide⟩

/-! ### RID subscription repository -/

/-- The `WHERE` condition of `UpdateNotificationIdxsInCells` selects the rows that share a
cell with the argument and whose `ends_at` is set and not before `now`. -/
theorem ridstore.holds_inCellsAndActive (cells : geo.CellUnion) (now : dssmodels.Time)
    (row : ridstore.Row) :
    sql.holds (ridstore.inCellsAndActive (geo.cellsToInt64 cells) now row) = true
      ↔ ((∃ c ∈ cells, geo.toInt64 c ∈ row.cells)
          ∧ ∃ e, row.ends_at = some e ∧ now ≤ e) := by
  have hov : (row.cells.any fun x => (geo.cellsToInt64 cells).contains x) = true
      ↔ ∃ c ∈ cells, geo.toInt64 c ∈ row.cells := by
    simp only [List.any_eq_true, List.contains, List.elem_eq_mem, decide_eq_true_eq,
      geo.cellsToInt64, List.mem_map]
    constructor
    · rintro ⟨x, hx, c, hc, rfl⟩
      exact ⟨c, hc, hx⟩
    · rintro ⟨c, hc, hx⟩
      exact ⟨_, hx, c, hc, rfl⟩
  unfold ridstore.inCellsAndActive sql.overlaps
  cases hb : (row.cells.any fun x => (geo.cellsToInt64 cells).contains x) with
  | false =>
    have hno : ¬ ∃ c ∈ cells, geo.toInt64 c ∈ row.cells := by
      rw [← hov, hb]
      simp
    cases he : row.ends_at <;> simp [sql.and, sql.ge, sql.holds, hno]
  | true =>
    have hyes : ∃ c ∈ cells, geo.toInt64 c ∈ row.cells := hov.mp hb
    cases he : row.ends_at with
    | none => simp [sql.and, sql.ge, sql.holds]
    | some e =>
      by_cases hle : now ≤ e
      · simp [sql.and, sql.ge, sql.holds, hle, hyes]
      · simp [sql.and, sql.ge, sql.holds, hle]

/-- Function `process` scans every row, in order. -/
theorem ridstore.process_eq_map (rows : List ridstore.Row) :
    ridstore.subscriptionRepo.process rows = rows.map ridstore.subscriptionRepo.scan := by
  induction rows with
  | nil => rfl
  | cons r rs ih => simp [ridstore.subscriptionRepo.process, ih]

/-- Function `process` of the version 3 repository scans every row, in order. -/
theorem ridstore.processV3_eq_map (rows : List ridstore.Row) :
    ridstore.subscriptionRepoV3.process rows
      = rows.map ridstore.subscriptionRepoV3.scan := by
  induction rows with
  | nil => rfl
  | cons r rs ih => simp [ridstore.subscriptionRepoV3.process, ih]

/-- The rows an `UPDATE` returns are the rows of the new table that differ from the old
row at the same position, when the assignment changes every row it is applied to. -/
theorem sql.update_returning_eq_changed {ρ : Type} [DecidableEq ρ] (tbl : List ρ)
    (cond : ρ → sql.Truth) (set : ρ → ρ) (hset : ∀ r, set r ≠ r) :
    (sql.update tbl cond set).2
      = ((tbl.zip (sql.update tbl cond set).1).filter (fun p => decide (p.1 ≠ p.2))).map
          (fun p => p.2) := by
  unfold sql.update
  induction tbl with
  | nil => rfl
  | cons r rs ih =>
    simp only [List.map_cons, List.zip_cons_cons, List.filter_cons] at ih ⊢
    by_cases h : sql.holds (cond r) = true
    · have hne : ¬ r = set r := fun heq => hset r heq.symm
      simp [h, hne, ih]
    · simp [h, ih]

/-- C4: over the table `subscriptions`, `UpdateNotificationIdxsInCells(cells)` of the
version 4 and of the version 3 repository increases `notification_index` by exactly 1 on
every row that shares a cell with the argument and whose `ends_at` is not before
`clock.Now()`, changes no other column of these rows and no other row, and returns exactly
the rows it changed, in table order: each returned subscription has the id, URL, owner,
cells, times and version of its row and the new index of the row, that is the old index
plus 1 (and the writer of the row in version 4, the empty writer in version 3). -/
theorem C4_UpdateNotificationIdxsInCells (now : dssmodels.Time) (cells : geo.CellUnion)
    (tbl : ridstore.Table) :
    ((ridstore.subscriptionRepo.UpdateNotificationIdxsInCells now cells tbl).2
        = (ridstore.subscriptionRepoV3.UpdateNotificationIdxsInCells now cells tbl).2)
    ∧ (ridstore.subscriptionRepo.UpdateNotificationIdxsInCells now cells tbl).2.length
        = tbl.length
    ∧ (∀ (i : Nat) (row : ridstore.Row), tbl[i]? = some row →
        (((∃ c ∈ cells, geo.toInt64 c ∈ row.cells) ∧ (∃ e, row.ends_at = some e ∧ now ≤ e)) →
          (ridstore.subscriptionRepo.UpdateNotificationIdxsInCells now cells tbl).2[i]?
            = some { row with notification_index := row.notification_index + 1 })
        ∧ (¬ ((∃ c ∈ cells, geo.toInt64 c ∈ row.cells)
              ∧ (∃ e, row.ends_at = some e ∧ now ≤ e)) →
          (ridstore.subscriptionRepo.UpdateNotificationIdxsInCells now cells tbl).2[i]?
            = some row))
    ∧ (ridstore.subscriptionRepo.UpdateNotificationIdxsInCells now cells tbl).1
        = .ok (((tbl.zip (ridstore.subscriptionRepo.UpdateNotificationIdxsInCells now cells
            tbl).2).filter (fun p => decide (p.1 ≠ p.2))).map
              (fun p =>
                ({ ID := p.2.id, URL := p.2.url, NotificationIndex := p.2.notification_index,
                   Owner := p.2.owner, Cells := p.2.cells.map geo.toCellID,
                   StartTime := p.2.starts_at, EndTime := p.2.ends_at,
                   Writer := p.2.writer.getD "",
                   Version := dssmodels.VersionFromTime p.2.updated_at } :
                  ridmodels.Subscription)))
    ∧ (ridstore.subscriptionRepoV3.UpdateNotificationIdxsInCells now cells tbl).1
        = .ok (((tbl.zip (ridstore.subscriptionRepoV3.UpdateNotificationIdxsInCells now cells
            tbl).2).filter (fun p => decide (p.1 ≠ p.2))).map
              (fun p =>
                ({ ID := p.2.id, URL := p.2.url, NotificationIndex := p.2.notification_index,
                   Owner := p.2.owner, Cells := p.2.cells.map geo.toCellID,
                   StartTime := p.2.starts_at, EndTime := p.2.ends_at, Writer := "",
                   Version := dssmodels.VersionFromTime p.2.updated_at } :
                  ridmodels.Subscription)))
    ∧ (∃ subs, (ridstore.subscriptionRepo.UpdateNotificationIdxsInCells now cells tbl).1
          = .ok subs
        ∧ ∀ sub, sub ∈ subs ↔
          ∃ row ∈ tbl, ((∃ c ∈ cells, geo.toInt64 c ∈ row.cells)
              ∧ (∃ e, row.ends_at = some e ∧ now ≤ e))
            ∧ sub = { ID := row.id, URL := row.url,
                      NotificationIndex := row.notification_index + 1,
                      Owner := row.owner, Cells := row.cells.map geo.toCellID,
                      StartTime := row.starts_at, EndTime := row.ends_at,
                      Writer := row.writer.getD "",
                      Version := dssmodels.VersionFromTime row.updated_at })
    ∧ (∃ subs, (ridstore.subscriptionRepoV3.UpdateNotificationIdxsInCells now cells tbl).1
          = .ok subs
        ∧ ∀ sub, sub ∈ subs ↔
          ∃ row ∈ tbl, ((∃ c ∈ cells, geo.toInt64 c ∈ row.cells)
              ∧ (∃ e, row.ends_at = some e ∧ now ≤ e))
            ∧ sub = { ID := row.id, URL := row.url,
                      NotificationIndex := row.notification_index + 1,
                      Owner := row.owner, Cells := row.cells.map geo.toCellID,
                      StartTime := row.starts_at, EndTime := row.ends_at,
                      Writer := "",
                      Version := dssmodels.VersionFromTime row.updated_at }) := by
  have hset : ∀ r : ridstore.Row,
      ({ r with notification_index := r.notification_index + 1 } : ridstore.Row) ≠ r := by
    intro r h
    have := congrArg ridstore.Row.notification_index h
    simp at this
  have hret := sql.update_returning_eq_changed tbl
    (ridstore.inCellsAndActive (geo.cellsToInt64 cells) now)
    (fun row => { row with notification_index := row.notification_index + 1 }) hset
  have hh := ridstore.holds_inCellsAndActive cells now
  refine ⟨rfl, ?_, ?_, ?_, ?_, ?_, ?_⟩
  · simp [ridstore.subscriptionRepo.UpdateNotificationIdxsInCells, sql.update]
  · intro i row hi
    constructor
    · intro hm
      simp [ridstore.subscriptionRepo.UpdateNotificationIdxsInCells, sql.update,
        List.getElem?_map, hi, (hh row).mpr hm]
    · intro hm
      have hf : ¬ sql.holds (ridstore.inCellsAndActive (geo.cellsToInt64 cells) now row)
          = true := fun h => hm ((hh row).mp h)
      simp [ridstore.subscriptionRepo.UpdateNotificationIdxsInCells, sql.update,
        List.getElem?_map, hi, hf]
  · simp only [ridstore.subscriptionRepo.UpdateNotificationIdxsInCells,
      ridstore.process_eq_map]
    rw [hret]
    simp [List.map_map, Function.comp, ridstore.subscriptionRepo.scan,
      geo.CellUnionFromInt64]
  · simp only [ridstore.subscriptionRepoV3.UpdateNotificationIdxsInCells,
      ridstore.processV3_eq_map]
    rw [hret]
    simp [List.map_map, Function.comp, ridstore.subscriptionRepoV3.scan,
      geo.CellUnionFromInt64]
  · refine ⟨_, rfl, ?_⟩
    intro sub
    simp only [ridstore.process_eq_map, sql.update, List.mem_map, List.mem_filter,
      exists_exists_and_eq_and]
    constructor
    · rintro ⟨row, ⟨hrow, hc⟩, hsub⟩
      exact ⟨row, hrow, (hh row).mp hc, by
        rw [← hsub]; simp [ridstore.subscriptionRepo.scan, geo.CellUnionFromInt64]⟩
    · rintro ⟨row, hrow, hc, hsub⟩
      exact ⟨row, ⟨hrow, (hh row).mpr hc⟩, by
        rw [hsub]; simp [ridstore.subscriptionRepo.scan, geo.CellUnionFromInt64]⟩
  · refine ⟨_, rfl, ?_⟩
    intro sub
    simp only [ridstore.processV3_eq_map, sql.update, List.mem_map, List.mem_filter,
      exists_exists_and_eq_and]
    constructor
    · rintro ⟨row, ⟨hrow, hc⟩, hsub⟩
      exact ⟨row, hrow, (hh row).mp hc, by
        rw [← hsub]; simp [ridstore.subscriptionRepoV3.scan, geo.CellUnionFromInt64]⟩
    · rintro ⟨row, hrow, hc, hsub⟩
      exact ⟨row, ⟨hrow, (hh row).mpr hc⟩, by
        rw [hsub]; simp [ridstore.subscriptionRepoV3.scan, geo.CellUnionFromInt64]⟩

/-- The `WHERE` condition of `UpdateSubscription` and `DeleteSubscription` selects the
rows with the given id and the given `updated_at`. -/
theorem ridstore.holds_idAndVersion (id : dssmodels.ID) (ts : dssmodels.Time)
    (row : ridstore.Row) :
    sql.holds (ridstore.idAndVersion id ts row) = true
      ↔ (row.id = id ∧ row.updated_at = ts) := by
  unfold ridstore.idAndVersion
  by_cases h1 : row.id = id <;> by_cases h2 : row.updated_at = ts <;>
    simp [sql.and, sql.holds, h1, h2]

/-- When every cell passes `geo.ValidateCell`, the loop over the cells converts them. -/
theorem ridstore.validateCells_ok (V : Nat → Option Error) (cells : geo.CellUnion)
    (h : ∀ c ∈ cells, V c = none) :
    ridstore.validateCells V cells = .ok (geo.cellsToInt64 cells) := by
  induction cells with
  | nil => rfl
  | cons c rest ih =>
    have h1 : V c = none := h c (List.mem_cons_self c rest)
    have h2 := ih (fun x hx => h x (List.mem_cons_of_mem _ hx))
    simp [ridstore.validateCells, h1, h2, geo.cellsToInt64]

/-- Without a selected row, an `UPDATE` and a `DELETE` leave the table as it is and
return no row. -/
theorem sql.no_row_selected {ρ : Type} (tbl : List ρ) (cond : ρ → sql.Truth) (set : ρ → ρ)
    (h : ∀ r ∈ tbl, sql.holds (cond r) = false) :
    sql.update tbl cond set = (tbl, []) ∧ sql.delete tbl cond = (tbl, []) := by
  have hf : tbl.filter (fun r => sql.holds (cond r)) = [] := by
    simp only [List.filter_eq_nil_iff]
    intro r hr
    simp [h r hr]
  have hm : tbl.map (fun r => if sql.holds (cond r) = true then set r else r) = tbl := by
    conv_rhs => rw [← List.map_id tbl]
    apply List.map_congr_left
    intro r hr
    simp [h r hr]
  have hk : tbl.filter (fun r => !sql.holds (cond r)) = tbl := by
    simp only [List.filter_eq_self]
    intro r hr
    simp [h r hr]
  simp [sql.update, sql.delete, hf, hm, hk]

/-- With `id` a key of the table, the rows with a given id and `updated_at` are at most the
one row that has them. -/
theorem ridstore.filter_unique (tbl : ridstore.Table) (id : dssmodels.ID)
    (ts : dssmodels.Time) (row : ridstore.Row)
    (hn : (tbl.map (fun r => r.id)).Nodup) (hmem : row ∈ tbl) (hid : row.id = id)
    (hts : row.updated_at = ts) :
    tbl.filter (fun r => sql.holds (ridstore.idAndVersion id ts r)) = [row] := by
  induction tbl with
  | nil => simp at hmem
  | cons r rs ih =>
    simp only [List.map_cons, List.nodup_cons, List.mem_map, not_exists, not_and] at hn
    obtain ⟨hr, hrs⟩ := hn
    rcases List.mem_cons.mp hmem with heq | hin
    · subst heq
      have hsel : sql.holds (ridstore.idAndVersion id ts row) = true :=
        (ridstore.holds_idAndVersion id ts row).mpr ⟨hid, hts⟩
      have hrest : rs.filter (fun r => sql.holds (ridstore.idAndVersion id ts r)) = [] := by
        simp only [List.filter_eq_nil_iff]
        intro x hx hsx
        have := (ridstore.holds_idAndVersion id ts x).mp hsx
        exact hr x hx (by rw [this.1, hid])
      simp [List.filter_cons, hsel, hrest]
    · have hne : ¬ sql.holds (ridstore.idAndVersion id ts r) = true := by
        intro hsr
        have := (ridstore.holds_idAndVersion id ts r).mp hsr
        exact hr row hin (by rw [this.1, hid])
      simp [List.filter_cons, hne, ih hrs hin]

/-- When a cell does not pass `geo.ValidateCell`, the loop over the cells returns an
error. -/
theorem ridstore.validateCells_error (V : Nat → Option Error) (cells : geo.CellUnion)
    (h : ∃ c ∈ cells, V c ≠ none) : ∃ e, ridstore.validateCells V cells = .error e := by
  induction cells with
  | nil => simp at h
  | cons c rest ih =>
    unfold ridstore.validateCells
    cases hv : V c with
    | some err => exact ⟨_, rfl⟩
    | none =>
      have hrest : ∃ x ∈ rest, V x ≠ none := by
        obtain ⟨x, hx, hne⟩ := h
        rcases List.mem_cons.mp hx with heq | hin
        · subst heq
          exact absurd hv hne
        · exact ⟨x, hin, hne⟩
      obtain ⟨e, he⟩ := ih hrest
      exact ⟨e, by simp [he]⟩

/-- C5, the claim as written fails: the id `not-a-uuid` is absent from the table, and
`DeleteSubscription` and `UpdateSubscription` return the error of the conversion to a
UUID for it, not (nil, nil); the id ending in `0c` is a UUID absent from the table, and
`UpdateSubscription` for it with the cell 0, which `geo.ValidateCell` refuses, returns the
error of the validation, not (nil, nil). The table is unchanged in each case. -/
theorem C5_absent_id_error_counterexample :
    (∀ row ∈ ridstore.uuidTable, row.id ≠ "not-a-uuid"
        ∧ row.id ≠ "00000000-0000-4000-8000-00000000000c")
    ∧ ridstore.failure (ridstore.subscriptionRepo.DeleteSubscription ridstore.examplePgUUID
        (ridstore.uuidSub "not-a-uuid" 10 [10]) ridstore.uuidTable).1
        = some ⟨ErrorCode.NoCode, ["Failed to convert id to PgUUID", "cannot parse UUID"]⟩
    ∧ ridstore.failure (ridstore.subscriptionRepoV3.DeleteSubscription ridstore.examplePgUUID
        (ridstore.uuidSub "not-a-uuid" 10 [10]) ridstore.uuidTable).1
        = some ⟨ErrorCode.NoCode, ["Failed to convert id to PgUUID", "cannot parse UUID"]⟩
    ∧ ridstore.failure (ridstore.subscriptionRepo.UpdateSubscription
        ridstore.exampleValidateCell ridstore.examplePgUUID 50
        (ridstore.uuidSub "not-a-uuid" 10 [10]) ridstore.uuidTable).1
        = some ⟨ErrorCode.NoCode, ["Failed to convert id to PgUUID", "cannot parse UUID"]⟩
    ∧ ridstore.failure (ridstore.subscriptionRepo.UpdateSubscription
        ridstore.exampleValidateCell ridstore.examplePgUUID 50
        (ridstore.uuidSub "00000000-0000-4000-8000-00000000000c" 10 [10, 0])
        ridstore.uuidTable).1
        = some ⟨ErrorCode.NoCode, ["Error validating cell", "invalid cell"]⟩
    ∧ (ridstore.subscriptionRepo.UpdateSubscription
        ridstore.exampleValidateCell ridstore.examplePgUUID 50
        (ridstore.uuidSub "00000000-0000-4000-8000-00000000000c" 10 [10, 0])
        ridstore.uuidTable).2 = ridstore.uuidTable
    ∧ (ridstore.subscriptionRepo.DeleteSubscription ridstore.examplePgUUID
        (ridstore.uuidSub "not-a-uuid" 10 [10]) ridstore.uuidTable).2 = ridstore.uuidTable := by
  decide

/-- C5, amended: with `P` the conversion `ID.PgUUID` and `V` the check `geo.ValidateCell`,
`UpdateSubscription` and `DeleteSubscription` of the version 4 and version 3 repositories
change or remove a row only if its id is the UUID of `s.ID` and its `updated_at` is the
timestamp of `s.Version`. When no row has both (the id is absent or the version differs)
the table is unchanged, and the result is (nil, nil) if `s.ID` converts to a UUID and, for
`UpdateSubscription`, every cell of `s` passes `geo.ValidateCell`. When `s.ID` does not
convert, all four return an error (for `DeleteSubscription` the propagated conversion
error) and leave the table unchanged, and when a cell of `s` does not pass,
`UpdateSubscription` returns an error and leaves the table unchanged. On a match (with
`id` a key of the table and valid cells) `UpdateSubscription` stamps `updated_at` of the
row with the transaction timestamp and returns the subscription whose `Version` is made
from it. -/
theorem C5_update_delete_version_guard (V : Nat → Option Error)
    (P : dssmodels.ID → Except Error dssmodels.ID) (txnow : dssmodels.Time)
    (s : ridmodels.Subscription) (tbl : ridstore.Table) :
    (∀ (i : Nat) (row : ridstore.Row), tbl[i]? = some row →
        ¬ (P s.ID = .ok row.id ∧ row.updated_at = s.Version.ToTimestamp) →
        (ridstore.subscriptionRepo.UpdateSubscription V P txnow s tbl).2[i]? = some row
        ∧ (ridstore.subscriptionRepoV3.UpdateSubscription V P txnow s tbl).2[i]? = some row)
    ∧ ((ridstore.subscriptionRepo.UpdateSubscription V P txnow s tbl).2.length = tbl.length
        ∧ (ridstore.subscriptionRepoV3.UpdateSubscription V P txnow s tbl).2.length
            = tbl.length)
    ∧ (∀ row ∈ tbl, ¬ (P s.ID = .ok row.id ∧ row.updated_at = s.Version.ToTimestamp) →
        row ∈ (ridstore.subscriptionRepo.DeleteSubscription P s tbl).2
        ∧ row ∈ (ridstore.subscriptionRepoV3.DeleteSubscription P s tbl).2)
    ∧ ((ridstore.subscriptionRepo.DeleteSubscription P s tbl).2.Sublist tbl
        ∧ (ridstore.subscriptionRepoV3.DeleteSubscription P s tbl).2.Sublist tbl)
    ∧ ((∀ row ∈ tbl, P s.ID = .ok row.id → row.updated_at ≠ s.Version.ToTimestamp) →
        (ridstore.subscriptionRepo.DeleteSubscription P s tbl).2 = tbl
        ∧ (ridstore.subscriptionRepoV3.DeleteSubscription P s tbl).2 = tbl
        ∧ (ridstore.subscriptionRepo.UpdateSubscription V P txnow s tbl).2 = tbl
        ∧ (ridstore.subscriptionRepoV3.UpdateSubscription V P txnow s tbl).2 = tbl
        ∧ (∀ uid, P s.ID = .ok uid →
            ridstore.subscriptionRepo.DeleteSubscription P s tbl = (.ok none, tbl)
            ∧ ridstore.subscriptionRepoV3.DeleteSubscription P s tbl = (.ok none, tbl)
            ∧ ((∀ c ∈ s.Cells, V c = none) →
                ridstore.subscriptionRepo.UpdateSubscription V P txnow s tbl = (.ok none, tbl)
                ∧ ridstore.subscriptionRepoV3.UpdateSubscription V P txnow s tbl
                    = (.ok none, tbl))))
    ∧ (∀ err, P s.ID = .error err →
        ridstore.subscriptionRepo.DeleteSubscription P s tbl
          = (.error (propagate err "Failed to convert id to PgUUID"), tbl)
        ∧ ridstore.subscriptionRepoV3.DeleteSubscription P s tbl
          = (.error (propagate err "Failed to convert id to PgUUID"), tbl)
        ∧ (∃ e, ridstore.subscriptionRepo.UpdateSubscription V P txnow s tbl = (.error e, tbl))
        ∧ (∃ e, ridstore.subscriptionRepoV3.UpdateSubscription V P txnow s tbl
            = (.error e, tbl)))
    ∧ ((∃ c ∈ s.Cells, V c ≠ none) →
        ∃ e, ridstore.subscriptionRepo.UpdateSubscription V P txnow s tbl = (.error e, tbl)
          ∧ ridstore.subscriptionRepoV3.UpdateSubscription V P txnow s tbl = (.error e, tbl))
    ∧ (∀ row ∈ tbl, P s.ID = .ok row.id → row.updated_at = s.Version.ToTimestamp →
        (tbl.map (fun r => r.id)).Nodup → (∀ c ∈ s.Cells, V c = none) →
        (∃ sub, (ridstore.subscriptionRepo.UpdateSubscription V P txnow s tbl).1
              = .ok (some sub)
            ∧ sub.Version = dssmodels.VersionFromTime txnow ∧ sub.ID = row.id)
        ∧ (∃ sub, (ridstore.subscriptionRepoV3.UpdateSubscription V P txnow s tbl).1
              = .ok (some sub)
            ∧ sub.Version = dssmodels.VersionFromTime txnow ∧ sub.ID = row.id)
        ∧ (∀ i : Nat, tbl[i]? = some row →
            (∃ r1, (ridstore.subscriptionRepo.UpdateSubscription V P txnow s tbl).2[i]?
                  = some r1
                ∧ r1.updated_at = txnow ∧ r1.id = row.id ∧ r1.owner = row.owner)
            ∧ (∃ r1, (ridstore.subscriptionRepoV3.UpdateSubscription V P txnow s tbl).2[i]?
                  = some r1
                ∧ r1.updated_at = txnow ∧ r1.id = row.id ∧ r1.owner = row.owner))) := by
  cases hP : P s.ID with
  | error err =>
    have hU4 : ∃ e, ridstore.subscriptionRepo.UpdateSubscription V P txnow s tbl
        = (.error e, tbl) := by
      unfold ridstore.subscriptionRepo.UpdateSubscription
      cases hv : ridstore.validateCells V s.Cells with
      | error e => exact ⟨e, rfl⟩
      | ok cids => exact ⟨propagate err "Failed to convert id to PgUUID", by simp [hP]⟩
    have hU3 : ∃ e, ridstore.subscriptionRepoV3.UpdateSubscription V P txnow s tbl
        = (.error e, tbl) := by
      unfold ridstore.subscriptionRepoV3.UpdateSubscription
      cases hv : ridstore.validateCells V s.Cells with
      | error e => exact ⟨e, rfl⟩
      | ok cids => exact ⟨propagate err "Failed to convert id to PgUUID", by simp [hP]⟩
    have hD4 : ridstore.subscriptionRepo.DeleteSubscription P s tbl
        = (.error (propagate err "Failed to convert id to PgUUID"), tbl) := by
      simp [ridstore.subscriptionRepo.DeleteSubscription, hP]
    have hD3 : ridstore.subscriptionRepoV3.DeleteSubscription P s tbl
        = (.error (propagate err "Failed to convert id to PgUUID"), tbl) := by
      simp [ridstore.subscriptionRepoV3.DeleteSubscription, hP]
    obtain ⟨e4, hU4⟩ := hU4
    obtain ⟨e3, hU3⟩ := hU3
    have hsame : e4 = e3 := by
      have h4 := hU4
      have h3 := hU3
      unfold ridstore.subscriptionRepo.UpdateSubscription at h4
      unfold ridstore.subscriptionRepoV3.UpdateSubscription at h3
      cases hv : ridstore.validateCells V s.Cells with
      | error e =>
        simp only [hv, Prod.mk.injEq, Except.error.injEq, and_true] at h4 h3
        rw [← h4, ← h3]
      | ok cids =>
        simp only [hv, hP, Prod.mk.injEq, Except.error.injEq, and_true] at h4 h3
        rw [← h4, ← h3]
    subst hsame
    rw [hU4, hU3, hD4, hD3]
    refine ⟨?_, ?_, ?_, ?_, ?_, ?_, ?_, ?_⟩
    · intro i row hi _
      exact ⟨hi, hi⟩
    · exact ⟨rfl, rfl⟩
    · intro row hrow _
      exact ⟨hrow, hrow⟩
    · exact ⟨List.Sublist.refl _, List.Sublist.refl _⟩
    · intro _
      refine ⟨rfl, rfl, rfl, rfl, ?_⟩
      intro uid huid
      simp at huid
    · intro err1 herr
      simp only [Except.error.injEq] at herr
      subst herr
      exact ⟨rfl, rfl, ⟨e4, rfl⟩, ⟨e4, rfl⟩⟩
    · intro _
      exact ⟨e4, rfl, rfl⟩
    · intro row _ hid
      simp at hid
  | ok uid =>
    have hsel := ridstore.holds_idAndVersion uid s.Version.ToTimestamp
    have hD4 : ridstore.subscriptionRepo.DeleteSubscription P s tbl
        = (ridstore.subscriptionRepo.processOne
            (sql.delete tbl (ridstore.idAndVersion uid s.Version.ToTimestamp)).2,
           (sql.delete tbl (ridstore.idAndVersion uid s.Version.ToTimestamp)).1) := by
      simp [ridstore.subscriptionRepo.DeleteSubscription, hP]
    have hD3 : ridstore.subscriptionRepoV3.DeleteSubscription P s tbl
        = (ridstore.subscriptionRepoV3.processOne
            (sql.delete tbl (ridstore.idAndVersion uid s.Version.ToTimestamp)).2,
           (sql.delete tbl (ridstore.idAndVersion uid s.Version.ToTimestamp)).1) := by
      simp [ridstore.subscriptionRepoV3.DeleteSubscription, hP]
    have hnot : ∀ row : ridstore.Row,
        ¬ (Except.ok uid = (Except.ok row.id : Except Error dssmodels.ID)
            ∧ row.updated_at = s.Version.ToTimestamp) →
        ¬ sql.holds (ridstore.idAndVersion uid s.Version.ToTimestamp row) = true := by
      intro row hn h
      have := (hsel row).mp h
      exact hn ⟨by rw [this.1], this.2⟩
    refine ⟨?_, ?_, ?_, ?_, ?_, ?_, ?_, ?_⟩
    · intro i row hi hn
      have hf := hnot row hn
      constructor
      · unfold ridstore.subscriptionRepo.UpdateSubscription
        cases hv : ridstore.validateCells V s.Cells with
        | error e => simpa using hi
        | ok cids => simp [hP, sql.update, List.getElem?_map, hi, hf]
      · unfold ridstore.subscriptionRepoV3.UpdateSubscription
        cases hv : ridstore.validateCells V s.Cells with
        | error e => simpa using hi
        | ok cids => simp [hP, sql.update, List.getElem?_map, hi, hf]
    · constructor
      · unfold ridstore.subscriptionRepo.UpdateSubscription
        cases hv : ridstore.validateCells V s.Cells <;> simp [hP, sql.update]
      · unfold ridstore.subscriptionRepoV3.UpdateSubscription
        cases hv : ridstore.validateCells V s.Cells <;> simp [hP, sql.update]
    · intro row hrow hn
      have hf := hnot row hn
      rw [hD4, hD3]
      simp [sql.delete, List.mem_filter, hrow, hf]
    · rw [hD4, hD3]
      simp [sql.delete, List.filter_sublist]
    · intro hno
      have hnone : ∀ r ∈ tbl,
          sql.holds (ridstore.idAndVersion uid s.Version.ToTimestamp r) = false := by
        intro r hr
        cases hh : sql.holds (ridstore.idAndVersion uid s.Version.ToTimestamp r) with
        | false => rfl
        | true =>
          have := (hsel r).mp hh
          exact absurd this.2 (hno r hr (by rw [this.1]))
      have hd := fun set => sql.no_row_selected tbl
        (ridstore.idAndVersion uid s.Version.ToTimestamp) set hnone
      have hdel4 : ridstore.subscriptionRepo.DeleteSubscription P s tbl = (.ok none, tbl) := by
        rw [hD4]
        simp [(hd id).2, ridstore.subscriptionRepo.processOne,
          ridstore.subscriptionRepo.process]
      have hdel3 : ridstore.subscriptionRepoV3.DeleteSubscription P s tbl
          = (.ok none, tbl) := by
        rw [hD3]
        simp [(hd id).2, ridstore.subscriptionRepoV3.processOne,
          ridstore.subscriptionRepoV3.process]
      have hup4 : (ridstore.subscriptionRepo.UpdateSubscription V P txnow s tbl).2 = tbl := by
        unfold ridstore.subscriptionRepo.UpdateSubscription
        cases hv : ridstore.validateCells V s.Cells with
        | error e => rfl
        | ok cids => simp [hP, (hd _).1]
      have hup3 : (ridstore.subscriptionRepoV3.UpdateSubscription V P txnow s tbl).2
          = tbl := by
        unfold ridstore.subscriptionRepoV3.UpdateSubscription
        cases hv : ridstore.validateCells V s.Cells with
        | error e => rfl
        | ok cids => simp [hP, (hd _).1]
      refine ⟨by rw [hdel4], by rw [hdel3], hup4, hup3, ?_⟩
      intro uid1 _
      refine ⟨hdel4, hdel3, ?_⟩
      intro hvalid
      have hv := ridstore.validateCells_ok V s.Cells hvalid
      constructor
      · simp [ridstore.subscriptionRepo.UpdateSubscription, hv, hP, (hd _).1,
          ridstore.subscriptionRepo.processOne, ridstore.subscriptionRepo.process]
      · simp [ridstore.subscriptionRepoV3.UpdateSubscription, hv, hP, (hd _).1,
          ridstore.subscriptionRepoV3.processOne, ridstore.subscriptionRepoV3.process]
    · intro err herr
      simp at herr
    · intro hbad
      obtain ⟨e, he⟩ := ridstore.validateCells_error V s.Cells hbad
      exact ⟨e, by simp [ridstore.subscriptionRepo.UpdateSubscription, he],
        by simp [ridstore.subscriptionRepoV3.UpdateSubscription, he]⟩
    · intro row hrow hid hts hnodup hvalid
      simp only [Except.ok.injEq] at hid
      subst hid
      have hv := ridstore.validateCells_ok V s.Cells hvalid
      have hu := ridstore.filter_unique tbl row.id s.Version.ToTimestamp row hnodup hrow
        rfl hts
      have ht : sql.holds (ridstore.idAndVersion row.id s.Version.ToTimestamp row) = true :=
        (hsel row).mpr ⟨rfl, hts⟩
      refine ⟨?_, ?_, ?_⟩
      · simp [ridstore.subscriptionRepo.UpdateSubscription, hv, hP, sql.update, hu,
          ridstore.subscriptionRepo.processOne, ridstore.subscriptionRepo.process,
          ridstore.subscriptionRepo.scan]
      · simp [ridstore.subscriptionRepoV3.UpdateSubscription, hv, hP, sql.update, hu,
          ridstore.subscriptionRepoV3.processOne, ridstore.subscriptionRepoV3.process,
          ridstore.subscriptionRepoV3.scan]
      · intro i hi
        constructor
        · simp [ridstore.subscriptionRepo.UpdateSubscription, hv, hP, sql.update,
            List.getElem?_map, hi, ht]
        · simp [ridstore.subscriptionRepoV3.UpdateSubscription, hv, hP, sql.update,
            List.getElem?_map, hi, ht]

/-- C5, at a concrete input: on the table with two UUID rows, an update of the first row
with its current version 10 at transaction time 50 returns the subscription with the
version made from 50, and a delete with the stale version 11 returns (nil, nil) and leaves
the table as it is. -/
theorem C5_update_delete_version_guard_witness :
    (∃ sub, (ridstore.subscriptionRepo.UpdateSubscription ridstore.exampleValidateCell
          ridstore.examplePgUUID 50
          (ridstore.uuidSub "00000000-0000-4000-8000-00000000000a" 10 [10])
          ridstore.uuidTable).1 = .ok (some sub)
        ∧ sub.Version = dssmodels.VersionFromTime 50
        ∧ sub.ID = "00000000-0000-4000-8000-00000000000a")
    ∧ ridstore.subscriptionRepo.DeleteSubscription ridstore.examplePgUUID
        (ridstore.uuidSub "00000000-0000-4000-8000-00000000000a" 11 [10])
        ridstore.uuidTable = (.ok none, ridstore.uuidTable) :=
  ⟨((C5_update_delete_version_guard ridstore.exampleValidateCell ridstore.examplePgUUID 50
      (ridstore.uuidSub "00000000-0000-4000-8000-00000000000a" 10 [10])
      ridstore.uuidTable).2.2.2.2.2.2.2
        { id := "00000000-0000-4000-8000-00000000000a", owner := "uss1",
          url := "https://uss1.example", notification_index := 4, cells := [10, 11],
          starts_at := some 0, ends_at := some 100, writer := some "w", updated_at := 10 }
        (by decide) rfl rfl (by decide) (by decide)).1,
   (((C5_update_delete_version_guard ridstore.exampleValidateCell ridstore.examplePgUUID 50
      (ridstore.uuidSub "00000000-0000-4000-8000-00000000000a" 11 [10])
      ridstore.uuidTable).2.2.2.2.1
        (by
          intro row hrow _
          simp only [ridstore.uuidTable, List.mem_cons, List.mem_singleton,
            List.not_mem_nil, or_false] at hrow
          rcases hrow with h | h <;> subst h <;> decide)).2.2.2.2
        "00000000-0000-4000-8000-00000000000a" rfl).1⟩

/-! ### SCD constraint repository -/

/-- A cell id converted to `int64` and back is the cell id as a 64-bit value. -/
theorem geo.toCellID_toInt64 (n : Nat) : geo.toCellID (geo.toInt64 n) = n % 2 ^ 64 := by
  unfold geo.toCellID geo.toInt64
  split <;> omega

/-- On truth values that are not `NULL`, `AND` is the conjunction. -/
theorem sql.and_some (a b : Bool) : sql.and (some a) (some b) = some (a && b) := by
  cases a <;> cases b <;> rfl

/-- A condition that is not `NULL` holds when it is true. -/
theorem sql.holds_some (a : Bool) : sql.holds (some a) = a := by
  cases a <;> rfl

/-- The condition of the query of `SearchConstraints` selects the rows that intersect the
searched volume in the words of the specification. -/
theorem scdstore.holds_searchCondition (covering : geo.CellUnion) (v4d : dssmodels.Volume4D)
    (row : scdstore.Row) :
    sql.holds (scdstore.searchCondition (geo.cellsToInt64 covering) v4d.StartTime
        v4d.EndTime row) = true
      ↔ scdstore.Intersects covering v4d row := by
  have hov : (row.cells.any fun x => (geo.cellsToInt64 covering).contains x) = true
      ↔ ∃ c ∈ covering, geo.toInt64 c ∈ row.cells := by
    simp only [List.any_eq_true, List.contains, List.elem_eq_mem, decide_eq_true_eq,
      geo.cellsToInt64, List.mem_map]
    constructor
    · rintro ⟨x, hx, c, hc, rfl⟩
      exact ⟨c, hc, hx⟩
    · rintro ⟨c, hc, hx⟩
      exact ⟨_, hx, c, hc, rfl⟩
  unfold scdstore.searchCondition scdstore.Intersects sql.overlaps
  rw [← hov]
  cases (row.cells.any fun x => (geo.cellsToInt64 covering).contains x) <;>
    cases row.starts_at <;> cases v4d.EndTime <;> cases row.ends_at <;>
    cases v4d.StartTime <;>
    simp [sql.and_some, sql.coalesceTrue, sql.le, sql.ge, sql.holds_some, scdstore.unsetOrLe,
      scdstore.unsetOrGe]

/-- Function `fetchConstraints` scans every row, in order. -/
theorem scdstore.fetchConstraints_eq_map (ovn : dssmodels.Time → String → scdmodels.OVN)
    (rows : List scdstore.Row) :
    scdstore.fetchConstraints ovn rows = rows.map (scdstore.fetchConstraints.scan ovn) := by
  induction rows with
  | nil => rfl
  | cons r rs ih => simp [scdstore.fetchConstraints, ih]

/-- C6: for every volume `V`, every constraint returned by `SearchConstraints(V)` is the
scan of a stored row whose cells meet the covering of `V`, whose start time is unset or
`<= V.EndTime` and whose end time is unset or `>= V.StartTime` (a bound of `V` that is
unset bounds nothing); the result has at most `MaxResultLimit` constraints and it is the
full list of such constraints when there are at most `MaxResultLimit` of them; a result is
returned whenever the covering is computed without error, and when the covering is empty
it is the empty list, without error and without query. -/
theorem C6_SearchConstraints (cov : dssmodels.Volume4D → geo.CellUnion × Option Error)
    (MaxResultLimit : Nat) (ovn : dssmodels.Time → String → scdmodels.OVN)
    (v4d : dssmodels.Volume4D) (tbl : scdstore.Table) :
    (∀ cs, (scdstore.SearchConstraints cov MaxResultLimit ovn v4d tbl).1 = .ok cs →
      (∀ c ∈ cs, (∃ n ∈ (cov v4d).1, n % 2 ^ 64 ∈ c.Cells)
        ∧ scdstore.unsetOrLe c.StartTime v4d.EndTime
        ∧ scdstore.unsetOrGe c.EndTime v4d.StartTime)
      ∧ (∀ c ∈ cs, ∃ row ∈ tbl, scdstore.Intersects (cov v4d).1 v4d row
          ∧ c = scdstore.fetchConstraints.scan ovn row)
      ∧ cs.length ≤ MaxResultLimit
      ∧ ((tbl.filter (fun row => decide (scdstore.Intersects (cov v4d).1 v4d row))).length
            ≤ MaxResultLimit →
          cs = (tbl.filter (fun row => decide (scdstore.Intersects (cov v4d).1 v4d row))).map
            (scdstore.fetchConstraints.scan ovn)))
    ∧ ((cov v4d).2 = none →
        ∃ cs, (scdstore.SearchConstraints cov MaxResultLimit ovn v4d tbl).1 = .ok cs)
    ∧ ((cov v4d).2 = none → (cov v4d).1 = [] →
        scdstore.SearchConstraints cov MaxResultLimit ovn v4d tbl = (.ok [], 0)) := by
  have hfilter : ∀ covering : geo.CellUnion,
      tbl.filter (fun row => sql.holds (scdstore.searchCondition (geo.cellsToInt64 covering)
          v4d.StartTime v4d.EndTime row))
        = tbl.filter (fun row => decide (scdstore.Intersects covering v4d row)) := by
    intro covering
    apply List.filter_congr
    intro row _
    by_cases h : scdstore.Intersects covering v4d row
    · simp [h, (scdstore.holds_searchCondition covering v4d row).mpr h]
    · have : ¬ sql.holds (scdstore.searchCondition (geo.cellsToInt64 covering)
          v4d.StartTime v4d.EndTime row) = true :=
        fun hh => h ((scdstore.holds_searchCondition covering v4d row).mp hh)
      simp [h, this]
  have hrow : ∀ (covering : geo.CellUnion) (row : scdstore.Row),
      scdstore.Intersects covering v4d row →
      (∃ n ∈ covering, n % 2 ^ 64 ∈ (scdstore.fetchConstraints.scan ovn row).Cells)
      ∧ scdstore.unsetOrLe (scdstore.fetchConstraints.scan ovn row).StartTime v4d.EndTime
      ∧ scdstore.unsetOrGe (scdstore.fetchConstraints.scan ovn row).EndTime
          v4d.StartTime := by
    intro covering row h
    obtain ⟨⟨n, hn, hmem⟩, h2, h3⟩ := h
    refine ⟨⟨n, hn, ?_⟩, h2, h3⟩
    simp only [scdstore.fetchConstraints.scan, geo.CellUnionFromInt64, List.mem_map]
    exact ⟨geo.toInt64 n, hmem, geo.toCellID_toInt64 n⟩
  unfold scdstore.SearchConstraints
  rcases hcov : cov v4d with ⟨cells, err⟩
  cases err with
  | some e => simp
  | none =>
    by_cases hlen : cells.length = 0
    · have hnil : cells = [] := List.length_eq_zero.mp hlen
      subst hnil
      simp [scdstore.Intersects]
    · have hne : cells ≠ [] := fun h => hlen (by rw [h]; rfl)
      simp only [hlen, if_false, scdstore.fetchConstraints_eq_map, sql.select, hfilter]
      refine ⟨?_, fun _ => ⟨_, rfl⟩, fun _ h => absurd h hne⟩
      intro cs hcs
      injection hcs with hcs
      subst hcs
      have hmem : ∀ c ∈ ((tbl.filter (fun row =>
            decide (scdstore.Intersects cells v4d row))).take MaxResultLimit).map
              (scdstore.fetchConstraints.scan ovn),
          ∃ row ∈ tbl, scdstore.Intersects cells v4d row
            ∧ c = scdstore.fetchConstraints.scan ovn row := by
        intro c hc
        obtain ⟨row, hrow1, rfl⟩ := List.mem_map.mp hc
        have h2 := List.mem_of_mem_take hrow1
        rw [List.mem_filter] at h2
        exact ⟨row, h2.1, by simpa using h2.2, rfl⟩
      refine ⟨?_, hmem, ?_, ?_⟩
      · intro c hc
        obtain ⟨row, _, hint, rfl⟩ := hmem c hc
        exact hrow cells row hint
      · simp only [List.length_map, List.length_take]
        exact Nat.min_le_left _ _
      · intro hle
        rw [List.take_of_length_le hle]

/-- The constraint search on the concrete table: the window 30 to 40 finds only `c2`; a
volume without end time finds `c1` and `c2`; the limit 1 keeps the first; an empty
covering sends no query. -/
theorem scdstore.SearchConstraints_example :
    scdstore.searchIds 10 (scdstore.exampleVolume (some 30) (some 40)) scdstore.exampleTable
      = (["c2"], 1)
    ∧ scdstore.searchIds 10 (scdstore.exampleVolume (some 15) none) scdstore.exampleTable
      = (["c1", "c2"], 1)
    ∧ scdstore.searchIds 1 (scdstore.exampleVolume none none) scdstore.exampleTable
      = (["c1"], 1)
    ∧ scdstore.searchIds 10 ⟨some ⟨none, none, some (.ok [])⟩, none, none⟩
        scdstore.exampleTable = ([], 0) := by
  refine ⟨by decide, by decide, by decide, by decide⟩

/-- The index update on the concrete table at time 50: the first row (cells 10 and 11,
ending at 100) is bumped from 4 to 5 and returned; the second row has ended and is left
alone, although it shares the cell 12. -/
theorem ridstore.UpdateNotificationIdxsInCells_example :
    (ridstore.subscriptionRepo.UpdateNotificationIdxsInCells 50 [11, 12]
        ridstore.exampleTable).2.map (fun r => r.notification_index) = [5, 0]
    ∧ (match (ridstore.subscriptionRepo.UpdateNotificationIdxsInCells 50 [11, 12]
          ridstore.exampleTable).1 with
        | .ok subs => subs.map (fun s => (s.ID, s.NotificationIndex))
        | .error _ => []) = [("a", 5)] := by
  refine ⟨by decide, by decide⟩

/-! ### Authorizer: audiences, scopes and the handler context -/

/-- The map built from the accepted audiences answers true exactly on the elements of the
list. -/
theorem auth.auds_lookup (L : List String) (aud : String) :
    ((auth.NewRSAAuthorizer.auds L).lookup aud).getD false = true ↔ aud ∈ L := by
  induction L with
  | nil => simp [auth.NewRSAAuthorizer.auds]
  | cons s rest ih =>
    by_cases h : aud = s
    · subst h
      simp [auth.NewRSAAuthorizer.auds, List.lookup]
    · have hb : (aud == s) = false := by simpa using h
      simp [auth.NewRSAAuthorizer.auds, List.lookup, hb, ih, h]

/-- The authorizer that `NewRSAAuthorizer` returns accepts exactly the configured
audiences. -/
theorem auth.NewRSAAuthorizer_audienceAccepted {κ : Type} (cfg : auth.Configuration κ)
    (a : auth.Authorizer κ) (hnew : auth.NewRSAAuthorizer cfg = .ok a) (aud : String) :
    a.audienceAccepted aud = true ↔ aud ∈ cfg.AcceptedAudiences := by
  unfold auth.NewRSAAuthorizer at hnew
  cases hk : cfg.KeyResolver with
  | error e => simp [hk] at hnew
  | ok keys =>
    simp only [hk, Except.ok.injEq] at hnew
    subst hnew
    exact auth.auds_lookup cfg.AcceptedAudiences aud

/-- The key loop ends with the claims of the first key that verifies the token, and
unvalidated when no key verifies it. -/
theorem auth.keyLoop_firstVerified {κ : Type} (parse : String → κ → Except Error auth.claims)
    (tkn : String) (keys : List κ) (st : auth.keyLoopState) (hst : st.validated = false) :
    (∀ c, auth.firstVerified parse tkn keys = some c →
      auth.AuthInterceptor.keyLoop parse tkn keys st = ⟨true, none, c⟩)
    ∧ (auth.firstVerified parse tkn keys = none →
      (auth.AuthInterceptor.keyLoop parse tkn keys st).validated = false) := by
  induction keys generalizing st with
  | nil => simp [auth.firstVerified, auth.AuthInterceptor.keyLoop, hst]
  | cons k rest ih =>
    cases hp : parse tkn k with
    | ok c0 =>
      simp [auth.firstVerified, auth.AuthInterceptor.keyLoop, hp, Except.toOption]
    | error e =>
      have h := ih ⟨false, some e, ⟨"", "", []⟩⟩ rfl
      simpa [auth.firstVerified, auth.AuthInterceptor.keyLoop, hp, Except.toOption] using h

/-- What the interceptor does with a token that a key verifies, with claims `c`: the
audience check, then the scope check, then the handler. -/
theorem auth.AuthInterceptor_verified {κ α β : Type} (a : auth.Authorizer κ)
    (parse : String → κ → Except Error auth.claims) (ctx : auth.Context) (req : α)
    (FullMethod : String) (handler : auth.Context → α → Option β × Option Error)
    (tkn : String) (c : auth.claims) (htok : auth.getToken ctx = (tkn, true))
    (hsig : auth.firstVerified parse tkn a.keys = some c) :
    a.AuthInterceptor parse ctx req FullMethod handler =
      if a.audienceAccepted c.Audience = false then
        ⟨none, some ⟨ErrorCode.Unauthenticated,
          ["Invalid access token audience: " ++ c.Audience]⟩, none⟩
      else
        match a.validateKeyClaimedScopes FullMethod c.Scopes with
        | (expectation, some _) =>
          ⟨none, some ⟨ErrorCode.PermissionDenied,
            ["Access token missing scopes; found " ++ auth.scopeSetToString c.Scopes ", "
              ++ " while expecting " ++ expectation]⟩, none⟩
        | (_, none) =>
          ⟨(handler (auth.ContextWithOwner ctx c.Subject) req).1,
           (handler (auth.ContextWithOwner ctx c.Subject) req).2,
           some (auth.ContextWithOwner ctx c.Subject)⟩ := by
  have hk := (auth.keyLoop_firstVerified parse tkn a.keys ⟨false, none, ⟨"", "", []⟩⟩ rfl).1
    c hsig
  unfold auth.Authorizer.AuthInterceptor
  simp only [htok, hk, NewErrorWithCode]
  by_cases hacc : a.audienceAccepted c.Audience = true
  · simp [hacc]
  · have hf : a.audienceAccepted c.Audience = false := by simpa using hacc
    simp [hf]

/-- The interceptor does not invoke the handler for a token that no key verifies. -/
theorem auth.AuthInterceptor_unverified {κ α β : Type} (a : auth.Authorizer κ)
    (parse : String → κ → Except Error auth.claims) (ctx : auth.Context) (req : α)
    (FullMethod : String) (handler : auth.Context → α → Option β × Option Error)
    (tkn : String) (htok : auth.getToken ctx = (tkn, true))
    (hsig : auth.firstVerified parse tkn a.keys = none) :
    (a.AuthInterceptor parse ctx req FullMethod handler).handlerCtx = none := by
  have hk := (auth.keyLoop_firstVerified parse tkn a.keys ⟨false, none, ⟨"", "", []⟩⟩ rfl).2
    hsig
  unfold auth.Authorizer.AuthInterceptor
  simp [htok, hk]

/-- C11 as stated fails: with no accepted audience configured, a token that a key verifies,
with the audience `dss` and with the scope `read` that the method requires, is rejected
with Unauthenticated and the handler is not invoked. -/
theorem C11_empty_audiences_counterexample :
    auth.NewRSAAuthorizer (auth.exampleConfiguration []) = .ok (auth.exampleAuthorizer [])
    ∧ auth.firstVerified (auth.exampleParse "dss") "abc" (auth.exampleAuthorizer []).keys
        = some ⟨"dss", "uss1", ["read"]⟩
    ∧ ((auth.exampleAuthorizer []).validateKeyClaimedScopes "/Get" ["read"]).2 = none
    ∧ ((auth.exampleAuthorizer []).AuthInterceptor (auth.exampleParse "dss")
        (auth.exampleCtx "Bearer abc") () "/Get" auth.exampleHandler).summary
        = (some ErrorCode.Unauthenticated, false) := by
  refine ⟨rfl, by decide, by decide, by decide⟩

/-- C11 (amended): with an empty `AcceptedAudiences` list no audience is accepted: the
interceptor rejects every token that a key verifies with Unauthenticated, whatever its
`aud` claim and its scopes are, and does not invoke the handler. -/
theorem C11_empty_audiences_reject_all {κ α β : Type} (cfg : auth.Configuration κ)
    (a : auth.Authorizer κ) (parse : String → κ → Except Error auth.claims)
    (ctx : auth.Context) (req : α) (FullMethod : String)
    (handler : auth.Context → α → Option β × Option Error) (tkn : String) (c : auth.claims)
    (hnew : auth.NewRSAAuthorizer cfg = .ok a) (hempty : cfg.AcceptedAudiences = [])
    (htok : auth.getToken ctx = (tkn, true))
    (hsig : auth.firstVerified parse tkn a.keys = some c) :
    (a.AuthInterceptor parse ctx req FullMethod handler).err
        = some ⟨ErrorCode.Unauthenticated, ["Invalid access token audience: " ++ c.Audience]⟩
    ∧ (a.AuthInterceptor parse ctx req FullMethod handler).resp = none
    ∧ (a.AuthInterceptor parse ctx req FullMethod handler).handlerCtx = none := by
  have hacc : a.audienceAccepted c.Audience = false := by
    have h := auth.NewRSAAuthorizer_audienceAccepted cfg a hnew c.Audience
    rw [hempty] at h
    cases hb : a.audienceAccepted c.Audience with
    | false => rfl
    | true => exact absurd (h.mp hb) (by simp)
  rw [auth.AuthInterceptor_verified a parse ctx req FullMethod handler tkn c htok hsig]
  simp [hacc]

/-- C11 (amended), at a concrete input: no accepted audience, a token with the audience
`dss` and the required scope. -/
theorem C11_empty_audiences_reject_all_witness :
    ((auth.exampleAuthorizer []).AuthInterceptor (auth.exampleParse "dss")
        (auth.exampleCtx "Bearer abc") () "/Get" auth.exampleHandler).err
        = some ⟨ErrorCode.Unauthenticated, ["Invalid access token audience: " ++ "dss"]⟩
    ∧ ((auth.exampleAuthorizer []).AuthInterceptor (auth.exampleParse "dss")
        (auth.exampleCtx "Bearer abc") () "/Get" auth.exampleHandler).resp = none
    ∧ ((auth.exampleAuthorizer []).AuthInterceptor (auth.exampleParse "dss")
        (auth.exampleCtx "Bearer abc") () "/Get" auth.exampleHandler).handlerCtx = none :=
  C11_empty_audiences_reject_all (auth.exampleConfiguration []) (auth.exampleAuthorizer [])
    (auth.exampleParse "dss") (auth.exampleCtx "Bearer abc") () "/Get" auth.exampleHandler
    (auth.strings.TrimPrefix "Bearer abc" "Bearer ") ⟨"dss", "uss1", ["read"]⟩
    rfl rfl rfl (by decide)

/-- C12 as stated fails: with no accepted audience configured, a token that a key verifies
and whose `aud` claim is empty does not pass the audience check: it is rejected with
Unauthenticated and the handler is not invoked. -/
theorem C12_empty_audience_claim_counterexample :
    (auth.exampleAuthorizer []).audienceAccepted "" = false
    ∧ auth.firstVerified (auth.exampleParse "") "abc" (auth.exampleAuthorizer []).keys
        = some ⟨"", "uss1", ["read"]⟩
    ∧ ((auth.exampleAuthorizer []).AuthInterceptor (auth.exampleParse "")
        (auth.exampleCtx "Bearer abc") () "/Get" auth.exampleHandler).summary
        = (some ErrorCode.Unauthenticated, false) := by
  refine ⟨by decide, by decide, by decide⟩

/-- C12 (amended): with an empty `AcceptedAudiences` list the audience check fails for every
`aud` claim, the empty one included, and a verified token is rejected with
Unauthenticated; with the list that holds just the empty string, the audience check passes
for the empty `aud` claim and fails for every non-empty one, so that a verified token with
a non-empty `aud` claim is rejected with Unauthenticated and one with the empty `aud`
claim goes on to the scope check. -/
theorem C12_empty_audience_claim {κ α β : Type} (cfg : auth.Configuration κ)
    (a : auth.Authorizer κ) (parse : String → κ → Except Error auth.claims)
    (ctx : auth.Context) (req : α) (FullMethod : String)
    (handler : auth.Context → α → Option β × Option Error) (tkn : String) (c : auth.claims)
    (hnew : auth.NewRSAAuthorizer cfg = .ok a)
    (htok : auth.getToken ctx = (tkn, true))
    (hsig : auth.firstVerified parse tkn a.keys = some c) :
    (cfg.AcceptedAudiences = [] →
      (∀ aud, a.audienceAccepted aud = false)
      ∧ ∃ e, (a.AuthInterceptor parse ctx req FullMethod handler).err = some e
          ∧ e.code = ErrorCode.Unauthenticated
          ∧ (a.AuthInterceptor parse ctx req FullMethod handler).handlerCtx = none)
    ∧ (cfg.AcceptedAudiences = [""] →
      a.audienceAccepted "" = true
      ∧ (∀ aud, aud ≠ "" → a.audienceAccepted aud = false)
      ∧ (c.Audience ≠ "" →
          ∃ e, (a.AuthInterceptor parse ctx req FullMethod handler).err = some e
            ∧ e.code = ErrorCode.Unauthenticated
            ∧ (a.AuthInterceptor parse ctx req FullMethod handler).handlerCtx = none)
      ∧ (c.Audience = "" →
          (a.AuthInterceptor parse ctx req FullMethod handler).handlerCtx
              = some (auth.ContextWithOwner ctx c.Subject)
          ∨ ∃ e, (a.AuthInterceptor parse ctx req FullMethod handler).err = some e
              ∧ e.code = ErrorCode.PermissionDenied)) := by
  have hacc := auth.NewRSAAuthorizer_audienceAccepted cfg a hnew
  have hfalse : ∀ aud, aud ∉ cfg.AcceptedAudiences → a.audienceAccepted aud = false := by
    intro aud hn
    cases hb : a.audienceAccepted aud with
    | false => rfl
    | true => exact absurd ((hacc aud).mp hb) hn
  have hres := auth.AuthInterceptor_verified a parse ctx req FullMethod handler tkn c htok hsig
  constructor
  · intro hempty
    have hall : ∀ aud, a.audienceAccepted aud = false :=
      fun aud => hfalse aud (by rw [hempty]; simp)
    refine ⟨hall, ?_⟩
    rw [hres]
    simp [hall c.Audience]
  · intro hone
    refine ⟨(hacc "").mpr (by rw [hone]; simp), ?_, ?_, ?_⟩
    · intro aud hne
      exact hfalse aud (by rw [hone]; simpa using hne)
    · intro hne
      have hf := hfalse c.Audience (by rw [hone]; simpa using hne)
      rw [hres]
      simp [hf]
    · intro heq
      have ht : a.audienceAccepted c.Audience = true :=
        (hacc c.Audience).mpr (by rw [hone, heq]; simp)
      rw [hres]
      simp only [ht, Bool.true_eq_false, if_false]
      rcases hv : a.validateKeyClaimedScopes FullMethod c.Scopes with ⟨expectation, err⟩
      cases err with
      | none => simp
      | some e => simp

/-- C12 (amended), at a concrete input: the accepted audiences are the empty string, and
the token has the audience `dss`. -/
theorem C12_empty_audience_claim_witness :
    ∃ e, ((auth.exampleAuthorizer [""]).AuthInterceptor (auth.exampleParse "dss")
          (auth.exampleCtx "Bearer abc") () "/Get" auth.exampleHandler).err = some e
      ∧ e.code = ErrorCode.Unauthenticated
      ∧ ((auth.exampleAuthorizer [""]).AuthInterceptor (auth.exampleParse "dss")
          (auth.exampleCtx "Bearer abc") () "/Get" auth.exampleHandler).handlerCtx = none :=
  ((C12_empty_audience_claim (auth.exampleConfiguration [""]) (auth.exampleAuthorizer [""])
    (auth.exampleParse "dss") (auth.exampleCtx "Bearer abc") () "/Get" auth.exampleHandler
    (auth.strings.TrimPrefix "Bearer abc" "Bearer ") ⟨"dss", "uss1", ["read"]⟩
    rfl rfl (by decide)).2 rfl).2.2.1 (by decide)

/-- C13: for an authorizer made from the accepted audiences `L`, and a token that a key
verifies with claims `c`: the audience check passes if and only if `c.Audience` is an
element of `L` (for the empty `aud` string: if and only if `L` contains the empty string);
when it fails the interceptor returns Unauthenticated without invoking the handler,
whatever the scope validators are; when it passes the interceptor goes on to the scope
check (it invokes the handler or returns PermissionDenied). -/
theorem C13_audience_check {κ α β : Type} (cfg : auth.Configuration κ)
    (a : auth.Authorizer κ) (parse : String → κ → Except Error auth.claims)
    (ctx : auth.Context) (req : α) (FullMethod : String)
    (handler : auth.Context → α → Option β × Option Error) (tkn : String) (c : auth.claims)
    (hnew : auth.NewRSAAuthorizer cfg = .ok a)
    (htok : auth.getToken ctx = (tkn, true))
    (hsig : auth.firstVerified parse tkn a.keys = some c) :
    (a.audienceAccepted c.Audience = true ↔ c.Audience ∈ cfg.AcceptedAudiences)
    ∧ (c.Audience = "" →
        (a.audienceAccepted c.Audience = true ↔ "" ∈ cfg.AcceptedAudiences))
    ∧ (c.Audience ∉ cfg.AcceptedAudiences →
        (a.AuthInterceptor parse ctx req FullMethod handler).err
            = some ⟨ErrorCode.Unauthenticated,
                ["Invalid access token audience: " ++ c.Audience]⟩
        ∧ (a.AuthInterceptor parse ctx req FullMethod handler).resp = none
        ∧ (a.AuthInterceptor parse ctx req FullMethod handler).handlerCtx = none)
    ∧ (c.Audience ∈ cfg.AcceptedAudiences →
        ((a.AuthInterceptor parse ctx req FullMethod handler).handlerCtx
            = some (auth.ContextWithOwner ctx c.Subject)
          ∧ (a.validateKeyClaimedScopes FullMethod c.Scopes).2 = none)
        ∨ ((∃ e, (a.AuthInterceptor parse ctx req FullMethod handler).err = some e
              ∧ e.code = ErrorCode.PermissionDenied)
          ∧ (a.AuthInterceptor parse ctx req FullMethod handler).handlerCtx = none
          ∧ (a.validateKeyClaimedScopes FullMethod c.Scopes).2 ≠ none)) := by
  have hacc := auth.NewRSAAuthorizer_audienceAccepted cfg a hnew c.Audience
  have hres := auth.AuthInterceptor_verified a parse ctx req FullMethod handler tkn c htok hsig
  refine ⟨hacc, ?_, ?_, ?_⟩
  · intro heq
    rw [hacc, heq]
  · intro hn
    have hf : a.audienceAccepted c.Audience = false := by
      cases hb : a.audienceAccepted c.Audience with
      | false => rfl
      | true => exact absurd (hacc.mp hb) hn
    rw [hres]
    simp [hf]
  · intro hin
    have ht : a.audienceAccepted c.Audience = true := hacc.mpr hin
    rw [hres]
    simp only [ht, Bool.true_eq_false, if_false]
    rcases hv : a.validateKeyClaimedScopes FullMethod c.Scopes with ⟨expectation, err⟩
    cases err with
    | none => simp
    | some e => simp

/-- C13, at a concrete input: the accepted audiences are `dss` and `other`; a token with
the audience `dss` passes and reaches the handler, a token with the empty audience is
rejected. -/
theorem C13_audience_check_witness :
    ((auth.exampleAuthorizer ["dss", "other"]).AuthInterceptor (auth.exampleParse "")
        (auth.exampleCtx "Bearer abc") () "/Get" auth.exampleHandler).err
        = some ⟨ErrorCode.Unauthenticated, ["Invalid access token audience: " ++ ""]⟩
    ∧ ((auth.exampleAuthorizer ["dss", "other"]).audienceAccepted "dss" = true
        ↔ "dss" ∈ ["dss", "other"]) :=
  ⟨((C13_audience_check (auth.exampleConfiguration ["dss", "other"])
      (auth.exampleAuthorizer ["dss", "other"]) (auth.exampleParse "")
      (auth.exampleCtx "Bearer abc") () "/Get" auth.exampleHandler
      (auth.strings.TrimPrefix "Bearer abc" "Bearer ") ⟨"", "uss1", ["read"]⟩
      rfl rfl (by decide)).2.2.1 (by decide)).1,
   (C13_audience_check (auth.exampleConfiguration ["dss", "other"])
      (auth.exampleAuthorizer ["dss", "other"]) (auth.exampleParse "dss")
      (auth.exampleCtx "Bearer abc") () "/Get" auth.exampleHandler
      (auth.strings.TrimPrefix "Bearer abc" "Bearer ") ⟨"dss", "uss1", ["read"]⟩
      rfl rfl (by decide)).1⟩

/-- C14: when the operation has a registered validator `v` that rejects the scopes of a
verified token with an accepted audience, the interceptor returns PermissionDenied with
the message "Access token missing scopes; found F while expecting E", where F is the
claimed scopes joined by ", " and E is `v.Expectation()`: the required scopes in order
joined by " and " for `RequireAllScopes` and by " or " for `RequireAnyScope`; the handler
is not invoked. For `RequireAllScopes(a, b)` and the claimed scopes `a` the message is
"Access token missing scopes; found a while expecting a and b". -/
theorem C14_missing_scopes_message {κ α β : Type} (a : auth.Authorizer κ)
    (parse : String → κ → Except Error auth.claims) (ctx : auth.Context) (req : α)
    (FullMethod : String) (handler : auth.Context → α → Option β × Option Error)
    (tkn : String) (c : auth.claims) (v : auth.KeyClaimedScopesValidator)
    (e : auth.missingScopesError)
    (htok : auth.getToken ctx = (tkn, true))
    (hsig : auth.firstVerified parse tkn a.keys = some c)
    (haud : a.audienceAccepted c.Audience = true)
    (hreg : a.scopesValidators.lookup FullMethod = some v)
    (hrej : v.ValidateKeyClaimedScopes c.Scopes = some e) :
    (a.AuthInterceptor parse ctx req FullMethod handler).err
        = some ⟨ErrorCode.PermissionDenied,
            ["Access token missing scopes; found " ++ String.intercalate ", " c.Scopes
              ++ " while expecting " ++ v.Expectation]⟩
    ∧ (a.AuthInterceptor parse ctx req FullMethod handler).resp = none
    ∧ (a.AuthInterceptor parse ctx req FullMethod handler).handlerCtx = none
    ∧ (∀ required, (auth.KeyClaimedScopesValidator.allScopes
          (auth.RequireAllScopes required)).Expectation
        = String.intercalate " and " required)
    ∧ (∀ required, (auth.KeyClaimedScopesValidator.anyScopes
          (auth.RequireAnyScope required)).Expectation
        = String.intercalate " or " required)
    ∧ (v = .allScopes (auth.RequireAllScopes ["a", "b"]) → c.Scopes = ["a"] →
        (a.AuthInterceptor parse ctx req FullMethod handler).err
          = some ⟨ErrorCode.PermissionDenied,
              ["Access token missing scopes; found a while expecting a and b"]⟩) := by
  have hres := auth.AuthInterceptor_verified a parse ctx req FullMethod handler tkn c htok hsig
  have hval : a.validateKeyClaimedScopes FullMethod c.Scopes = (v.Expectation, some e) := by
    simp [auth.Authorizer.validateKeyClaimedScopes, hreg, hrej]
  have herr : (a.AuthInterceptor parse ctx req FullMethod handler).err
      = some ⟨ErrorCode.PermissionDenied,
          ["Access token missing scopes; found " ++ String.intercalate ", " c.Scopes
            ++ " while expecting " ++ v.Expectation]⟩ := by
    rw [hres]
    simp [haud, hval, auth.scopeSetToString]
  refine ⟨herr, ?_, ?_, fun _ => rfl, fun _ => rfl, ?_⟩
  · rw [hres]
    simp [haud, hval]
  · rw [hres]
    simp [haud, hval]
  · intro hv hs
    rw [herr, hv, hs]
    decide

/-- C14, at a concrete input: the method `/Put` requires the scopes `a` and `b`, and the
verified token, with an accepted audience, claims the scope `a` only. -/
theorem C14_missing_scopes_message_witness :
    (auth.Authorizer.AuthInterceptor
        (⟨[1], [("/Put", .allScopes (auth.RequireAllScopes ["a", "b"]))], [("dss", true)]⟩ :
          auth.Authorizer Nat)
        (fun _ _ => .ok ⟨"dss", "uss1", ["a"]⟩) (auth.exampleCtx "Bearer abc") () "/Put"
        auth.exampleHandler).err
      = some ⟨ErrorCode.PermissionDenied,
          ["Access token missing scopes; found a while expecting a and b"]⟩ :=
  (C14_missing_scopes_message
    (⟨[1], [("/Put", .allScopes (auth.RequireAllScopes ["a", "b"]))], [("dss", true)]⟩ :
      auth.Authorizer Nat)
    (fun _ _ => .ok ⟨"dss", "uss1", ["a"]⟩) (auth.exampleCtx "Bearer abc") () "/Put"
    auth.exampleHandler (auth.strings.TrimPrefix "Bearer abc" "Bearer ")
    ⟨"dss", "uss1", ["a"]⟩ (.allScopes (auth.RequireAllScopes ["a", "b"])) ⟨["b"]⟩
    rfl rfl (by decide) (by decide) (by decide)).2.2.2.2.2 rfl rfl

/-- C15: the interceptor invokes the handler if and only if a token is present, a resolved
key verifies it (the first such key giving the claims `c`), the audience of `c` is
accepted and the scopes of `c` satisfy the validator registered for the operation, if
there is one; the context handed to the handler then has `OwnerFromContext` and
`ManagerFromContext` equal to (`c.Subject`, true). In general
`OwnerFromContext(ContextWithOwner(ctx, o))` is (`o`, true), and `OwnerFromContext`
reports false on a context in which no owner was set. -/
theorem C15_handler_invoked_iff {κ α β : Type} (a : auth.Authorizer κ)
    (parse : String → κ → Except Error auth.claims) (ctx : auth.Context) (req : α)
    (FullMethod : String) (handler : auth.Context → α → Option β × Option Error) :
    ((a.AuthInterceptor parse ctx req FullMethod handler).handlerCtx ≠ none
      ↔ ∃ tkn c, auth.getToken ctx = (tkn, true)
          ∧ auth.firstVerified parse tkn a.keys = some c
          ∧ a.audienceAccepted c.Audience = true
          ∧ ∀ v, a.scopesValidators.lookup FullMethod = some v →
              v.ValidateKeyClaimedScopes c.Scopes = none)
    ∧ (∀ hctx, (a.AuthInterceptor parse ctx req FullMethod handler).handlerCtx = some hctx →
        ∃ tkn c, auth.getToken ctx = (tkn, true)
          ∧ auth.firstVerified parse tkn a.keys = some c
          ∧ auth.OwnerFromContext hctx = (c.Subject, true)
          ∧ auth.ManagerFromContext hctx = (c.Subject, true)
          ∧ (a.AuthInterceptor parse ctx req FullMethod handler).resp = (handler hctx req).1
          ∧ (a.AuthInterceptor parse ctx req FullMethod handler).err = (handler hctx req).2)
    ∧ (∀ (ctx0 : auth.Context) (o : dssmodels.Owner),
        auth.OwnerFromContext (auth.ContextWithOwner ctx0 o) = (o, true)
        ∧ auth.ManagerFromContext (auth.ContextWithOwner ctx0 o) = (o, true))
    ∧ (∀ ctx0 : auth.Context, ctx0.owner = none →
        (auth.OwnerFromContext ctx0).2 = false ∧ (auth.ManagerFromContext ctx0).2 = false) := by
  have hscopes : ∀ c : auth.claims,
      ((a.validateKeyClaimedScopes FullMethod c.Scopes).2 = none
        ↔ ∀ v, a.scopesValidators.lookup FullMethod = some v →
            v.ValidateKeyClaimedScopes c.Scopes = none) := by
    intro c
    unfold auth.Authorizer.validateKeyClaimedScopes
    cases hl : a.scopesValidators.lookup FullMethod with
    | none => simp
    | some v => simp
  have hmain : ∀ tkn c, auth.getToken ctx = (tkn, true) →
      auth.firstVerified parse tkn a.keys = some c →
      ((a.AuthInterceptor parse ctx req FullMethod handler).handlerCtx ≠ none
        ↔ (a.audienceAccepted c.Audience = true
            ∧ (a.validateKeyClaimedScopes FullMethod c.Scopes).2 = none))
      ∧ (∀ hctx, (a.AuthInterceptor parse ctx req FullMethod handler).handlerCtx = some hctx →
          hctx = auth.ContextWithOwner ctx c.Subject
          ∧ (a.AuthInterceptor parse ctx req FullMethod handler).resp = (handler hctx req).1
          ∧ (a.AuthInterceptor parse ctx req FullMethod handler).err
              = (handler hctx req).2) := by
    intro tkn c htok hsig
    rw [auth.AuthInterceptor_verified a parse ctx req FullMethod handler tkn c htok hsig]
    by_cases hacc : a.audienceAccepted c.Audience = true
    · simp only [hacc, Bool.true_eq_false, if_false, true_and]
      rcases hv : a.validateKeyClaimedScopes FullMethod c.Scopes with ⟨expectation, err⟩
      cases err with
      | none =>
        refine ⟨by simp, ?_⟩
        intro hctx h
        simp only [Option.some.injEq] at h
        subst h
        exact ⟨rfl, rfl, rfl⟩
      | some e => simp
    · have hf : a.audienceAccepted c.Audience = false := by simpa using hacc
      simp [hf]
  rcases hg : auth.getToken ctx with ⟨tkn, present⟩
  cases present with
  | false =>
    have hnone : (a.AuthInterceptor parse ctx req FullMethod handler).handlerCtx = none := by
      simp [auth.Authorizer.AuthInterceptor, hg]
    refine ⟨?_, ?_, ?_, ?_⟩
    · rw [hnone]
      simp
    · intro hctx h
      rw [hnone] at h
      simp at h
    · intro ctx0 o
      exact ⟨rfl, rfl⟩
    · intro ctx0 h0
      simp [auth.OwnerFromContext, auth.ManagerFromContext, h0]
  | true =>
    refine ⟨?_, ?_, ?_, ?_⟩
    · cases hs : auth.firstVerified parse tkn a.keys with
      | none =>
        rw [auth.AuthInterceptor_unverified a parse ctx req FullMethod handler tkn hg hs]
        simp only [ne_eq, not_true_eq_false, false_iff, not_exists, not_and]
        intro tkn1 c h1 h2
        simp only [Prod.mk.injEq, and_true] at h1
        subst h1
        rw [hs] at h2
        simp at h2
      | some c =>
        rw [(hmain tkn c hg hs).1, hscopes c]
        constructor
        · intro h
          exact ⟨tkn, c, rfl, hs, h.1, h.2⟩
        · rintro ⟨tkn1, c1, h1, h2, h3, h4⟩
          simp only [Prod.mk.injEq, and_true] at h1
          subst h1
          rw [hs] at h2
          simp only [Option.some.injEq] at h2
          subst h2
          exact ⟨h3, h4⟩
    · intro hctx h
      cases hs : auth.firstVerified parse tkn a.keys with
      | none =>
        rw [auth.AuthInterceptor_unverified a parse ctx req FullMethod handler tkn hg hs] at h
        simp at h
      | some c =>
        obtain ⟨h1, h2, h3⟩ := (hmain tkn c hg hs).2 hctx h
        subst h1
        exact ⟨tkn, c, rfl, hs, rfl, rfl, h2, h3⟩
    · intro ctx0 o
      exact ⟨rfl, rfl⟩
    · intro ctx0 h0
      simp [auth.OwnerFromContext, auth.ManagerFromContext, h0]

/-! ### HTTP gateway: status codes and error bodies -/

/-- On a code that is none of the seventeen library codes, `myCodeToHTTPStatus` reaches the
last two cases of the `switch`. -/
theorem gateway.myCodeToHTTPStatus_large (errors : gateway.ErrorCodes) (code : Nat)
    (h : 17 ≤ code) :
    gateway.myCodeToHTTPStatus errors code
      = if code = errors.AreaTooLarge then 413
        else if code = errors.MissingOVNs then 409 else 500 := by
  have h0 : code ≠ 0 := by omega
  have h1 : code ≠ 1 := by omega
  have h2 : code ≠ 2 := by omega
  have h3 : code ≠ 3 := by omega
  have h4 : code ≠ 4 := by omega
  have h5 : code ≠ 5 := by omega
  have h6 : code ≠ 6 := by omega
  have h7 : code ≠ 7 := by omega
  have h8 : code ≠ 8 := by omega
  have h9 : code ≠ 9 := by omega
  have h10 : code ≠ 10 := by omega
  have h11 : code ≠ 11 := by omega
  have h12 : code ≠ 12 := by omega
  have h13 : code ≠ 13 := by omega
  have h14 : code ≠ 14 := by omega
  have h15 : code ≠ 15 := by omega
  have h16 : code ≠ 16 := by omega
  simp [gateway.myCodeToHTTPStatus, codes.OK, codes.Canceled, codes.Unknown,
    codes.InvalidArgument, codes.DeadlineExceeded, codes.NotFound, codes.AlreadyExists,
    codes.PermissionDenied, codes.Unauthenticated, codes.ResourceExhausted,
    codes.FailedPrecondition, codes.Aborted, codes.OutOfRange, codes.Unimplemented,
    codes.Internal, codes.Unavailable, codes.DataLoss, http.StatusRequestEntityTooLarge,
    http.StatusConflict, http.StatusInternalServerError,
    h0, h1, h2, h3, h4, h5, h6, h7, h8, h9, h10, h11, h12, h13, h14, h15, h16]

/-- C16: `myCodeToHTTPStatus` is the status table, as a total function on codes: each of
the seventeen library codes and the two codes of `pkg/errors` has the status of its row,
every other code has status 500, and the status is 200 only for OK. The two codes of
`pkg/errors` differ from the library codes and from each other (they are cases of one
`switch`). -/
theorem C16_myCodeToHTTPStatus_table (errors : gateway.ErrorCodes)
    (hA : errors.AreaTooLarge ∉ codes.standard) (hM : errors.MissingOVNs ∉ codes.standard)
    (hne : errors.AreaTooLarge ≠ errors.MissingOVNs) :
    gateway.myCodeToHTTPStatus errors codes.OK = 200
    ∧ gateway.myCodeToHTTPStatus errors codes.Canceled = 408
    ∧ gateway.myCodeToHTTPStatus errors codes.Unknown = 500
    ∧ gateway.myCodeToHTTPStatus errors codes.InvalidArgument = 400
    ∧ gateway.myCodeToHTTPStatus errors codes.DeadlineExceeded = 504
    ∧ gateway.myCodeToHTTPStatus errors codes.NotFound = 404
    ∧ gateway.myCodeToHTTPStatus errors codes.AlreadyExists = 409
    ∧ gateway.myCodeToHTTPStatus errors codes.PermissionDenied = 403
    ∧ gateway.myCodeToHTTPStatus errors codes.Unauthenticated = 401
    ∧ gateway.myCodeToHTTPStatus errors codes.ResourceExhausted = 429
    ∧ gateway.myCodeToHTTPStatus errors codes.FailedPrecondition = 400
    ∧ gateway.myCodeToHTTPStatus errors codes.Aborted = 409
    ∧ gateway.myCodeToHTTPStatus errors codes.OutOfRange = 400
    ∧ gateway.myCodeToHTTPStatus errors codes.Unimplemented = 501
    ∧ gateway.myCodeToHTTPStatus errors codes.Internal = 500
    ∧ gateway.myCodeToHTTPStatus errors codes.Unavailable = 503
    ∧ gateway.myCodeToHTTPStatus errors codes.DataLoss = 500
    ∧ gateway.myCodeToHTTPStatus errors errors.AreaTooLarge = 413
    ∧ gateway.myCodeToHTTPStatus errors errors.MissingOVNs = 409
    ∧ (∀ code : Nat, code ∉ codes.standard → code ≠ errors.AreaTooLarge →
        code ≠ errors.MissingOVNs → gateway.myCodeToHTTPStatus errors code = 500)
    ∧ (∀ code : Nat, gateway.myCodeToHTTPStatus errors code = 200 ↔ code = codes.OK) := by
  simp only [codes.standard, List.mem_range, not_lt] at hA hM
  have hcases := gateway.myCodeToHTTPStatus_large errors
  have hsmall : ∀ code : Nat, code < 17 →
      (gateway.myCodeToHTTPStatus errors code = 200 ↔ code = codes.OK) := by
    intro code h
    interval_cases code <;> simp [gateway.myCodeToHTTPStatus, codes.OK, codes.Canceled,
      codes.Unknown, codes.InvalidArgument, codes.DeadlineExceeded, codes.NotFound,
      codes.AlreadyExists, codes.PermissionDenied, codes.Unauthenticated,
      codes.ResourceExhausted, codes.FailedPrecondition, codes.Aborted, codes.OutOfRange,
      codes.Unimplemented, codes.Internal, codes.Unavailable, codes.DataLoss,
      http.StatusOK, http.StatusBadRequest, http.StatusUnauthorized, http.StatusForbidden,
      http.StatusNotFound, http.StatusRequestTimeout, http.StatusConflict,
      http.StatusTooManyRequests, http.StatusInternalServerError, http.StatusNotImplemented,
      http.StatusServiceUnavailable, http.StatusGatewayTimeout]
  refine ⟨by rfl, by rfl, by rfl, by rfl, by rfl, by rfl, by rfl, by rfl, by rfl, by rfl,
    by rfl, by rfl, by rfl, by rfl, by rfl, by rfl, by rfl, ?_, ?_, ?_, ?_⟩
  · rw [hcases _ hA]
    simp
  · rw [hcases _ hM]
    simp [Ne.symm hne]
  · intro code hc h1 h2
    simp only [codes.standard, List.mem_range, not_lt] at hc
    rw [hcases _ hc]
    simp [h1, h2]
  · intro code
    by_cases h : code < 17
    · exact hsmall code h
    · have h17 : 17 ≤ code := by omega
      rw [hcases _ h17]
      have : code ≠ codes.OK := by
        simp only [codes.OK]
        omega
      split_ifs <;> simp [this]

/-- C16, at a concrete input: the two codes of `pkg/errors` are 17 and 18. -/
theorem C16_myCodeToHTTPStatus_table_witness :
    gateway.myCodeToHTTPStatus ⟨17, 18⟩ 17 = 413
    ∧ gateway.myCodeToHTTPStatus ⟨17, 18⟩ 18 = 409
    ∧ gateway.myCodeToHTTPStatus ⟨17, 18⟩ 99 = 500 :=
  have h := C16_myCodeToHTTPStatus_table ⟨17, 18⟩ (by decide) (by decide) (by decide)
  ⟨h.2.2.2.2.2.2.2.2.2.2.2.2.2.2.2.2.2.1, h.2.2.2.2.2.2.2.2.2.2.2.2.2.2.2.2.2.2.1,
   h.2.2.2.2.2.2.2.2.2.2.2.2.2.2.2.2.2.2.2.1 99 (by decide) (by decide) (by decide)⟩

/-- The status `myHTTPError` writes and the body, from what was marshalled. -/
theorem gateway.myHTTPError_of_content {χ : Type} (errors : gateway.ErrorCodes)
    (rules : gateway.HeaderRules) (errID : String) (md : Option gateway.ServerMetadata)
    (marshaler : gateway.Marshaler χ) (w : http.Header) (err : gateway.CallError χ) :
    (gateway.myHTTPError errors rules errID md marshaler w err).marshalled
        = (gateway.marshalContent errors marshaler errID (gateway.statusOf err)).2.2
    ∧ ((gateway.marshalContent errors marshaler errID (gateway.statusOf err)).2.1 = none →
        (gateway.myHTTPError errors rules errID md marshaler w err).status
            = gateway.myCodeToHTTPStatus errors (gateway.statusOf err).Code
        ∧ (gateway.myHTTPError errors rules errID md marshaler w err).body
            = (gateway.marshalContent errors marshaler errID (gateway.statusOf err)).1)
    ∧ (∀ e, (gateway.marshalContent errors marshaler errID (gateway.statusOf err)).2.1
          = some e →
        (gateway.myHTTPError errors rules errID md marshaler w err).status = 500
        ∧ (gateway.myHTTPError errors rules errID md marshaler w err).body
            = gateway.fallback errID) := by
  refine ⟨?_, ?_, ?_⟩
  · unfold gateway.myHTTPError
    cases h : (gateway.marshalContent errors marshaler errID (gateway.statusOf err)).2.1 <;>
      simp [h]
  · intro h
    simp [gateway.myHTTPError, h]
  · intro e h
    simp [gateway.myHTTPError, h, http.StatusInternalServerError]

/-- C17: for a status whose code is MissingOVNs, `myHTTPError` writes the status 409 and
the marshalled first detail as body exactly when the status has a first detail, this
detail is an `AirspaceConflictResponse` and it marshals without error; in every other
case (no detail, a first detail of another type, a marshalling failure) it writes the
status 500 and the fallback text, whose `code` field is that of Internal (13). -/
theorem C17_myHTTPError_MissingOVNs {χ : Type} (errors : gateway.ErrorCodes)
    (rules : gateway.HeaderRules) (errID : String) (md : Option gateway.ServerMetadata)
    (marshaler : gateway.Marshaler χ) (w : http.Header) (s : gateway.Status χ)
    (hM : errors.MissingOVNs ∉ codes.standard)
    (hne : errors.AreaTooLarge ≠ errors.MissingOVNs)
    (hcode : s.Code = errors.MissingOVNs) :
    (∀ body rest buf, s.Details = gateway.Detail.AirspaceConflictResponse body :: rest →
        marshaler.Marshal (.conflict body) = .ok buf →
        (gateway.myHTTPError errors rules errID md marshaler w (.ofStatus s)).status = 409
        ∧ (gateway.myHTTPError errors rules errID md marshaler w (.ofStatus s)).body = buf)
    ∧ ((gateway.myHTTPError errors rules errID md marshaler w (.ofStatus s)).status = 409
        ↔ ∃ body rest buf, s.Details = gateway.Detail.AirspaceConflictResponse body :: rest
            ∧ marshaler.Marshal (.conflict body) = .ok buf)
    ∧ ((¬ ∃ body rest buf, s.Details = gateway.Detail.AirspaceConflictResponse body :: rest
            ∧ marshaler.Marshal (.conflict body) = .ok buf) →
        (gateway.myHTTPError errors rules errID md marshaler w (.ofStatus s)).status = 500
        ∧ (gateway.myHTTPError errors rules errID md marshaler w (.ofStatus s)).body
            = gateway.fallback errID)
    ∧ gateway.fallback errID
        = "\x7b\"error\": \"Internal server error (fallback) " ++ errID
          ++ "\", \"message\": \"Internal server error (fallback) " ++ errID
          ++ "\", \"error_id\": \"" ++ errID ++ "\", \"code\": 13\x7d" := by
  have h409 : gateway.myCodeToHTTPStatus errors errors.MissingOVNs = 409 := by
    simp only [codes.standard, List.mem_range, not_lt] at hM
    rw [gateway.myCodeToHTTPStatus_large errors errors.MissingOVNs hM]
    simp [Ne.symm hne]
  have hcont := gateway.myHTTPError_of_content errors rules errID md marshaler w (.ofStatus s)
  simp only [gateway.statusOf] at hcont
  have hgood : ∀ body rest buf,
      s.Details = gateway.Detail.AirspaceConflictResponse body :: rest →
      marshaler.Marshal (.conflict body) = .ok buf →
      (gateway.myHTTPError errors rules errID md marshaler w (.ofStatus s)).status = 409
      ∧ (gateway.myHTTPError errors rules errID md marshaler w (.ofStatus s)).body = buf := by
    intro body rest buf hd hm
    have hc : gateway.marshalContent errors marshaler errID s
        = (buf, none, [.conflict body]) := by
      simp [gateway.marshalContent, hcode, hd, hm]
    obtain ⟨h1, h2⟩ := hcont.2.1 (by rw [hc])
    rw [hcode, h409] at h1
    rw [hc] at h2
    exact ⟨h1, h2⟩
  have hbad : (¬ ∃ body rest buf,
        s.Details = gateway.Detail.AirspaceConflictResponse body :: rest
          ∧ marshaler.Marshal (.conflict body) = .ok buf) →
      (gateway.myHTTPError errors rules errID md marshaler w (.ofStatus s)).status = 500
      ∧ (gateway.myHTTPError errors rules errID md marshaler w (.ofStatus s)).body
          = gateway.fallback errID := by
    intro hno
    have hc : ∃ e, (gateway.marshalContent errors marshaler errID s).2.1 = some e := by
      cases hd : s.Details with
      | nil => simp [gateway.marshalContent, hcode, hd]
      | cons d rest =>
        cases d with
        | AirspaceConflictResponse body =>
          cases hm : marshaler.Marshal (.conflict body) with
          | ok buf => exact absurd ⟨body, rest, buf, hd, hm⟩ hno
          | error e => simp [gateway.marshalContent, hcode, hd, hm]
        | StandardErrorResponse r => simp [gateway.marshalContent, hcode, hd]
        | other t => simp [gateway.marshalContent, hcode, hd]
    obtain ⟨e, hc⟩ := hc
    exact hcont.2.2 e hc
  refine ⟨hgood, ?_, hbad, ?_⟩
  · constructor
    · intro h
      by_contra hno
      have := (hbad hno).1
      omega
    · rintro ⟨body, rest, buf, hd, hm⟩
      exact (hgood body rest buf hd hm).1
  · simp only [gateway.fallback, codes.Internal]
    have : toString (13 : Nat) = "13" := by decide
    simp [this, String.append_assoc]

/-- C17, at a concrete input: a MissingOVNs status (code 18) whose first detail is a
conflict response, and one without details. -/
theorem C17_myHTTPError_MissingOVNs_witness :
    ((gateway.myHTTPError gateway.exampleErrors gateway.exampleRules "id1" none
        gateway.exampleMarshaler []
        (.ofStatus ⟨18, "missing", [.AirspaceConflictResponse "conflicts"]⟩)).status = 409
      ∧ (gateway.myHTTPError gateway.exampleErrors gateway.exampleRules "id1" none
        gateway.exampleMarshaler []
        (.ofStatus ⟨18, "missing", [.AirspaceConflictResponse "conflicts"]⟩)).body
          = "conflicts")
    ∧ ((gateway.myHTTPError gateway.exampleErrors gateway.exampleRules "id1" none
        gateway.exampleMarshaler [] (.ofStatus ⟨18, "missing", []⟩)).status = 500
      ∧ (gateway.myHTTPError gateway.exampleErrors gateway.exampleRules "id1" none
        gateway.exampleMarshaler [] (.ofStatus ⟨18, "missing", []⟩)).body
          = gateway.fallback "id1") :=
  ⟨(C17_myHTTPError_MissingOVNs gateway.exampleErrors gateway.exampleRules "id1" none
      gateway.exampleMarshaler [] ⟨18, "missing", [.AirspaceConflictResponse "conflicts"]⟩
      (by decide) (by decide) rfl).1 "conflicts" [] "conflicts" rfl rfl,
   (C17_myHTTPError_MissingOVNs gateway.exampleErrors gateway.exampleRules "id1" none
      gateway.exampleMarshaler [] ⟨18, "missing", []⟩
      (by decide) (by decide) rfl).2.2.1 (by simp)⟩

/-- The conversion to `int32` keeps every code below `2 ^ 31`. -/
theorem gateway.toInt32_small (code : Nat) (h : code < 2 ^ 31) :
    gateway.toInt32 code = (code : Int) := by
  unfold gateway.toInt32
  have h1 : code % 2 ^ 32 = code := Nat.mod_eq_of_lt (by omega)
  rw [h1, if_pos h]

/-- C18: for an error whose status is not MissingOVNs: when the status does not carry
exactly one detail that is a `StandardErrorResponse`, the message `myHTTPError` marshals
is the `StandardErrorResponse` with `error` and `message` the status message, `code` the
status code (converted to `int32`, which keeps every code below `2 ^ 31`) and `error_id`
the id made for this call; when the status carries exactly one detail and it is a
`StandardErrorResponse`, that detail is marshalled instead. When the marshalling succeeds
the body written is its result and the status written is `myCodeToHTTPStatus` of the
status code; when it fails the status 500 and the fallback text are written. -/
theorem C18_myHTTPError_standard {χ : Type} (errors : gateway.ErrorCodes)
    (rules : gateway.HeaderRules) (errID : String) (md : Option gateway.ServerMetadata)
    (marshaler : gateway.Marshaler χ) (w : http.Header) (err : gateway.CallError χ)
    (hcode : (gateway.statusOf err).Code ≠ errors.MissingOVNs) :
    ((∀ result, (gateway.statusOf err).Details
          ≠ [gateway.Detail.StandardErrorResponse result]) →
      (gateway.myHTTPError errors rules errID md marshaler w err).marshalled
          = [.standard ⟨(gateway.statusOf err).Message, (gateway.statusOf err).Message,
              gateway.toInt32 (gateway.statusOf err).Code, errID⟩]
      ∧ ((gateway.statusOf err).Code < 2 ^ 31 →
          gateway.toInt32 (gateway.statusOf err).Code = ((gateway.statusOf err).Code : Nat))
      ∧ (∀ buf, marshaler.Marshal (.standard ⟨(gateway.statusOf err).Message,
              (gateway.statusOf err).Message, gateway.toInt32 (gateway.statusOf err).Code,
              errID⟩) = .ok buf →
          (gateway.myHTTPError errors rules errID md marshaler w err).body = buf
          ∧ (gateway.myHTTPError errors rules errID md marshaler w err).status
              = gateway.myCodeToHTTPStatus errors (gateway.statusOf err).Code)
      ∧ (∀ e, marshaler.Marshal (.standard ⟨(gateway.statusOf err).Message,
              (gateway.statusOf err).Message, gateway.toInt32 (gateway.statusOf err).Code,
              errID⟩) = .error e →
          (gateway.myHTTPError errors rules errID md marshaler w err).body
              = gateway.fallback errID
          ∧ (gateway.myHTTPError errors rules errID md marshaler w err).status = 500))
    ∧ (∀ result, (gateway.statusOf err).Details
          = [gateway.Detail.StandardErrorResponse result] →
      (gateway.myHTTPError errors rules errID md marshaler w err).marshalled
          = [.standard result]
      ∧ (∀ buf, marshaler.Marshal (.standard result) = .ok buf →
          (gateway.myHTTPError errors rules errID md marshaler w err).body = buf
          ∧ (gateway.myHTTPError errors rules errID md marshaler w err).status
              = gateway.myCodeToHTTPStatus errors (gateway.statusOf err).Code)
      ∧ (∀ e, marshaler.Marshal (.standard result) = .error e →
          (gateway.myHTTPError errors rules errID md marshaler w err).body
              = gateway.fallback errID
          ∧ (gateway.myHTTPError errors rules errID md marshaler w err).status = 500)) := by
  obtain ⟨hcalls, hok, hfail⟩ :=
    gateway.myHTTPError_of_content errors rules errID md marshaler w err
  generalize gateway.statusOf err = s at hcode hcalls hok hfail ⊢
  constructor
  · intro hnot
    have hc : gateway.marshalContent errors marshaler errID s
        = match marshaler.Marshal (.standard ⟨s.Message, s.Message,
              gateway.toInt32 s.Code, errID⟩) with
          | .ok buf => (buf, none, [.standard ⟨s.Message, s.Message,
              gateway.toInt32 s.Code, errID⟩])
          | .error e => ("", some e, [.standard ⟨s.Message, s.Message,
              gateway.toInt32 s.Code, errID⟩]) := by
      unfold gateway.marshalContent
      simp only [hcode, if_false]
      cases hd : s.Details with
      | nil => simp
      | cons d rest =>
        cases rest with
        | nil =>
          cases d with
          | AirspaceConflictResponse body => simp
          | StandardErrorResponse r => exact absurd hd (hnot r)
          | other t => simp
        | cons d2 rest2 => simp
    refine ⟨?_, ?_, ?_, ?_⟩
    · rw [hcalls, hc]
      cases marshaler.Marshal (.standard ⟨s.Message, s.Message,
        gateway.toInt32 s.Code, errID⟩) <;> rfl
    · intro hlt
      exact gateway.toInt32_small s.Code hlt
    · intro buf hm
      rw [hm] at hc
      have h := hok (by rw [hc])
      rw [hc] at h
      exact ⟨h.2, h.1⟩
    · intro e hm
      rw [hm] at hc
      have h := hfail e (by rw [hc])
      exact ⟨h.2, h.1⟩
  · intro result hd
    have hc : gateway.marshalContent errors marshaler errID s
        = match marshaler.Marshal (.standard result) with
          | .ok buf => (buf, none, [.standard result])
          | .error e => ("", some e, [.standard result]) := by
      unfold gateway.marshalContent
      simp only [hcode, if_false, hd]
      cases marshaler.Marshal (.standard result) <;> simp
    refine ⟨?_, ?_, ?_⟩
    · rw [hcalls, hc]
      cases marshaler.Marshal (.standard result) <;> rfl
    · intro buf hm
      rw [hm] at hc
      have h := hok (by rw [hc])
      rw [hc] at h
      exact ⟨h.2, h.1⟩
    · intro e hm
      rw [hm] at hc
      have h := hfail e (by rw [hc])
      exact ⟨h.2, h.1⟩

/-- C18, at a concrete input: a NotFound status without details, with the error id
`id1`. -/
theorem C18_myHTTPError_standard_witness :
    (gateway.myHTTPError gateway.exampleErrors gateway.exampleRules "id1" none
        gateway.exampleMarshaler [] (.ofStatus ⟨5, "not found", []⟩)).marshalled
      = [.standard ⟨"not found", "not found", gateway.toInt32 5, "id1"⟩]
    ∧ (gateway.myHTTPError gateway.exampleErrors gateway.exampleRules "id1" none
        gateway.exampleMarshaler [] (.ofStatus ⟨5, "not found", []⟩)).status
      = gateway.myCodeToHTTPStatus gateway.exampleErrors 5 :=
  have h := (C18_myHTTPError_standard gateway.exampleErrors gateway.exampleRules "id1" none
    gateway.exampleMarshaler [] (.ofStatus ⟨5, "not found", []⟩) (by decide)).1
    (by intro result h; cases h)
  ⟨h.1, (h.2.2.1 _ rfl).2⟩

/-! ### Retry of the closure of `PutSubscription`, and `SetCells` -/

/-- C19 (the code at the failing input): the closure of `PutSubscription` is not
idempotent under retry. For a creation request without start and end time, a first
attempt at clock reading 10 followed by a second attempt at clock reading 20 gives
`UpsertSubscription` the time range that the first attempt wrote into the request model
(start 10), while a single attempt at clock reading 20 gives it the start 20. With one
clock reading, for an update request without times, a first attempt against a store whose
subscription runs from 0 to 100 and a second attempt against a store whose subscription
(same version) runs from 50 to 150 upserts the times 0 and 100, while a single attempt
against the second store upserts 50 and 150. -/
theorem C19_retry_keeps_adjusted_times :
    scd.upserted (scd.PutSubscription.retry (scd.fillEnv 10) (scd.fillEnv 20) scd.memRepo
        "sub-1" "uss1" scd.openExtents (scd.openSubreq "") [] []).1.calls
      = [{ scd.openSubreq "" with StartTime := some 10, EndTime := some 86400000010 }]
    ∧ scd.upserted (scd.PutSubscription.action (scd.fillEnv 20) scd.memRepo
        "sub-1" "uss1" scd.openExtents (scd.openSubreq "") []).1.calls
      = [{ scd.openSubreq "" with StartTime := some 20, EndTime := some 86400000020 }]
    ∧ scd.upserted (scd.PutSubscription.retry (scd.fillEnv 10) (scd.fillEnv 20) scd.memRepo
        "sub-1" "uss1" scd.openExtents (scd.openSubreq "") [] []).1.calls
      ≠ scd.upserted (scd.PutSubscription.action (scd.fillEnv 20) scd.memRepo
        "sub-1" "uss1" scd.openExtents (scd.openSubreq "") []).1.calls
    ∧ scd.upserted (scd.PutSubscription.retry (scd.fillEnv 10) (scd.fillEnv 10) scd.memRepo
        "sub-1" "uss1" scd.openExtents (scd.openSubreq "v1") [scd.memSub]
        [{ scd.memSub with StartTime := some 50, EndTime := some 150 }]).1.calls
      = [{ scd.openSubreq "v1" with
            StartTime := some 0, EndTime := some 100, NotificationIndex := 3 }]
    ∧ scd.upserted (scd.PutSubscription.action (scd.fillEnv 10) scd.memRepo
        "sub-1" "uss1" scd.openExtents (scd.openSubreq "v1")
        [{ scd.memSub with StartTime := some 50, EndTime := some 150 }]).1.calls
      = [{ scd.openSubreq "v1" with
            StartTime := some 50, EndTime := some 150, NotificationIndex := 3 }] := by
  refine ⟨by decide, by decide, by decide, by decide, by decide⟩

/-- The request model of the failing input of C19 is the one `prepare` builds for a
request without start and end time. -/
theorem scd.openSubreq_prepared (version : String) :
    scd.PutSubscription.prepare ⟨true⟩ (scd.fillEnv 10) (scd.memCtx "uss1") "sub-1" version
        { Extents := scd.openExtents, UssBaseUrl := "https://uss.example",
          NotifyForOperationalIntents := true, NotifyForConstraints := false }
      = .ok ("sub-1", "uss1", scd.openExtents, scd.openSubreq version) := rfl

/-- The loop of `SetCells` appends the converted ids, in order. -/
theorem scdmodels.SetCells_loop_eq (cids : List Int) (cells : geo.CellUnion) :
    scdmodels.OperationalIntent.SetCells.loop cids cells
      = cells ++ cids.map geo.toCellID := by
  induction cids generalizing cells with
  | nil => simp [scdmodels.OperationalIntent.SetCells.loop]
  | cons id rest ih => simp [scdmodels.OperationalIntent.SetCells.loop, ih]

/-- The loop of the write paths, when it succeeds, converts every cell with `int64`. -/
theorem ridstore.validateCells_eq (V : Nat → Option Error) (cells : geo.CellUnion)
    (cids : List Int) (h : ridstore.validateCells V cells = .ok cids) :
    cids = geo.cellsToInt64 cells := by
  induction cells generalizing cids with
  | nil =>
    simp only [ridstore.validateCells, Except.ok.injEq] at h
    simp [geo.cellsToInt64, ← h]
  | cons c rest ih =>
    unfold ridstore.validateCells at h
    cases hv : V c with
    | some e => simp [hv] at h
    | none =>
      simp only [hv] at h
      cases hr : ridstore.validateCells V rest with
      | error e => simp [hr] at h
      | ok cids1 =>
        simp only [hr, Except.ok.injEq] at h
        rw [← h, ih cids1 hr]
        simp [geo.cellsToInt64]

/-- C20: cell ids round-trip exactly through signed storage. For every cell union `C` of
unsigned 64-bit ids (ids from `2 ^ 63` on included), converting each cell with `int64` as
the write paths of the repositories do, and giving the list to `SetCells`, yields the
cells `C`: same length, same order, same ids. `SetCells` is total and keeps the order on
every list of `int64`: cell `i` of the result is the conversion of id `i`, and no other
field of the operational intent changes. -/
theorem C20_SetCells_roundtrip (o : scdmodels.OperationalIntent) (C : geo.CellUnion)
    (hC : ∀ c ∈ C, c < 2 ^ 64) :
    (o.SetCells (geo.cellsToInt64 C)).Cells = C
    ∧ (∀ (V : Nat → Option Error) (cids : List Int),
        ridstore.validateCells V C = .ok cids → (o.SetCells cids).Cells = C)
    ∧ (∀ cids : List Int,
        (o.SetCells cids).Cells.length = cids.length
        ∧ (∀ i : Nat, (o.SetCells cids).Cells[i]? = (cids[i]?).map geo.toCellID)
        ∧ o.SetCells cids = { o with Cells := cids.map geo.toCellID }) := by
  have hround : (geo.cellsToInt64 C).map geo.toCellID = C := by
    simp only [geo.cellsToInt64, List.map_map]
    conv_rhs => rw [← List.map_id C]
    apply List.map_congr_left
    intro c hc
    simp only [Function.comp, geo.toCellID_toInt64, id]
    exact Nat.mod_eq_of_lt (hC c hc)
  have hset : ∀ cids : List Int, (o.SetCells cids).Cells = cids.map geo.toCellID := by
    intro cids
    simp [scdmodels.OperationalIntent.SetCells, scdmodels.SetCells_loop_eq]
  refine ⟨?_, ?_, ?_⟩
  · rw [hset, hround]
  · intro V cids h
    rw [hset, ridstore.validateCells_eq V C cids h, hround]
  · intro cids
    refine ⟨by rw [hset]; simp, fun i => by rw [hset]; simp, ?_⟩
    simp [scdmodels.OperationalIntent.SetCells, scdmodels.SetCells_loop_eq]

/-- C20, at a concrete input: the cells `2 ^ 63 + 5`, `7` and `2 ^ 64 - 1`, of which the
first and the last are stored as negative numbers. -/
theorem C20_SetCells_roundtrip_witness :
    (scdmodels.exampleIntent.SetCells
        (geo.cellsToInt64 [2 ^ 63 + 5, 7, 2 ^ 64 - 1])).Cells = [2 ^ 63 + 5, 7, 2 ^ 64 - 1]
    ∧ geo.cellsToInt64 [2 ^ 63 + 5, 7, 2 ^ 64 - 1] = [-(2 ^ 63) + 5, 7, -1] :=
  ⟨(C20_SetCells_roundtrip scdmodels.exampleIntent [2 ^ 63 + 5, 7, 2 ^ 64 - 1]
      (by decide)).1, by decide⟩

/-- The checks against the previous subscription leave the time range of the request
model as it is. -/
theorem scd.checkOld_subreq {σ ε π γ : Type} (env : scd.Env ε π γ) (r : scd.Repository σ)
    (subreq : scdmodels.Subscription) (old : Option scdmodels.Subscription) (st : σ) :
    (scd.PutSubscription.checkOld env r subreq old st).2.2.StartTime = subreq.StartTime
    ∧ (scd.PutSubscription.checkOld env r subreq old st).2.2.EndTime = subreq.EndTime := by
  unfold scd.PutSubscription.checkOld
  repeat' split
  all_goals try dsimp only
  all_goals repeat' split
  all_goals exact ⟨rfl, rfl⟩

/-- After an attempt of the closure of `PutSubscription` in which `GetSubscription`
answered, the captured request model carries the time range that `AdjustTimeRange` left:
this is the request model a retry starts from. -/
theorem scd.action_leaves_adjusted_times {σ ε π γ : Type} (env : scd.Env ε π γ)
    (r : scd.Repository σ) (id : dssmodels.ID) (manager : dssmodels.Manager)
    (extents : dssmodels.Volume4D) (subreq : scdmodels.Subscription) (st : σ)
    (old : Option scdmodels.Subscription)
    (hget : r.GetSubscription st subreq.ID = .ok old) :
    (scd.PutSubscription.action env r id manager extents subreq st).2.StartTime
        = (env.AdjustTimeRange env.now subreq old).1.1
    ∧ (scd.PutSubscription.action env r id manager extents subreq st).2.EndTime
        = (env.AdjustTimeRange env.now subreq old).1.2 := by
  unfold scd.PutSubscription.action
  simp only [hget]
  cases hadj : (env.AdjustTimeRange env.now subreq old).2 with
  | some err => exact ⟨rfl, rfl⟩
  | none =>
    simp only
    obtain ⟨hs, he⟩ := scd.checkOld_subreq env r
      { subreq with StartTime := (env.AdjustTimeRange env.now subreq old).1.1,
                    EndTime := (env.AdjustTimeRange env.now subreq old).1.2 } old st
    rcases hc : scd.PutSubscription.checkOld env r
      { subreq with StartTime := (env.AdjustTimeRange env.now subreq old).1.1,
                    EndTime := (env.AdjustTimeRange env.now subreq old).1.2 } old st
      with ⟨res, calls, sr⟩
    rw [hc] at hs he
    simp only at hs he
    cases res with
    | error e => exact ⟨hs, he⟩
    | ok ids =>
      simp only
      rcases r.UpsertSubscription st sr with ⟨ures, st1⟩
      cases ures with
      | error e => exact ⟨hs, he⟩
      | ok osub =>
        cases osub with
        | none => exact ⟨hs, he⟩
        | some sub => exact ⟨hs, he⟩

/-! ### C21: `ValidateTimeRange` -/

/-- The sign of a saturated duration is the sign of the difference of the times. -/
theorem dssmodels.Sub_neg_iff (t u : Int) : dssmodels.Time.Sub t u < 0 ↔ t < u := by
  unfold dssmodels.Time.Sub dssmodels.maxDuration dssmodels.minDuration
  by_cases h1 : (t - u) * 1000 > 9223372036854775807
  · simp only [h1, if_true]
    constructor <;> intro h <;> omega
  · by_cases h2 : (t - u) * 1000 < -9223372036854775808
    · simp only [h1, h2, if_true, if_false]
      constructor <;> intro h <;> omega
    · simp only [h1, h2, if_false]
      constructor <;> intro h <;> omega

/-- C21: `ValidateTimeRange` returns nil exactly when `StartTime` and `EndTime` are both set
and `EndTime` is not before `StartTime` (equal times are accepted). Otherwise it returns a
`BadRequest` error: for a missing `StartTime` the one about `time_start` (whatever
`EndTime` is), else for a missing `EndTime` the one about `time_end`, else the one about
the inverted range. -/
theorem C21_ValidateTimeRange (o : scdmodels.OperationalIntent) :
    (o.ValidateTimeRange = none ↔
      ∃ s e, o.StartTime = some s ∧ o.EndTime = some e ∧ s ≤ e)
    ∧ (∀ err, o.ValidateTimeRange = some err → err.code = ErrorCode.BadRequest)
    ∧ (o.StartTime = none →
        o.ValidateTimeRange
          = some (NewErrorWithCode ErrorCode.BadRequest "Operation must have an time_start"))
    ∧ (∀ s, o.StartTime = some s → o.EndTime = none →
        o.ValidateTimeRange
          = some (NewErrorWithCode ErrorCode.BadRequest "Operation must have an time_end"))
    ∧ (∀ s e, o.StartTime = some s → o.EndTime = some e → e < s →
        o.ValidateTimeRange
          = some (NewErrorWithCode ErrorCode.BadRequest
              "Operation time_end must be after time_start"))
    ∧ (∀ s, o.StartTime = some s → o.EndTime = some s → o.ValidateTimeRange = none) := by
  unfold scdmodels.OperationalIntent.ValidateTimeRange
  cases hs : o.StartTime with
  | none => simp [NewErrorWithCode]
  | some s =>
    cases he : o.EndTime with
    | none => simp [NewErrorWithCode]
    | some e =>
      have hsub := dssmodels.Sub_neg_iff e s
      by_cases hlt : e < s
      · have h1 : dssmodels.Time.Sub e s < 0 := hsub.mpr hlt
        have hle : ¬ s ≤ e := not_le.mpr hlt
        have hne : ¬ e = s := ne_of_lt hlt
        simp [h1, NewErrorWithCode, hle, hne]
      · have h1 : ¬ dssmodels.Time.Sub e s < 0 := fun h => hlt (hsub.mp h)
        have hle : s ≤ e := not_lt.mp hlt
        simp [h1, hle, hlt]

/-! ### C23: the searches of the RID subscription store -/

/-- The rows a `SELECT ... WHERE cond LIMIT n` returns satisfy the condition, are rows of
the table, and are at most `n`. -/
theorem sql.select_spec {ρ : Type} (tbl : List ρ) (cond : ρ → sql.Truth) (limit : Nat) :
    (sql.select tbl cond limit).length ≤ limit
    ∧ ∀ r ∈ sql.select tbl cond limit, r ∈ tbl ∧ sql.holds (cond r) = true := by
  unfold sql.select
  refine ⟨by simp [List.length_take], ?_⟩
  intro r hr
  have := List.mem_of_mem_take hr
  simpa [List.mem_filter] using this

/-- The condition of `SearchSubscriptionsByOwner` holds on a row exactly when the row
shares a cell with the argument, has the owner, and has not ended. -/
theorem ridstore.holds_inCellsOwnedAndActive (cells : geo.CellUnion) (owner : dssmodels.Owner)
    (now : dssmodels.Time) (row : ridstore.Row) :
    sql.holds (ridstore.inCellsOwnedAndActive (geo.cellsToInt64 cells) owner now row) = true ↔
      (∃ c ∈ cells, geo.toInt64 c ∈ row.cells) ∧ row.owner = owner
        ∧ (∃ e, row.ends_at = some e ∧ now ≤ e) := by
  have h := ridstore.holds_inCellsAndActive cells now row
  unfold ridstore.inCellsAndActive at h
  unfold ridstore.inCellsOwnedAndActive
  by_cases ho : row.owner = owner
  · have : sql.and (sql.overlaps row.cells (geo.cellsToInt64 cells))
        (sql.eq (some row.owner) (some owner)) = sql.overlaps row.cells (geo.cellsToInt64 cells) := by
      simp only [sql.eq, ho, sql.overlaps, decide_True, decide_False]
      generalize (row.cells.any fun x => (geo.cellsToInt64 cells).contains x) = b
      cases b <;> rfl
    rw [this, h]
    simp [ho]
  · have : sql.and (sql.overlaps row.cells (geo.cellsToInt64 cells))
        (sql.eq (some row.owner) (some owner)) = some false := by
      simp only [sql.eq, ho, sql.overlaps, decide_True, decide_False]
      generalize (row.cells.any fun x => (geo.cellsToInt64 cells).contains x) = b
      cases b <;> rfl
    rw [this]
    simp [ho, sql.and, sql.holds]

/-- C23: in the version 4 and the version 3 repository, `SearchSubscriptions` and
`SearchSubscriptionsByOwner` called with an empty cell union return the `BadRequest` error
"no location provided" and issue no query. Called with a non-empty cell union they issue
one query and return at most `MaxResultLimit` subscriptions, one for each of a list of
rows of the table with the id, URL, index, owner, cells, times and version of the row (and
the writer of the row in version 4, the empty writer in version 3); every subscription
returned has a cell of the argument among its cells (cell ids are taken as 64-bit values),
has an `EndTime` that is set and not before `clock.Now()`, and, for the by-owner variant,
has the owner of the argument. -/
theorem C23_SearchSubscriptions (MaxResultLimit : Nat) (now : dssmodels.Time)
    (cells : geo.CellUnion) (owner : dssmodels.Owner) (tbl : ridstore.Table) :
    (cells = [] →
      ridstore.subscriptionRepo.SearchSubscriptions MaxResultLimit now cells tbl
          = (.error (NewErrorWithCode ErrorCode.BadRequest "no location provided"), 0)
      ∧ ridstore.subscriptionRepo.SearchSubscriptionsByOwner MaxResultLimit now cells owner tbl
          = (.error (NewErrorWithCode ErrorCode.BadRequest "no location provided"), 0)
      ∧ ridstore.subscriptionRepoV3.SearchSubscriptions MaxResultLimit now cells tbl
          = (.error (NewErrorWithCode ErrorCode.BadRequest "no location provided"), 0)
      ∧ ridstore.subscriptionRepoV3.SearchSubscriptionsByOwner MaxResultLimit now cells owner
            tbl
          = (.error (NewErrorWithCode ErrorCode.BadRequest "no location provided"), 0))
    ∧ (cells ≠ [] →
      (∃ rows : List ridstore.Row,
        ridstore.subscriptionRepo.SearchSubscriptions MaxResultLimit now cells tbl
            = (.ok (rows.map (fun row =>
                ({ ID := row.id, URL := row.url, NotificationIndex := row.notification_index,
                   Owner := row.owner, Cells := row.cells.map geo.toCellID,
                   StartTime := row.starts_at, EndTime := row.ends_at,
                   Writer := row.writer.getD "",
                   Version := dssmodels.VersionFromTime row.updated_at } :
                  ridmodels.Subscription))), 1)
        ∧ ridstore.subscriptionRepoV3.SearchSubscriptions MaxResultLimit now cells tbl
            = (.ok (rows.map (fun row =>
                ({ ID := row.id, URL := row.url, NotificationIndex := row.notification_index,
                   Owner := row.owner, Cells := row.cells.map geo.toCellID,
                   StartTime := row.starts_at, EndTime := row.ends_at, Writer := "",
                   Version := dssmodels.VersionFromTime row.updated_at } :
                  ridmodels.Subscription))), 1)
        ∧ rows.length ≤ MaxResultLimit
        ∧ ∀ row ∈ rows, row ∈ tbl ∧ (∃ c ∈ cells, geo.toInt64 c ∈ row.cells)
            ∧ ∃ e, row.ends_at = some e ∧ now ≤ e)
      ∧ (∃ rows : List ridstore.Row,
        ridstore.subscriptionRepo.SearchSubscriptionsByOwner MaxResultLimit now cells owner tbl
            = (.ok (rows.map (fun row =>
                ({ ID := row.id, URL := row.url, NotificationIndex := row.notification_index,
                   Owner := row.owner, Cells := row.cells.map geo.toCellID,
                   StartTime := row.starts_at, EndTime := row.ends_at,
                   Writer := row.writer.getD "",
                   Version := dssmodels.VersionFromTime row.updated_at } :
                  ridmodels.Subscription))), 1)
        ∧ ridstore.subscriptionRepoV3.SearchSubscriptionsByOwner MaxResultLimit now cells owner
              tbl
            = (.ok (rows.map (fun row =>
                ({ ID := row.id, URL := row.url, NotificationIndex := row.notification_index,
                   Owner := row.owner, Cells := row.cells.map geo.toCellID,
                   StartTime := row.starts_at, EndTime := row.ends_at, Writer := "",
                   Version := dssmodels.VersionFromTime row.updated_at } :
                  ridmodels.Subscription))), 1)
        ∧ rows.length ≤ MaxResultLimit
        ∧ ∀ row ∈ rows, row ∈ tbl ∧ (∃ c ∈ cells, geo.toInt64 c ∈ row.cells)
            ∧ row.owner = owner ∧ ∃ e, row.ends_at = some e ∧ now ≤ e)
      ∧ (∀ subs,
          ((ridstore.subscriptionRepo.SearchSubscriptions MaxResultLimit now cells tbl).1
              = .ok subs
            ∨ (ridstore.subscriptionRepoV3.SearchSubscriptions MaxResultLimit now cells tbl).1
              = .ok subs) →
          subs.length ≤ MaxResultLimit
          ∧ ∀ sub ∈ subs, (∃ c ∈ cells, c % 2 ^ 64 ∈ sub.Cells)
              ∧ ∃ e, sub.EndTime = some e ∧ now ≤ e)
      ∧ (∀ subs,
          ((ridstore.subscriptionRepo.SearchSubscriptionsByOwner MaxResultLimit now cells owner
                tbl).1 = .ok subs
            ∨ (ridstore.subscriptionRepoV3.SearchSubscriptionsByOwner MaxResultLimit now cells
                owner tbl).1 = .ok subs) →
          subs.length ≤ MaxResultLimit
          ∧ ∀ sub ∈ subs, (∃ c ∈ cells, c % 2 ^ 64 ∈ sub.Cells) ∧ sub.Owner = owner
              ∧ ∃ e, sub.EndTime = some e ∧ now ≤ e)) := by
  constructor
  · intro h
    subst h
    exact ⟨rfl, rfl, rfl, rfl⟩
  · intro h
    have hlen : ¬ cells.length = 0 := by
      intro h0
      exact h (List.length_eq_zero.mp h0)
    have hcell : ∀ (row : ridstore.Row), (∃ c ∈ cells, geo.toInt64 c ∈ row.cells) →
        ∃ c ∈ cells, c % 2 ^ 64 ∈ row.cells.map geo.toCellID := by
      rintro row ⟨c, hc, hin⟩
      exact ⟨c, hc, by
        rw [← geo.toCellID_toInt64 c]
        exact List.mem_map_of_mem _ hin⟩
    have e4 : ridstore.subscriptionRepo.scan = (fun row =>
        ({ ID := row.id, URL := row.url, NotificationIndex := row.notification_index,
           Owner := row.owner, Cells := row.cells.map geo.toCellID,
           StartTime := row.starts_at, EndTime := row.ends_at,
           Writer := row.writer.getD "",
           Version := dssmodels.VersionFromTime row.updated_at } :
          ridmodels.Subscription)) := rfl
    have e3 : ridstore.subscriptionRepoV3.scan = (fun row =>
        ({ ID := row.id, URL := row.url, NotificationIndex := row.notification_index,
           Owner := row.owner, Cells := row.cells.map geo.toCellID,
           StartTime := row.starts_at, EndTime := row.ends_at, Writer := "",
           Version := dssmodels.VersionFromTime row.updated_at } :
          ridmodels.Subscription)) := rfl
    have s4 : ridstore.subscriptionRepo.SearchSubscriptions MaxResultLimit now cells tbl
        = (.ok ((sql.select tbl (ridstore.inCellsAndActive (geo.cellsToInt64 cells) now)
            MaxResultLimit).map ridstore.subscriptionRepo.scan), 1) := by
      simp [ridstore.subscriptionRepo.SearchSubscriptions, hlen, ridstore.process_eq_map]
    have s3 : ridstore.subscriptionRepoV3.SearchSubscriptions MaxResultLimit now cells tbl
        = (.ok ((sql.select tbl (ridstore.inCellsAndActive (geo.cellsToInt64 cells) now)
            MaxResultLimit).map ridstore.subscriptionRepoV3.scan), 1) := by
      simp [ridstore.subscriptionRepoV3.SearchSubscriptions, hlen, ridstore.processV3_eq_map]
    have o4 : ridstore.subscriptionRepo.SearchSubscriptionsByOwner MaxResultLimit now cells
        owner tbl
        = (.ok ((sql.select tbl
            (ridstore.inCellsOwnedAndActive (geo.cellsToInt64 cells) owner now)
            MaxResultLimit).map ridstore.subscriptionRepo.scan), 1) := by
      simp [ridstore.subscriptionRepo.SearchSubscriptionsByOwner, hlen,
        ridstore.process_eq_map]
    have o3 : ridstore.subscriptionRepoV3.SearchSubscriptionsByOwner MaxResultLimit now cells
        owner tbl
        = (.ok ((sql.select tbl
            (ridstore.inCellsOwnedAndActive (geo.cellsToInt64 cells) owner now)
            MaxResultLimit).map ridstore.subscriptionRepoV3.scan), 1) := by
      simp [ridstore.subscriptionRepoV3.SearchSubscriptionsByOwner, hlen,
        ridstore.processV3_eq_map]
    have hrowS : ∀ row ∈ sql.select tbl
        (ridstore.inCellsAndActive (geo.cellsToInt64 cells) now) MaxResultLimit,
        row ∈ tbl ∧ (∃ c ∈ cells, geo.toInt64 c ∈ row.cells)
          ∧ ∃ e, row.ends_at = some e ∧ now ≤ e := by
      intro row hrow
      have hsel := (sql.select_spec _ _ _).2 row hrow
      have hh := (ridstore.holds_inCellsAndActive cells now row).mp hsel.2
      exact ⟨hsel.1, hh.1, hh.2⟩
    have hrowO : ∀ row ∈ sql.select tbl
        (ridstore.inCellsOwnedAndActive (geo.cellsToInt64 cells) owner now) MaxResultLimit,
        row ∈ tbl ∧ (∃ c ∈ cells, geo.toInt64 c ∈ row.cells)
          ∧ row.owner = owner ∧ ∃ e, row.ends_at = some e ∧ now ≤ e := by
      intro row hrow
      have hsel := (sql.select_spec _ _ _).2 row hrow
      have hh := (ridstore.holds_inCellsOwnedAndActive cells owner now row).mp hsel.2
      exact ⟨hsel.1, hh.1, hh.2.1, hh.2.2⟩
    refine ⟨⟨_, by rw [s4, e4], by rw [s3, e3], (sql.select_spec _ _ _).1, hrowS⟩,
      ⟨_, by rw [o4, e4], by rw [o3, e3], (sql.select_spec _ _ _).1, hrowO⟩, ?_, ?_⟩
    · intro subs hsubs
      rw [s4, s3] at hsubs
      simp only [Except.ok.injEq] at hsubs
      rcases hsubs with hs | hs
      · subst hs
        refine ⟨by simpa using (sql.select_spec _ _ _).1, ?_⟩
        intro sub hsub
        obtain ⟨row, hrow, rfl⟩ := List.mem_map.mp hsub
        obtain ⟨_, hc, he⟩ := hrowS row hrow
        exact ⟨hcell row hc, he⟩
      · subst hs
        refine ⟨by simpa using (sql.select_spec _ _ _).1, ?_⟩
        intro sub hsub
        obtain ⟨row, hrow, rfl⟩ := List.mem_map.mp hsub
        obtain ⟨_, hc, he⟩ := hrowS row hrow
        exact ⟨hcell row hc, he⟩
    · intro subs hsubs
      rw [o4, o3] at hsubs
      simp only [Except.ok.injEq] at hsubs
      rcases hsubs with hs | hs
      · subst hs
        refine ⟨by simpa using (sql.select_spec _ _ _).1, ?_⟩
        intro sub hsub
        obtain ⟨row, hrow, rfl⟩ := List.mem_map.mp hsub
        obtain ⟨_, hc, ho, he⟩ := hrowO row hrow
        exact ⟨hcell row hc, ho, he⟩
      · subst hs
        refine ⟨by simpa using (sql.select_spec _ _ _).1, ?_⟩
        intro sub hsub
        obtain ⟨row, hrow, rfl⟩ := List.mem_map.mp hsub
        obtain ⟨_, hc, ho, he⟩ := hrowO row hrow
        exact ⟨hcell row hc, ho, he⟩

/-- The searches on the example table: the row that has ended and the row of the other
owner are left out, the limit cuts the result, and an empty cell union is refused. -/
theorem ridstore.SearchSubscriptions_example :
    ridstore.idsOf (ridstore.subscriptionRepo.SearchSubscriptions 10 50 [10, 12]
        ridstore.exampleTable).1 = some ["a"]
    ∧ ridstore.idsOf (ridstore.subscriptionRepo.SearchSubscriptions 10 0 [10, 12]
        ridstore.exampleTable).1 = some ["a", "b"]
    ∧ ridstore.idsOf (ridstore.subscriptionRepo.SearchSubscriptions 1 0 [10, 12]
        ridstore.exampleTable).1 = some ["a"]
    ∧ ridstore.idsOf (ridstore.subscriptionRepoV3.SearchSubscriptionsByOwner 10 0 [10, 12]
        "uss2" ridstore.exampleTable).1 = some ["b"]
    ∧ ridstore.idsOf (ridstore.subscriptionRepo.SearchSubscriptionsByOwner 10 0 [] "uss2"
        ridstore.exampleTable).1 = none := by
  decide

/-! ### C24: `ListExpiredSubscriptions` with the empty writer -/

/-- With the empty writer, `ListExpiredSubscriptions` selects exactly the expired rows whose
writer is the empty string: on a row whose writer is `NULL` both comparisons of
`writer = '' OR writer = NULL` are `NULL`, so the row is not selected. -/
theorem ridstore.ListExpiredSubscriptions_empty_writer (expiredDurationInMin : Int)
    (current : dssmodels.Time) (tbl : ridstore.Table) :
    ridstore.subscriptionRepo.ListExpiredSubscriptions expiredDurationInMin current "" tbl
      = .ok ((tbl.filter (fun row =>
          decide (row.writer = some "")
            && (match row.ends_at with
                | some e => decide (e + expiredDurationInMin * 60000000 ≤ current)
                | none => false))).map ridstore.subscriptionRepo.scan) := by
  unfold ridstore.subscriptionRepo.ListExpiredSubscriptions
  rw [ridstore.process_eq_map]
  congr 2
  apply List.filter_congr
  intro row _
  unfold ridstore.writerCondition ridstore.expired
  cases hw : row.writer with
  | none =>
    cases he : row.ends_at with
    | none => simp [sql.le, sql.eq, sql.or, sql.and, sql.holds]
    | some e =>
      by_cases hle : e + expiredDurationInMin * 60000000 ≤ current <;>
        simp [sql.le, sql.eq, sql.or, sql.and, sql.holds, hle]
  | some w =>
    by_cases hwe : w = ""
    · cases he : row.ends_at with
      | none => simp [sql.le, sql.eq, sql.or, sql.and, sql.holds, hwe]
      | some e =>
        by_cases hle : e + expiredDurationInMin * 60000000 ≤ current <;>
          simp [sql.le, sql.eq, sql.or, sql.and, sql.holds, hle, hwe]
    · cases he : row.ends_at with
      | none => simp [sql.le, sql.eq, sql.or, sql.and, sql.holds, hwe]
      | some e =>
        by_cases hle : e + expiredDurationInMin * 60000000 ≤ current <;>
          simp [sql.le, sql.eq, sql.or, sql.and, sql.holds, hle, hwe]

/-- C24, the code at the failing input: on a table with three rows that expired (one
written by `w`, one with the empty writer, one whose writer is `NULL`) and one row that
has not ended, `ListExpiredSubscriptions` of the version 4 repository called with the empty
writer returns the row with the empty writer only; the expired row whose writer is `NULL`
is not returned, although the comment of the function says that the empty writer queries
the null writer too. -/
theorem C24_ListExpiredSubscriptions_null_writer :
    ridstore.idsOf (ridstore.subscriptionRepo.ListExpiredSubscriptions 30 2000000000 ""
        ridstore.expiredTable) = some ["empty"]
    ∧ (∃ row ∈ ridstore.expiredTable, row.id = "null" ∧ row.writer = none
        ∧ sql.holds (ridstore.expired 30 2000000000 row) = true) := by
  decide

/-! ### C29: methods without a registered validator -/

/-- C29: for a method name with no entry in `scopesValidators`,
`validateKeyClaimedScopes` returns the empty expectation and the nil error for every scope
set; so for such a method a token that a resolved key verifies and whose audience is
accepted reaches the handler whatever its scopes are (also with no scopes at all), and the
interceptor returns what the handler returns. -/
theorem C29_unregistered_method_no_scope_check {κ α β : Type} (a : auth.Authorizer κ)
    (parse : String → κ → Except Error auth.claims) (ctx : auth.Context) (req : α)
    (FullMethod : String) (handler : auth.Context → α → Option β × Option Error)
    (tkn : String) (c : auth.claims)
    (hreg : a.scopesValidators.lookup FullMethod = none)
    (htok : auth.getToken ctx = (tkn, true))
    (hsig : auth.firstVerified parse tkn a.keys = some c)
    (haud : a.audienceAccepted c.Audience = true) :
    (∀ scopes : auth.ScopeSet, a.validateKeyClaimedScopes FullMethod scopes = ("", none))
    ∧ a.AuthInterceptor parse ctx req FullMethod handler
        = ⟨(handler (auth.ContextWithOwner ctx c.Subject) req).1,
           (handler (auth.ContextWithOwner ctx c.Subject) req).2,
           some (auth.ContextWithOwner ctx c.Subject)⟩ := by
  have hv : ∀ scopes : auth.ScopeSet,
      a.validateKeyClaimedScopes FullMethod scopes = ("", none) := by
    intro scopes
    simp [auth.Authorizer.validateKeyClaimedScopes, hreg]
  refine ⟨hv, ?_⟩
  rw [auth.AuthInterceptor_verified a parse ctx req FullMethod handler tkn c htok hsig]
  simp [haud, hv]

/-- C29, at a concrete input: the example authorizer has a validator for `/Get` only; a
verified token with the accepted audience `dss` and no scopes, sent to `/Put`, reaches the
handler. -/
theorem C29_unregistered_method_no_scope_check_witness :
    (auth.exampleAuthorizer ["dss"]).scopesValidators.lookup "/Put" = none
    ∧ (auth.exampleAuthorizer ["dss"]).AuthInterceptor auth.noScopeParse
        (auth.exampleCtx "Bearer abc") () "/Put" auth.exampleHandler
        = ⟨(auth.exampleHandler (auth.ContextWithOwner (auth.exampleCtx "Bearer abc") "uss1")
              ()).1,
           (auth.exampleHandler (auth.ContextWithOwner (auth.exampleCtx "Bearer abc") "uss1")
              ()).2,
           some (auth.ContextWithOwner (auth.exampleCtx "Bearer abc") "uss1")⟩ :=
  ⟨by decide,
   (C29_unregistered_method_no_scope_check (auth.exampleAuthorizer ["dss"]) auth.noScopeParse
      (auth.exampleCtx "Bearer abc") () "/Put" auth.exampleHandler
      (auth.strings.TrimPrefix "Bearer abc" "Bearer ") ⟨"dss", "uss1", []⟩
      (by decide) rfl rfl (by decide)).2⟩

/-! ### C30: `FromFileKeyResolver.ResolveKeys` after a failure -/

/-- C30, the code at the failing input: the resolver is configured with the files `a.pem`
(a key) and `c.pem` (unreadable) and has no cached keys. The first call of `ResolveKeys`
returns an error and leaves the key of `a.pem` in the cache; the second call returns that
one key without error, for two configured files, and does so also when `c.pem` has become
readable in between. -/
theorem C30_ResolveKeys_partial_cache :
    auth.resolved (auth.FromFileKeyResolver.ResolveKeys auth.exampleFiles
        ⟨["a.pem", "c.pem"], none⟩) = none
    ∧ (auth.FromFileKeyResolver.ResolveKeys auth.exampleFiles
        ⟨["a.pem", "c.pem"], none⟩).2.keys = some [1]
    ∧ auth.resolved (auth.FromFileKeyResolver.ResolveKeys auth.exampleFiles
        (auth.FromFileKeyResolver.ResolveKeys auth.exampleFiles
          ⟨["a.pem", "c.pem"], none⟩).2) = some [1]
    ∧ auth.resolved (auth.FromFileKeyResolver.ResolveKeys
        (fun f => if f = "c.pem" then auth.KeyFile.key 3 else auth.exampleFiles f)
        (auth.FromFileKeyResolver.ResolveKeys auth.exampleFiles
          ⟨["a.pem", "c.pem"], none⟩).2) = some [1]
    ∧ auth.resolved (auth.FromFileKeyResolver.ResolveKeys
        (fun f => if f = "c.pem" then auth.KeyFile.key 3 else auth.exampleFiles f)
        ⟨["a.pem", "c.pem"], none⟩) = some [1, 3] := by
  decide

/-! ### C25: the retry loop of `main` -/

/-- The loop of `main` on results that are all retryable failures, from a loop variable
within the list: every result is used, the wait before retry `i` is the entry
`min (backoff + i) 5` of `backoffs`, and the loop is still running. -/
theorem gateway.loop_retryable (causes : List gateway.RootCause) :
    ∀ (backoff : Nat) (run : gateway.MainRun), backoff ≤ 5 →
      gateway.main.loop (causes.map (fun c => some ⟨gateway.codeRetryable, c⟩)) backoff run
        = ⟨run.attempts + causes.length,
           run.indices ++ (List.range causes.length).map (fun i => min (backoff + i) 5),
           run.sleeps ++ (List.range causes.length).map
              (fun i => gateway.backoffs.getD (min (backoff + i) 5) 0),
           gateway.Ending.retrying⟩ := by
  induction causes with
  | nil => intro backoff run _; simp [gateway.main.loop]
  | cons c cs ih =>
    intro backoff run hb
    have hlen : gateway.backoffs.length = 6 := rfl
    have hget : gateway.backoffs[backoff]? = some (gateway.backoffs.getD backoff 0) := by
      rw [List.getD_eq_getElem?_getD]
      have hlt : backoff < gateway.backoffs.length := by omega
      simp [List.getElem?_eq_getElem hlt]
    simp only [List.map_cons, gateway.main.loop, if_true, hget, hlen]
    by_cases h5 : backoff < 6 - 1
    · rw [if_pos h5, ih (backoff + 1) _ (by omega)]
      simp only [List.length_cons, List.range_succ_eq_map, List.map_cons, List.map_map,
        List.append_assoc, List.singleton_append, gateway.MainRun.mk.injEq]
      refine ⟨by omega, ?_, ?_, trivial⟩
      · congr 1
        have h0 : min (backoff + 0) 5 = backoff := by omega
        rw [h0]
        congr 1
        apply List.map_congr_left
        intro i _
        simp only [Function.comp]
        congr 1
        omega
      · congr 1
        have h0 : min (backoff + 0) 5 = backoff := by omega
        rw [h0]
        congr 1
        apply List.map_congr_left
        intro i _
        simp only [Function.comp]
        congr 2
        omega
    · rw [if_neg h5, ih backoff _ hb]
      have hb5 : backoff = 5 := by omega
      subst hb5
      simp only [List.length_cons, List.range_succ_eq_map, List.map_cons, List.map_map,
        List.append_assoc, List.singleton_append, gateway.MainRun.mk.injEq]
      refine ⟨by omega, ?_, ?_, trivial⟩
      · congr 1
        congr 1
        apply List.map_congr_left
        intro i _
        simp only [Function.comp]
        omega
      · congr 1
        congr 1
        apply List.map_congr_left
        intro i _
        simp only [Function.comp]
        congr 1
        omega

/-- Whatever `RunHTTPProxy` returns, the loop of `main` started with a loop variable within
the list keeps it within the list: every index used is below 6 and no index is out of
range. -/
theorem gateway.loop_index_in_range (results : List (Option gateway.ProxyError)) :
    ∀ (backoff : Nat) (run : gateway.MainRun), backoff < 6 → (∀ i ∈ run.indices, i < 6) →
      (∀ i ∈ (gateway.main.loop results backoff run).indices, i < 6)
      ∧ (gateway.main.loop results backoff run).ending ≠ gateway.Ending.indexOutOfRange := by
  induction results with
  | nil => intro backoff run _ hrun; exact ⟨hrun, by simp [gateway.main.loop]⟩
  | cons r rs ih =>
    intro backoff run hb hrun
    have hlen : gateway.backoffs.length = 6 := rfl
    have hlt : backoff < gateway.backoffs.length := by omega
    cases r with
    | none => exact ⟨hrun, by simp [gateway.main.loop]⟩
    | some err =>
      by_cases hc : err.code = gateway.codeRetryable
      · simp only [gateway.main.loop, hc, if_true, List.getElem?_eq_getElem hlt]
        apply ih
        · split <;> omega
        · intro i hi
          simp only [List.mem_append, List.mem_singleton] at hi
          rcases hi with hi | hi
          · exact hrun i hi
          · omega
      · simp only [gateway.main.loop, hc, if_false]
        cases err.rootCause <;> exact ⟨hrun, by simp⟩

/-- C25, the claim as written fails: when `RunHTTPProxy` fails seven times with the
retryable code, `main` has waited 5s, 15s, 60s, 60s, 60s, 300s and once more 300s, and
goes on to an eighth attempt; when that attempt returns without error `main` has made
eight attempts. -/
theorem C25_retries_bounded_counterexample :
    (gateway.main (List.replicate 7 gateway.retryableError)).sleeps
        = [5000000000, 15000000000, 60000000000, 60000000000, 60000000000, 300000000000,
            300000000000]
    ∧ (gateway.main (List.replicate 7 gateway.retryableError)).ending
        = gateway.Ending.retrying
    ∧ (gateway.main (List.replicate 7 gateway.retryableError ++ [none])).attempts = 8
    ∧ (gateway.main (List.replicate 7 gateway.retryableError ++ [none])).ending
        = gateway.Ending.returned := by
  decide

/-- C25, amended: bootstrap retries are not bounded. While `RunHTTPProxy` fails with the
retryable code (whatever the root causes), `main` retries after every failure: after `n`
such failures it has made `n` attempts, is on its way to the next one, and has waited
entry `min i 5` of the list 5s, 15s, 60s, 60s, 60s, 300s before retry `i` (counted from
0), that is 300s before every retry from the sixth on. Whatever `RunHTTPProxy` returns,
the backoff index used to pick a wait stays below the length 6 of the list. -/
theorem C25_retries_unbounded_index_in_range (causes : List gateway.RootCause)
    (results : List (Option gateway.ProxyError)) :
    (gateway.main (causes.map (fun c => some ⟨gateway.codeRetryable, c⟩))).attempts
        = causes.length
    ∧ (gateway.main (causes.map (fun c => some ⟨gateway.codeRetryable, c⟩))).ending
        = gateway.Ending.retrying
    ∧ (gateway.main (causes.map (fun c => some ⟨gateway.codeRetryable, c⟩))).sleeps
        = (List.range causes.length).map (fun i => gateway.backoffs.getD (min i 5) 0)
    ∧ gateway.backoffs
        = [5000000000, 15000000000, 60000000000, 60000000000, 60000000000, 300000000000]
    ∧ (∀ i ∈ (gateway.main results).indices, i < gateway.backoffs.length)
    ∧ (gateway.main results).ending ≠ gateway.Ending.indexOutOfRange := by
  have h := gateway.loop_retryable causes 0 ⟨0, [], [], gateway.Ending.retrying⟩ (by omega)
  have hi := gateway.loop_index_in_range results 0 ⟨0, [], [], gateway.Ending.retrying⟩
    (by omega) (by simp)
  refine ⟨?_, ?_, ?_, by decide, hi.1, hi.2⟩
  · simp [gateway.main, h]
  · simp [gateway.main, h]
  · simp [gateway.main, h]

/-! ### C22 and C27: what `PutSubscription` passes to `UpsertSubscription` -/

/-- The request model that `prepare` builds carries the two notification flags of the
request, of which one at least is set, and the notification index 0. -/
theorem scd.prepare_flags {ε π γ : Type} (a : scd.Server) (env : scd.Env ε π γ)
    (ctx : auth.Context) (sid version : String) (params : scdpb.PutSubscriptionParameters ε)
    (id : dssmodels.ID) (manager : dssmodels.Manager) (extents : dssmodels.Volume4D)
    (subreq : scdmodels.Subscription)
    (h : scd.PutSubscription.prepare a env ctx sid version params
      = .ok (id, manager, extents, subreq)) :
    subreq.NotifyForOperationalIntents = params.NotifyForOperationalIntents
    ∧ subreq.NotifyForConstraints = params.NotifyForConstraints
    ∧ subreq.NotificationIndex = 0
    ∧ (params.NotifyForOperationalIntents = true ∨ params.NotifyForConstraints = true) := by
  unfold scd.PutSubscription.prepare at h
  split at h
  · simp at h
  · split at h
    · simp at h
    · split at h
      · simp at h
      · split at h
        · simp at h
        · split at h
          · simp at h
          · split at h
            · simp at h
            · simp only at h
              split at h
              · simp at h
              · rename_i hflags
                simp only [scd.Outcome.ok.injEq, Prod.mk.injEq] at h
                obtain ⟨_, _, _, h4⟩ := h
                subst h4
                refine ⟨rfl, rfl, rfl, ?_⟩
                cases h1 : params.NotifyForOperationalIntents <;>
                  cases h2 : params.NotifyForConstraints <;> simp [h1, h2] at hflags ⊢

/-- A request that sets neither notification flag does not pass `prepare`. When the id
parses and the context carries no manager it fails with `PermissionDenied`; when the
context carries a manager it fails with `BadRequest`, or panics on extents that parse
without a spatial volume. -/
theorem scd.prepare_no_triggers {ε π γ : Type} (a : scd.Server) (env : scd.Env ε π γ)
    (ctx : auth.Context) (sid version : String) (params : scdpb.PutSubscriptionParameters ε)
    (h1 : params.NotifyForOperationalIntents = false)
    (h2 : params.NotifyForConstraints = false) :
    (∀ res, scd.PutSubscription.prepare a env ctx sid version params ≠ .ok res)
    ∧ (∀ manager, auth.ManagerFromContext ctx = (manager, true) →
        (∃ e, scd.PutSubscription.prepare a env ctx sid version params = .error e
            ∧ e.code = ErrorCode.BadRequest)
        ∨ (scd.PutSubscription.prepare a env ctx sid version params = .panic
            ∧ ∃ extents, env.Volume4DFromSCDProto params.Extents = .ok extents
                ∧ extents.SpatialVolume = none))
    ∧ (∀ id manager, env.IDFromString sid = .ok id →
        auth.ManagerFromContext ctx = (manager, false) →
        scd.PutSubscription.prepare a env ctx sid version params
          = .error (NewErrorWithCode ErrorCode.PermissionDenied "Missing owner from context"))
    := by
  refine ⟨?_, ?_, ?_⟩
  · intro res hres
    obtain ⟨id, manager, extents, subreq⟩ := res
    have := (scd.prepare_flags a env ctx sid version params id manager extents subreq hres).2.2.2
    simp [h1, h2] at this
  · intro manager hm
    unfold scd.PutSubscription.prepare
    split
    · exact Or.inl ⟨_, rfl, rfl⟩
    · split
      · rename_i hm2
        rw [hm] at hm2
        simp at hm2
      · split
        · exact Or.inl ⟨_, rfl, rfl⟩
        · split
          · exact Or.inl ⟨_, rfl, rfl⟩
          · rename_i extents hext
            split
            · exact Or.inl ⟨_, rfl, rfl⟩
            · split
              · rename_i hvol
                exact Or.inr ⟨rfl, extents, hext, hvol⟩
              · simp only [h1, h2]
                exact Or.inl ⟨_, rfl, rfl⟩
  · intro id manager hid hm
    unfold scd.PutSubscription.prepare
    simp only [hid, hm]

/-- The upserts of a concatenation of calls. -/
theorem scd.upserted_append (xs ys : List scd.RepoCall) :
    scd.upserted (xs ++ ys) = scd.upserted xs ++ scd.upserted ys := by
  induction xs with
  | nil => rfl
  | cons c cs ih => cases c <;> simp [scd.upserted, ih]

/-- Function `GetOperations` makes no upsert. -/
theorem scd.upserted_GetOperations {σ : Type} (r : scd.Repository σ) (st : σ)
    (ids : List dssmodels.ID) : scd.upserted (scd.GetOperations r st ids).2 = [] := by
  induction ids with
  | nil => rfl
  | cons i is ih =>
    unfold scd.GetOperations
    split
    · rfl
    · rcases hg : scd.GetOperations r st is with ⟨res, calls⟩
      rw [hg] at ih
      cases res <;> simpa [scd.upserted] using ih

/-- The checks against the previous subscription make no upsert and leave the two
notification flags of the request model as they are; when they pass, the request model
carries the notification index of the previous subscription if there is one, and is
unchanged if there is none. -/
theorem scd.checkOld_upsert_model {σ ε π γ : Type} (env : scd.Env ε π γ)
    (r : scd.Repository σ) (subreq : scdmodels.Subscription)
    (old : Option scdmodels.Subscription) (st : σ) :
    scd.upserted (scd.PutSubscription.checkOld env r subreq old st).2.1 = []
    ∧ (scd.PutSubscription.checkOld env r subreq old st).2.2.NotifyForOperationalIntents
        = subreq.NotifyForOperationalIntents
    ∧ (scd.PutSubscription.checkOld env r subreq old st).2.2.NotifyForConstraints
        = subreq.NotifyForConstraints
    ∧ (∀ deps, (scd.PutSubscription.checkOld env r subreq old st).1 = .ok deps →
        (old = none →
          (scd.PutSubscription.checkOld env r subreq old st).2.2.NotificationIndex
            = subreq.NotificationIndex)
        ∧ (∀ o, old = some o →
          (scd.PutSubscription.checkOld env r subreq old st).2.2.NotificationIndex
            = o.NotificationIndex)) := by
  cases old with
  | none =>
    unfold scd.PutSubscription.checkOld
    by_cases hv : subreq.Version = ""
    · simp [hv, scd.upserted]
    · simp [hv, scd.upserted]
  | some o =>
    unfold scd.PutSubscription.checkOld
    by_cases hv : subreq.Version = ""
    · simp [hv, scd.upserted]
    · by_cases hv2 : subreq.Version = o.Version
      · by_cases hm : o.Manager = subreq.Manager
        · simp only [hv, hv2, hm, ne_eq, not_true_eq_false, if_false]
          have hv3 : ¬ o.Version = "" := by rw [← hv2]; exact hv
          simp only [hv3, if_false]
          cases hd : r.GetDependentOperationalIntents st subreq.ID with
          | error e => simp [scd.upserted]
          | ok deps =>
            have hops := scd.upserted_GetOperations r st deps
            rcases hg : scd.GetOperations r st deps with ⟨res, calls⟩
            rw [hg] at hops
            simp only at hops
            cases res with
            | error e => simp [hg, scd.upserted, hops]
            | ok ops =>
              simp only [hg]
              split <;> simp [scd.upserted, hops]
        · have hv3 : ¬ o.Version = "" := by rw [← hv2]; exact hv
          simp [hv, hv2, hv3, hm, scd.upserted]
      · simp [hv, hv2, scd.upserted]

/-- Building the response makes no upsert. -/
theorem scd.upserted_respond {σ ε π γ : Type} (env : scd.Env ε π γ) (r : scd.Repository σ)
    (manager : dssmodels.Manager) (extents : dssmodels.Volume4D)
    (sub : scdmodels.Subscription) (deps : List dssmodels.ID) (st : σ) :
    scd.upserted (scd.PutSubscription.respond env r manager extents sub deps st).2 = [] := by
  have tail : ∀ c1 : List scd.RepoCall, scd.upserted c1 = [] →
      ∀ (p : π) (opRefs : List scdpb.OperationalIntentReference),
      scd.upserted
        (if sub.NotifyForConstraints = true then
          match r.SearchConstraints st extents with
          | .error err =>
            ((.error (propagate err "Could not search Constraints in repo") :
                Except Error (scdpb.PutSubscriptionResponse π γ)),
              c1 ++ [scd.RepoCall.SearchConstraints extents])
          | .ok constraints =>
            match scd.PutSubscription.attachConstraints env manager constraints [] with
            | .error e => (.error e, c1 ++ [scd.RepoCall.SearchConstraints extents])
            | .ok conRefs =>
              (.ok ⟨p, opRefs, conRefs⟩, c1 ++ [scd.RepoCall.SearchConstraints extents])
        else (.ok ⟨p, opRefs, []⟩, c1)).2 = [] := by
    intro c1 hc1 p opRefs
    cases hn : sub.NotifyForConstraints with
    | false => simpa using hc1
    | true =>
      simp only [if_true]
      cases hsc : r.SearchConstraints st extents with
      | error e => simp [scd.upserted_append, hc1, scd.upserted]
      | ok cs =>
        simp only
        cases hac : scd.PutSubscription.attachConstraints env manager cs [] with
        | error e => simp [scd.upserted_append, hc1, scd.upserted]
        | ok refs => simp [scd.upserted_append, hc1, scd.upserted]
  unfold scd.PutSubscription.respond
  simp only
  by_cases hc : sub.Cells.length > 0
  · simp only [hc, if_true]
    cases hs : r.SearchOperationalIntents st
        { StartTime := sub.StartTime, EndTime := sub.EndTime,
          SpatialVolume := some { AltitudeLo := sub.AltitudeLo, AltitudeHi := sub.AltitudeHi,
                                  Footprint := some (.ok sub.Cells) } } with
    | error e => simp [scd.upserted]
    | ok ops =>
      simp only
      cases hp : env.SubscriptionToProto sub deps with
      | error e => simp [scd.upserted]
      | ok p => exact tail _ (by simp [scd.upserted]) p _
  · simp only [hc, if_false]
    cases hp : env.SubscriptionToProto sub deps with
    | error e => simp [scd.upserted]
    | ok p => exact tail _ (by simp [scd.upserted]) p _

/-- Every subscription that the closure of `PutSubscription` passes to
`UpsertSubscription` is the request model after the checks against the subscription
`old` that `GetSubscription` returned: it carries the notification flags of the request
model the closure started from, and the notification index of `old`, or the index of the
request model when there is no `old`. The closure makes at most one upsert. -/
theorem scd.action_upserted {σ ε π γ : Type} (env : scd.Env ε π γ)
    (r : scd.Repository σ) (id : dssmodels.ID) (manager : dssmodels.Manager)
    (extents : dssmodels.Volume4D) (subreq : scdmodels.Subscription) (st : σ) :
    (scd.upserted (scd.PutSubscription.action env r id manager extents subreq st).1.calls).length
        ≤ 1
    ∧ ∀ sub ∈ scd.upserted (scd.PutSubscription.action env r id manager extents subreq st).1.calls,
      ∃ old, r.GetSubscription st subreq.ID = .ok old
        ∧ sub.NotifyForOperationalIntents = subreq.NotifyForOperationalIntents
        ∧ sub.NotifyForConstraints = subreq.NotifyForConstraints
        ∧ (old = none → sub.NotificationIndex = subreq.NotificationIndex)
        ∧ (∀ o, old = some o → sub.NotificationIndex = o.NotificationIndex) := by
  unfold scd.PutSubscription.action
  cases hget : r.GetSubscription st subreq.ID with
  | error e => simp [scd.upserted]
  | ok old =>
    simp only
    cases hadj : (env.AdjustTimeRange env.now subreq old).2 with
    | some err => simp [scd.upserted]
    | none =>
      simp only
      obtain ⟨hu, hf1, hf2, hidx⟩ := scd.checkOld_upsert_model env r
        { subreq with StartTime := (env.AdjustTimeRange env.now subreq old).1.1,
                      EndTime := (env.AdjustTimeRange env.now subreq old).1.2 } old st
      rcases hc : scd.PutSubscription.checkOld env r
        { subreq with StartTime := (env.AdjustTimeRange env.now subreq old).1.1,
                      EndTime := (env.AdjustTimeRange env.now subreq old).1.2 } old st
        with ⟨res, calls, sr⟩
      rw [hc] at hu hf1 hf2 hidx
      simp only at hu hf1 hf2 hidx
      cases res with
      | error e => simp [scd.upserted, scd.upserted_append, hu]
      | ok ids =>
        simp only
        have hi := hidx ids rfl
        have hsub : ∀ sub, sub = sr →
            sub.NotifyForOperationalIntents = subreq.NotifyForOperationalIntents
            ∧ sub.NotifyForConstraints = subreq.NotifyForConstraints
            ∧ (old = none → sub.NotificationIndex = subreq.NotificationIndex)
            ∧ (∀ o, old = some o → sub.NotificationIndex = o.NotificationIndex) := by
          intro sub hs
          subst hs
          exact ⟨hf1, hf2, hi.1, hi.2⟩
        rcases r.UpsertSubscription st sr with ⟨ures, st1⟩
        cases ures with
        | error e => simpa [scd.upserted, scd.upserted_append, hu] using hsub sr rfl
        | ok osub =>
          cases osub with
          | none => simpa [scd.upserted, scd.upserted_append, hu] using hsub sr rfl
          | some stored =>
            simp only
            have hr := scd.upserted_respond env r manager extents stored ids st1
            simpa [scd.upserted, scd.upserted_append, hu, hr] using hsub sr rfl

/-- The calls of the handler `PutSubscription` are those of its closure. -/
theorem scd.PutSubscription_calls {σ ε π γ : Type} (a : scd.Server)
    (env : scd.Env ε π γ) (r : scd.Repository σ) (ctx : auth.Context)
    (sid version : String) (params : scdpb.PutSubscriptionParameters ε) (st : σ)
    (id : dssmodels.ID) (manager : dssmodels.Manager) (extents : dssmodels.Volume4D)
    (subreq : scdmodels.Subscription)
    (hprep : scd.PutSubscription.prepare a env ctx sid version params
      = .ok (id, manager, extents, subreq)) :
    (a.PutSubscription env r ctx sid version params st).calls
      = (scd.PutSubscription.action env r id manager extents subreq st).1.calls := by
  unfold scd.Server.PutSubscription
  simp only [hprep, scd.Transact]
  cases hres : (scd.PutSubscription.action env r id manager extents subreq st).1.result with
  | error e => simp [hres]
  | ok resp => simp [hres]

/-- C22, the claim as written fails: a put without notification triggers whose context
carries no manager fails with `PermissionDenied`, not `BadRequest`; and a put without
notification triggers whose extents have no spatial volume (the covering then reports
`ErrMissingSpatialVolume`, which the handler lets pass) panics on the nil spatial volume
instead of returning `BadRequest`. -/
theorem C22_no_triggers_not_BadRequest_counterexample :
    ((⟨true⟩ : scd.Server).PutSubscription scd.memEnv scd.memRepo ⟨none, none⟩ "sub-1" ""
        { scd.memParams with NotifyForOperationalIntents := false } []).outcome.code?
      = some ErrorCode.PermissionDenied
    ∧ (match ((⟨true⟩ : scd.Server).PutSubscription
          { scd.memEnv with
            CalculateSpatialCovering := fun v =>
              match v.SpatialVolume with
              | none => ([], some scd.CoveringError.ErrMissingSpatialVolume)
              | some _ => ([], none) }
          scd.memRepo (scd.memCtx "uss1") "sub-1" ""
          { scd.memParams with
            NotifyForOperationalIntents := false
            Extents := ⟨none, some 0, some 100⟩ } []).outcome with
        | .panic => true
        | _ => false) = true := by
  decide

/-- C22, amended: a `PutSubscription` whose request sets neither
`NotifyForOperationalIntents` nor `NotifyForConstraints` fails before the transaction: it
returns no response, makes no repository call and leaves the store as it is. The failure
is a `BadRequest` error when the context carries a manager and the extents, if they parse,
have a spatial volume (the error "No notification triggers requested for Subscription"
when the request passes the checks on id, base URL, extents and covering); it is
`PermissionDenied` when the id parses and the context carries no manager; and the handler
panics only on extents that parse without a spatial volume. So, for every request, every
subscription passed to `UpsertSubscription` has one of the two flags set. -/
theorem C22_no_triggers_rejected {σ ε π γ : Type} (a : scd.Server)
    (env : scd.Env ε π γ) (r : scd.Repository σ) (ctx : auth.Context)
    (sid version : String) (params : scdpb.PutSubscriptionParameters ε) (st : σ) :
    (params.NotifyForOperationalIntents = false → params.NotifyForConstraints = false →
      (a.PutSubscription env r ctx sid version params st).calls = []
      ∧ (a.PutSubscription env r ctx sid version params st).state = st
      ∧ (∀ resp, (a.PutSubscription env r ctx sid version params st).outcome ≠ .ok resp)
      ∧ (∀ manager, auth.ManagerFromContext ctx = (manager, true) →
          (∀ extents, env.Volume4DFromSCDProto params.Extents = .ok extents →
            extents.SpatialVolume ≠ none) →
          ∃ e, (a.PutSubscription env r ctx sid version params st).outcome = .error e
              ∧ e.code = ErrorCode.BadRequest)
      ∧ (∀ id manager, env.IDFromString sid = .ok id →
          auth.ManagerFromContext ctx = (manager, false) →
          (a.PutSubscription env r ctx sid version params st).outcome
            = .error (NewErrorWithCode ErrorCode.PermissionDenied
                "Missing owner from context"))
      ∧ ((a.PutSubscription env r ctx sid version params st).outcome = .panic →
          ∃ extents, env.Volume4DFromSCDProto params.Extents = .ok extents
            ∧ extents.SpatialVolume = none)
      ∧ (∀ id manager extents vol,
          env.IDFromString sid = .ok id →
          auth.ManagerFromContext ctx = (manager, true) →
          (if !a.EnableHTTP then env.ValidateUSSBaseURL params.UssBaseUrl else none) = none →
          env.Volume4DFromSCDProto params.Extents = .ok extents →
          (∀ err, (env.CalculateSpatialCovering extents).2 ≠ some (scd.CoveringError.other err)) →
          extents.SpatialVolume = some vol →
          (a.PutSubscription env r ctx sid version params st).outcome
            = .error (NewErrorWithCode ErrorCode.BadRequest
                "No notification triggers requested for Subscription")))
    ∧ (∀ sub ∈ scd.upserted (a.PutSubscription env r ctx sid version params st).calls,
        sub.NotifyForOperationalIntents = true ∨ sub.NotifyForConstraints = true) := by
  constructor
  · intro h1 h2
    obtain ⟨hno, hbad, hden⟩ := scd.prepare_no_triggers a env ctx sid version params h1 h2
    have hrun : ∀ o, scd.PutSubscription.prepare a env ctx sid version params = o →
        (a.PutSubscription env r ctx sid version params st).calls = []
        ∧ (a.PutSubscription env r ctx sid version params st).state = st
        ∧ (match o with
            | .ok _ => False
            | .panic => (a.PutSubscription env r ctx sid version params st).outcome = .panic
            | .error e =>
              (a.PutSubscription env r ctx sid version params st).outcome = .error e) := by
      intro o ho
      cases o with
      | ok res => exact absurd ho (hno res)
      | panic => simp [scd.Server.PutSubscription, ho]
      | error e => simp [scd.Server.PutSubscription, ho]
    have hout : ∀ e, scd.PutSubscription.prepare a env ctx sid version params = .error e →
        (a.PutSubscription env r ctx sid version params st).outcome = .error e := by
      intro e he
      have := (hrun _ he).2.2
      simpa using this
    refine ⟨(hrun _ rfl).1, (hrun _ rfl).2.1, ?_, ?_, ?_, ?_, ?_⟩
    · intro resp hresp
      cases ho : scd.PutSubscription.prepare a env ctx sid version params with
      | ok res => exact hno res ho
      | panic =>
        have := (hrun _ ho).2.2
        simp only at this
        rw [this] at hresp
        simp at hresp
      | error e =>
        rw [hout e ho] at hresp
        simp at hresp
    · intro manager hm hvol
      rcases hbad manager hm with ⟨e, he, hcode⟩ | ⟨_, extents, hext, hnone⟩
      · exact ⟨e, hout e he, hcode⟩
      · exact absurd hnone (hvol extents hext)
    · intro id manager hid hm
      exact hout _ (hden id manager hid hm)
    · intro hpanic
      cases ho : scd.PutSubscription.prepare a env ctx sid version params with
      | ok res => exact absurd ho (hno res)
      | error e =>
        rw [hout e ho] at hpanic
        simp at hpanic
      | panic =>
        cases hmc : auth.ManagerFromContext ctx with
        | mk manager present =>
          cases present with
          | true =>
            rcases hbad manager hmc with ⟨e, he, _⟩ | ⟨_, hex⟩
            · rw [ho] at he
              simp at he
            · exact hex
          | false =>
            exfalso
            unfold scd.PutSubscription.prepare at ho
            split at ho
            · simp at ho
            · simp [hmc] at ho
    · intro id manager extents vol hid hm hurl hext hcov hvol
      have hp : scd.PutSubscription.prepare a env ctx sid version params
          = .error (NewErrorWithCode ErrorCode.BadRequest
              "No notification triggers requested for Subscription") := by
        unfold scd.PutSubscription.prepare
        simp only [hid, hm, hurl, hext]
        rcases hcs : env.CalculateSpatialCovering extents with ⟨cells, cerr⟩
        have hcov2 : ∀ err, cerr ≠ some (scd.CoveringError.other err) := by
          intro err
          have := hcov err
          rw [hcs] at this
          exact this
        cases cerr with
        | none => simp [hvol, h1, h2]
        | some ce =>
          cases ce with
          | other err => exact absurd rfl (hcov2 err)
          | _ => simp [hvol, h1, h2]
      exact hout _ hp
  · intro sub hsub
    cases hprep : scd.PutSubscription.prepare a env ctx sid version params with
    | panic => simp [scd.Server.PutSubscription, hprep, scd.upserted] at hsub
    | error e => simp [scd.Server.PutSubscription, hprep, scd.upserted] at hsub
    | ok res =>
      obtain ⟨id, manager, extents, subreq⟩ := res
      rw [scd.PutSubscription_calls a env r ctx sid version params st id manager extents
        subreq hprep] at hsub
      obtain ⟨_, _, hf1, hf2, _, _⟩ :=
        (scd.action_upserted env r id manager extents subreq st).2 sub hsub
      obtain ⟨g1, g2, _, hflag⟩ := scd.prepare_flags a env ctx sid version params id manager
        extents subreq hprep
      rw [hf1, hf2, g1, g2]
      exact hflag

/-- C27: every subscription that `PutSubscription` passes to `UpsertSubscription` carries
the notification index of the subscription that `GetSubscription` returned for the id of
the request, when there is one (an update), and the index 0 when there is none (a
creation); a put makes at most one upsert. -/
theorem C27_notification_index_kept {σ ε π γ : Type} (a : scd.Server)
    (env : scd.Env ε π γ) (r : scd.Repository σ) (ctx : auth.Context)
    (sid version : String) (params : scdpb.PutSubscriptionParameters ε) (st : σ) :
    (scd.upserted (a.PutSubscription env r ctx sid version params st).calls).length ≤ 1
    ∧ ∀ sub ∈ scd.upserted (a.PutSubscription env r ctx sid version params st).calls,
      ∃ id old, env.IDFromString sid = .ok id ∧ r.GetSubscription st id = .ok old
        ∧ (∀ o, old = some o → sub.NotificationIndex = o.NotificationIndex)
        ∧ (old = none → sub.NotificationIndex = 0) := by
  cases hprep : scd.PutSubscription.prepare a env ctx sid version params with
  | panic => simp [scd.Server.PutSubscription, hprep, scd.upserted]
  | error e => simp [scd.Server.PutSubscription, hprep, scd.upserted]
  | ok res =>
    obtain ⟨id, manager, extents, subreq⟩ := res
    rw [scd.PutSubscription_calls a env r ctx sid version params st id manager extents
      subreq hprep]
    obtain ⟨hid, _, hsid, _, _⟩ := scd.prepare_ok a env ctx sid version params id manager
      extents subreq hprep
    obtain ⟨_, _, hzero, _⟩ := scd.prepare_flags a env ctx sid version params id manager
      extents subreq hprep
    refine ⟨(scd.action_upserted env r id manager extents subreq st).1, ?_⟩
    intro sub hsub
    obtain ⟨old, hget, _, _, hnone, hsome⟩ :=
      (scd.action_upserted env r id manager extents subreq st).2 sub hsub
    rw [hsid] at hget
    exact ⟨id, old, hid, hget, hsome, fun h => by rw [hnone h, hzero]⟩

/-- The handler on the store that holds `memSub` (index 3): an update by its manager with
the current version upserts a model with index 3; a creation on the empty store upserts a
model with index 0; a request without notification triggers is refused with `BadRequest`
and makes no call. -/
theorem scd.PutSubscription_index_example :
    (scd.upserted ((⟨true⟩ : scd.Server).PutSubscription scd.memEnv scd.memRepo
        (scd.memCtx "uss1") "sub-1" "v1" scd.memParams [scd.memSub]).calls).map
          (fun s => s.NotificationIndex) = [3]
    ∧ (scd.upserted ((⟨true⟩ : scd.Server).PutSubscription scd.memEnv scd.memRepo
        (scd.memCtx "uss1") "sub-1" "" scd.memParams []).calls).map
          (fun s => s.NotificationIndex) = [0]
    ∧ ((⟨true⟩ : scd.Server).PutSubscription scd.memEnv scd.memRepo
        (scd.memCtx "uss1") "sub-1" "v1"
        { scd.memParams with NotifyForOperationalIntents := false } [scd.memSub]).outcome.code?
          = some ErrorCode.BadRequest
    ∧ ((⟨true⟩ : scd.Server).PutSubscription scd.memEnv scd.memRepo
        (scd.memCtx "uss1") "sub-1" "v1"
        { scd.memParams with NotifyForOperationalIntents := false } [scd.memSub]).calls.length
          = 0 := by
  decide

/-! ### C28: the OVNs in the response of `PutSubscription` -/

/-- The references attached for the operational intents found: one per intent, in order,
converted after the OVN of an intent of another manager was replaced. -/
theorem scd.attachOperations_eq {ε π γ : Type} (env : scd.Env ε π γ)
    (manager : dssmodels.Manager) (ops : List scdmodels.OperationalIntent) :
    ∀ refs : List scdpb.OperationalIntentReference,
      scd.PutSubscription.attachOperations env manager ops refs
        = refs ++ ops.map (fun op =>
            (if op.Manager ≠ manager then { op with OVN := env.NoOvnPhrase } else op).ToProto
              env.UssAvailabilityStateUnknown env.TimeFormatRFC3339) := by
  induction ops with
  | nil => intro refs; simp [scd.PutSubscription.attachOperations]
  | cons op rest ih =>
    intro refs
    simp [scd.PutSubscription.attachOperations, ih, List.append_assoc]

/-- The reference of an operational intent has the id and the manager of the intent, and
its OVN if the intent is managed by the caller, the placeholder otherwise. -/
theorem scd.attachOperations_masks {ε π γ : Type} (env : scd.Env ε π γ)
    (manager : dssmodels.Manager) (ops : List scdmodels.OperationalIntent) :
    List.Forall₂ (fun (op : scdmodels.OperationalIntent)
        (ref : scdpb.OperationalIntentReference) =>
          ref.Id = op.ID ∧ ref.Manager = op.Manager
          ∧ ref.Ovn = if op.Manager = manager then op.OVN else env.NoOvnPhrase)
      ops (scd.PutSubscription.attachOperations env manager ops []) := by
  rw [scd.attachOperations_eq, List.nil_append, List.forall₂_map_right_iff,
    List.forall₂_same]
  intro op _
  by_cases h : op.Manager = manager <;> simp [h, scdmodels.OperationalIntent.ToProto]

/-- The references attached for the constraints found, when `Constraint.ToProto` puts the
OVN of the constraint into the field `Ovn`: one per constraint, in order, with the OVN
of the constraint if it is managed by the caller and the placeholder otherwise. -/
theorem scd.attachConstraints_masks {ε π γ : Type} (env : scd.Env ε π γ)
    (manager : dssmodels.Manager)
    (hproto : ∀ c p, env.ConstraintToProto c = .ok p → p.Ovn = c.OVN)
    (cs : List scdmodels.Constraint) :
    ∀ refs out : List (scdpb.ConstraintReference γ),
      scd.PutSubscription.attachConstraints env manager cs refs = .ok out →
      ∃ new, out = refs ++ new
        ∧ List.Forall₂ (fun (c : scdmodels.Constraint) (ref : scdpb.ConstraintReference γ) =>
            ref.Ovn = if c.Manager = manager then c.OVN else env.NoOvnPhrase) cs new := by
  induction cs with
  | nil =>
    intro refs out h
    simp only [scd.PutSubscription.attachConstraints, Except.ok.injEq] at h
    exact ⟨[], by simp [h], List.Forall₂.nil⟩
  | cons c rest ih =>
    intro refs out h
    unfold scd.PutSubscription.attachConstraints at h
    cases hp : env.ConstraintToProto c with
    | error e => simp [hp] at h
    | ok p =>
      simp only [hp] at h
      obtain ⟨new, hout, hall⟩ := ih _ out h
      have hovn := hproto c p hp
      refine ⟨(if c.Manager ≠ manager then { p with Ovn := env.NoOvnPhrase } else p) :: new,
        by simp [hout], List.Forall₂.cons ?_ hall⟩
      by_cases hm : c.Manager = manager <;> simp [hm, hovn]

/-- A successful response of `respond`: the operational-intent references are those
attached for the operations found by the search (none when the subscription has no
cells), if the subscription has `NotifyForOperationalIntents`, and none otherwise; the
constraint references are those attached for the constraints found in the extents, if the
subscription has `NotifyForConstraints`, and none otherwise. -/
theorem scd.respond_ok {σ ε π γ : Type} (env : scd.Env ε π γ) (r : scd.Repository σ)
    (manager : dssmodels.Manager) (extents : dssmodels.Volume4D)
    (sub : scdmodels.Subscription) (deps : List dssmodels.ID) (st : σ)
    (resp : scdpb.PutSubscriptionResponse π γ)
    (h : (scd.PutSubscription.respond env r manager extents sub deps st).1 = .ok resp) :
    (∃ ops, (sub.Cells ≠ [] → ∃ v, r.SearchOperationalIntents st v = .ok ops)
        ∧ (sub.Cells = [] → ops = [])
        ∧ resp.OperationalIntentReferences
            = if sub.NotifyForOperationalIntents = true then
                scd.PutSubscription.attachOperations env manager ops []
              else [])
    ∧ (if sub.NotifyForConstraints = true then
        ∃ cs, r.SearchConstraints st extents = .ok cs
          ∧ scd.PutSubscription.attachConstraints env manager cs []
              = .ok resp.ConstraintReferences
       else resp.ConstraintReferences = []) := by
  have tail : ∀ (c1 : List scd.RepoCall) (p : π)
      (opRefs : List scdpb.OperationalIntentReference),
      (if sub.NotifyForConstraints = true then
          match r.SearchConstraints st extents with
          | .error err =>
            ((.error (propagate err "Could not search Constraints in repo") :
                Except Error (scdpb.PutSubscriptionResponse π γ)),
              c1 ++ [scd.RepoCall.SearchConstraints extents])
          | .ok constraints =>
            match scd.PutSubscription.attachConstraints env manager constraints [] with
            | .error e => (.error e, c1 ++ [scd.RepoCall.SearchConstraints extents])
            | .ok conRefs =>
              (.ok ⟨p, opRefs, conRefs⟩, c1 ++ [scd.RepoCall.SearchConstraints extents])
        else (.ok ⟨p, opRefs, []⟩, c1)).1 = .ok resp →
      resp.OperationalIntentReferences = opRefs
      ∧ (if sub.NotifyForConstraints = true then
          ∃ cs, r.SearchConstraints st extents = .ok cs
            ∧ scd.PutSubscription.attachConstraints env manager cs []
                = .ok resp.ConstraintReferences
         else resp.ConstraintReferences = []) := by
    intro c1 p opRefs hr
    cases hn : sub.NotifyForConstraints with
    | false =>
      simp only [hn, Bool.false_eq_true, if_false, Except.ok.injEq] at hr ⊢
      subst hr
      exact ⟨rfl, rfl⟩
    | true =>
      simp only [hn, if_true] at hr ⊢
      cases hsc : r.SearchConstraints st extents with
      | error e => simp [hsc] at hr
      | ok cs =>
        simp only [hsc] at hr
        cases hac : scd.PutSubscription.attachConstraints env manager cs [] with
        | error e => simp [hac] at hr
        | ok refs =>
          simp only [hac, Except.ok.injEq] at hr
          subst hr
          exact ⟨rfl, cs, rfl, hac⟩
  unfold scd.PutSubscription.respond at h
  simp only at h
  by_cases hc : sub.Cells.length > 0
  · have hne : sub.Cells ≠ [] := by
      intro h0
      rw [h0] at hc
      simp at hc
    simp only [hc, if_true] at h
    cases hs : r.SearchOperationalIntents st
        { StartTime := sub.StartTime, EndTime := sub.EndTime,
          SpatialVolume := some { AltitudeLo := sub.AltitudeLo, AltitudeHi := sub.AltitudeHi,
                                  Footprint := some (.ok sub.Cells) } } with
    | error e => simp [hs] at h
    | ok ops =>
      simp only [hs] at h
      cases hp : env.SubscriptionToProto sub deps with
      | error e => simp [hp] at h
      | ok p =>
        simp only [hp] at h
        obtain ⟨h1, h2⟩ := tail _ p _ h
        exact ⟨⟨ops, fun _ => ⟨_, hs⟩, fun h0 => absurd h0 hne, h1⟩, h2⟩
  · have he : sub.Cells = [] := by
      cases hcs : sub.Cells with
      | nil => rfl
      | cons x xs => rw [hcs] at hc; simp at hc
    simp only [hc, if_false] at h
    cases hp : env.SubscriptionToProto sub deps with
    | error e => simp [hp] at h
    | ok p =>
      simp only [hp] at h
      obtain ⟨h1, h2⟩ := tail _ p _ h
      refine ⟨⟨[], fun hne => absurd he hne, fun _ => rfl, ?_⟩, h2⟩
      rw [h1]

/-- The references attached for operational intents do not depend on the OVNs of the
intents of other managers. -/
theorem scd.attachOperations_erase {ε π γ : Type} (env : scd.Env ε π γ)
    (manager : dssmodels.Manager) (ops : List scdmodels.OperationalIntent)
    (refs : List scdpb.OperationalIntentReference) :
    scd.PutSubscription.attachOperations env manager ops refs
      = scd.PutSubscription.attachOperations env manager (scd.eraseForeignOVNs manager ops)
          refs := by
  rw [scd.attachOperations_eq, scd.attachOperations_eq]
  congr 1
  unfold scd.eraseForeignOVNs
  rw [List.map_map]
  apply List.map_congr_left
  intro op _
  by_cases h : op.Manager = manager <;> simp [h, scd.eraseForeignOVN]

/-- The references attached for constraints do not depend on the OVNs of the constraints
of other managers, when `Constraint.ToProto` copies the OVN into the field `Ovn` and
computes the other fields (`f`) without looking at the OVN. -/
theorem scd.attachConstraints_erase {ε π γ : Type} (env : scd.Env ε π γ)
    (manager : dssmodels.Manager) (f : scdmodels.Constraint → Except Error γ)
    (hproto : ∀ c, env.ConstraintToProto c
      = match f c with
        | .ok rest => .ok ⟨c.OVN, rest⟩
        | .error e => .error e)
    (hf : ∀ (c : scdmodels.Constraint) (ovn : scdmodels.OVN), f { c with OVN := ovn } = f c)
    (cs : List scdmodels.Constraint) :
    ∀ refs : List (scdpb.ConstraintReference γ),
      scd.PutSubscription.attachConstraints env manager cs refs
        = scd.PutSubscription.attachConstraints env manager
            (scd.eraseForeignConstraintOVNs manager cs) refs := by
  induction cs with
  | nil => intro refs; rfl
  | cons c rest ih =>
    intro refs
    unfold scd.eraseForeignConstraintOVNs at ih ⊢
    by_cases hm : c.Manager = manager
    · simp only [List.map_cons, hm, if_true]
      unfold scd.PutSubscription.attachConstraints
      cases hp : env.ConstraintToProto c with
      | error e => rfl
      | ok p => simp only [ih]
    · simp only [List.map_cons, hm, if_false]
      unfold scd.PutSubscription.attachConstraints
      rw [hproto c, hproto { c with OVN := "" }, hf c ""]
      cases hfc : f c with
      | error e => rfl
      | ok fields => simp only [hm, ne_eq, not_false_eq_true, if_true, ih]

/-- Two runs of `respond` on repositories whose searches find records that differ only in
the OVNs of records of other managers give the same result. -/
theorem scd.respond_noninterference {σ ε π γ : Type} (env : scd.Env ε π γ)
    (r r' : scd.Repository σ) (manager : dssmodels.Manager) (extents : dssmodels.Volume4D)
    (sub : scdmodels.Subscription) (deps : List dssmodels.ID) (st st' : σ)
    (f : scdmodels.Constraint → Except Error γ)
    (hproto : ∀ c, env.ConstraintToProto c
      = match f c with
        | .ok rest => .ok ⟨c.OVN, rest⟩
        | .error e => .error e)
    (hf : ∀ (c : scdmodels.Constraint) (ovn : scdmodels.OVN), f { c with OVN := ovn } = f c)
    (hops : ∀ v, Except.map (scd.eraseForeignOVNs manager) (r.SearchOperationalIntents st v)
      = Except.map (scd.eraseForeignOVNs manager) (r'.SearchOperationalIntents st' v))
    (hcons : ∀ v, Except.map (scd.eraseForeignConstraintOVNs manager) (r.SearchConstraints st v)
      = Except.map (scd.eraseForeignConstraintOVNs manager) (r'.SearchConstraints st' v)) :
    (scd.PutSubscription.respond env r manager extents sub deps st).1
      = (scd.PutSubscription.respond env r' manager extents sub deps st').1 := by
  have tail : ∀ (c1 c1' : List scd.RepoCall) (p : π)
      (opRefs : List scdpb.OperationalIntentReference),
      (if sub.NotifyForConstraints = true then
          match r.SearchConstraints st extents with
          | .error err =>
            ((.error (propagate err "Could not search Constraints in repo") :
                Except Error (scdpb.PutSubscriptionResponse π γ)),
              c1 ++ [scd.RepoCall.SearchConstraints extents])
          | .ok constraints =>
            match scd.PutSubscription.attachConstraints env manager constraints [] with
            | .error e => (.error e, c1 ++ [scd.RepoCall.SearchConstraints extents])
            | .ok conRefs =>
              (.ok ⟨p, opRefs, conRefs⟩, c1 ++ [scd.RepoCall.SearchConstraints extents])
        else (.ok ⟨p, opRefs, []⟩, c1)).1
      = (if sub.NotifyForConstraints = true then
          match r'.SearchConstraints st' extents with
          | .error err =>
            ((.error (propagate err "Could not search Constraints in repo") :
                Except Error (scdpb.PutSubscriptionResponse π γ)),
              c1' ++ [scd.RepoCall.SearchConstraints extents])
          | .ok constraints =>
            match scd.PutSubscription.attachConstraints env manager constraints [] with
            | .error e => (.error e, c1' ++ [scd.RepoCall.SearchConstraints extents])
            | .ok conRefs =>
              (.ok ⟨p, opRefs, conRefs⟩, c1' ++ [scd.RepoCall.SearchConstraints extents])
        else (.ok ⟨p, opRefs, []⟩, c1')).1 := by
    intro c1 c1' p opRefs
    cases hn : sub.NotifyForConstraints with
    | false => simp
    | true =>
      simp only [if_true]
      have hrel := hcons extents
      cases hsc : r.SearchConstraints st extents with
      | error e =>
        cases hsc' : r'.SearchConstraints st' extents with
        | error e' =>
          rw [hsc, hsc'] at hrel
          simp only [Except.map, Except.error.injEq] at hrel
          simp [hrel]
        | ok cs' =>
          rw [hsc, hsc'] at hrel
          simp [Except.map] at hrel
      | ok cs =>
        cases hsc' : r'.SearchConstraints st' extents with
        | error e' =>
          rw [hsc, hsc'] at hrel
          simp [Except.map] at hrel
        | ok cs' =>
          rw [hsc, hsc'] at hrel
          simp only [Except.map, Except.ok.injEq] at hrel
          have heq : scd.PutSubscription.attachConstraints env manager cs []
              = scd.PutSubscription.attachConstraints env manager cs' [] := by
            rw [scd.attachConstraints_erase env manager f hproto hf cs [],
              scd.attachConstraints_erase env manager f hproto hf cs' [], hrel]
          simp only [heq]
          cases scd.PutSubscription.attachConstraints env manager cs' [] <;> rfl
  unfold scd.PutSubscription.respond
  simp only
  by_cases hc : sub.Cells.length > 0
  · simp only [hc, if_true]
    have hrel := hops
      { StartTime := sub.StartTime, EndTime := sub.EndTime,
        SpatialVolume := some { AltitudeLo := sub.AltitudeLo, AltitudeHi := sub.AltitudeHi,
                                Footprint := some (.ok sub.Cells) } }
    cases hs : r.SearchOperationalIntents st
        { StartTime := sub.StartTime, EndTime := sub.EndTime,
          SpatialVolume := some { AltitudeLo := sub.AltitudeLo, AltitudeHi := sub.AltitudeHi,
                                  Footprint := some (.ok sub.Cells) } } with
    | error e =>
      cases hs' : r'.SearchOperationalIntents st'
          { StartTime := sub.StartTime, EndTime := sub.EndTime,
            SpatialVolume := some { AltitudeLo := sub.AltitudeLo, AltitudeHi := sub.AltitudeHi,
                                    Footprint := some (.ok sub.Cells) } } with
      | error e' =>
        rw [hs, hs'] at hrel
        simp only [Except.map, Except.error.injEq] at hrel
        simp [hrel]
      | ok ops' =>
        rw [hs, hs'] at hrel
        simp [Except.map] at hrel
    | ok ops =>
      cases hs' : r'.SearchOperationalIntents st'
          { StartTime := sub.StartTime, EndTime := sub.EndTime,
            SpatialVolume := some { AltitudeLo := sub.AltitudeLo, AltitudeHi := sub.AltitudeHi,
                                    Footprint := some (.ok sub.Cells) } } with
      | error e' =>
        rw [hs, hs'] at hrel
        simp [Except.map] at hrel
      | ok ops' =>
        rw [hs, hs'] at hrel
        simp only [Except.map, Except.ok.injEq] at hrel
        have heq : scd.PutSubscription.attachOperations env manager ops []
            = scd.PutSubscription.attachOperations env manager ops' [] := by
          rw [scd.attachOperations_erase env manager ops [],
            scd.attachOperations_erase env manager ops' [], hrel]
        simp only [heq]
        cases hp : env.SubscriptionToProto sub deps with
        | error e => rfl
        | ok p => exact tail _ _ p _
  · simp only [hc, if_false]
    cases hp : env.SubscriptionToProto sub deps with
    | error e => rfl
    | ok p => exact tail _ _ p _

/-- Every successful response of the handler `PutSubscription` is a result of `respond`,
for the manager of the context and the subscription that `UpsertSubscription` returned. -/
theorem scd.PutSubscription_ok_respond {σ ε π γ : Type} (a : scd.Server)
    (env : scd.Env ε π γ) (r : scd.Repository σ) (ctx : auth.Context)
    (sid version : String) (params : scdpb.PutSubscriptionParameters ε) (st : σ)
    (resp : scdpb.PutSubscriptionResponse π γ)
    (h : (a.PutSubscription env r ctx sid version params st).outcome = .ok resp) :
    ∃ manager extents sub deps subreq st1,
      auth.ManagerFromContext ctx = (manager, true)
      ∧ r.UpsertSubscription st subreq = (.ok (some sub), st1)
      ∧ (scd.PutSubscription.respond env r manager extents sub deps st1).1 = .ok resp := by
  cases hprep : scd.PutSubscription.prepare a env ctx sid version params with
  | panic => simp [scd.Server.PutSubscription, hprep] at h
  | error e => simp [scd.Server.PutSubscription, hprep] at h
  | ok res =>
    obtain ⟨id, manager, extents, subreq⟩ := res
    obtain ⟨_, hctx, _, _, _⟩ := scd.prepare_ok a env ctx sid version params id manager
      extents subreq hprep
    have hact : (scd.PutSubscription.action env r id manager extents subreq st).1.result
        = .ok resp := by
      unfold scd.Server.PutSubscription at h
      simp only [hprep, scd.Transact] at h
      cases hres : (scd.PutSubscription.action env r id manager extents subreq st).1.result with
      | error e => simp [hres] at h
      | ok resp1 =>
        simp only [hres, scd.Outcome.ok.injEq] at h
        rw [h]
    unfold scd.PutSubscription.action at hact
    cases hget : r.GetSubscription st subreq.ID with
    | error e => simp [hget] at hact
    | ok old =>
      simp only [hget] at hact
      cases hadj : (env.AdjustTimeRange env.now subreq old).2 with
      | some err => simp [hadj] at hact
      | none =>
        simp only [hadj] at hact
        rcases hc : scd.PutSubscription.checkOld env r
          { subreq with StartTime := (env.AdjustTimeRange env.now subreq old).1.1,
                        EndTime := (env.AdjustTimeRange env.now subreq old).1.2 } old st
          with ⟨res, calls, sr⟩
        rw [hc] at hact
        cases res with
        | error e => simp at hact
        | ok ids =>
          simp only at hact
          rcases hu : r.UpsertSubscription st sr with ⟨ures, st1⟩
          rw [hu] at hact
          cases ures with
          | error e => simp at hact
          | ok osub =>
            cases osub with
            | none => simp at hact
            | some stored =>
              simp only at hact
              exact ⟨manager, extents, stored, ids, sr, st1, hctx, hu, hact⟩

/-- On two stores whose operational intents, read by id, differ only in the OVNs of
records of other managers, `GetOperations` fails with the same error or returns
operations that differ only in those OVNs. -/
theorem scd.GetOperations_erase {σ : Type} (r r' : scd.Repository σ) (st st' : σ)
    (manager : dssmodels.Manager)
    (hop : ∀ id, Except.map (Option.map (scd.eraseForeignOVN manager))
        (r.GetOperationalIntent st id)
      = Except.map (Option.map (scd.eraseForeignOVN manager))
        (r'.GetOperationalIntent st' id))
    (ids : List dssmodels.ID) :
    Except.map (List.map (Option.map (scd.eraseForeignOVN manager)))
        (scd.GetOperations r st ids).1
      = Except.map (List.map (Option.map (scd.eraseForeignOVN manager)))
        (scd.GetOperations r' st' ids).1 := by
  induction ids with
  | nil => rfl
  | cons i rest ih =>
    have h := hop i
    unfold scd.GetOperations
    cases hA : r.GetOperationalIntent st i with
    | error eA =>
      cases hB : r'.GetOperationalIntent st' i with
      | error eB =>
        rw [hA, hB] at h
        simp only [Except.map, Except.error.injEq] at h
        simp [Except.map, h]
      | ok oB =>
        rw [hA, hB] at h
        simp [Except.map] at h
    | ok oA =>
      cases hB : r'.GetOperationalIntent st' i with
      | error eB =>
        rw [hA, hB] at h
        simp [Except.map] at h
      | ok oB =>
        rw [hA, hB] at h
        simp only [Except.map, Except.ok.injEq] at h
        rcases hgA : scd.GetOperations r st rest with ⟨resA, cA⟩
        rcases hgB : scd.GetOperations r' st' rest with ⟨resB, cB⟩
        rw [hgA, hgB] at ih
        simp only at ih
        cases resA with
        | error eA =>
          cases resB with
          | error eB =>
            simp only [Except.map, Except.error.injEq] at ih
            simp [Except.map, ih]
          | ok lB => simp [Except.map] at ih
        | ok lA =>
          cases resB with
          | error eB => simp [Except.map] at ih
          | ok lB =>
            simp only [Except.map, Except.ok.injEq] at ih
            simp [Except.map, h, ih]

/-- The checks against the previous subscription give the same result and leave the same
request model on two stores that agree on the dependent operation ids and whose
operational intents differ only in the OVNs of records of other managers, when
`ValidateDependentOps` does not look at those OVNs. -/
theorem scd.checkOld_noninterference {σ ε π γ : Type} (env : scd.Env ε π γ)
    (r r' : scd.Repository σ) (manager : dssmodels.Manager)
    (subreq : scdmodels.Subscription) (old : Option scdmodels.Subscription) (st st' : σ)
    (hdep : ∀ id, r.GetDependentOperationalIntents st id
      = r'.GetDependentOperationalIntents st' id)
    (hop : ∀ id, Except.map (Option.map (scd.eraseForeignOVN manager))
        (r.GetOperationalIntent st id)
      = Except.map (Option.map (scd.eraseForeignOVN manager))
        (r'.GetOperationalIntent st' id))
    (hval : ∀ sub ops ops',
      ops.map (Option.map (scd.eraseForeignOVN manager))
        = ops'.map (Option.map (scd.eraseForeignOVN manager)) →
      env.ValidateDependentOps sub ops = env.ValidateDependentOps sub ops') :
    (scd.PutSubscription.checkOld env r subreq old st).1
        = (scd.PutSubscription.checkOld env r' subreq old st').1
    ∧ (scd.PutSubscription.checkOld env r subreq old st).2.2
        = (scd.PutSubscription.checkOld env r' subreq old st').2.2 := by
  cases old with
  | none =>
    unfold scd.PutSubscription.checkOld
    by_cases hv : subreq.Version = "" <;> simp [hv]
  | some o =>
    unfold scd.PutSubscription.checkOld
    by_cases hv : subreq.Version = ""
    · simp [hv]
    · by_cases hv2 : subreq.Version = o.Version
      · by_cases hm : o.Manager = subreq.Manager
        · have hv3 : ¬ o.Version = "" := by rw [← hv2]; exact hv
          simp only [hv, hv2, hv3, hm, ne_eq, not_true_eq_false, if_false]
          rw [hdep subreq.ID]
          cases hd : r'.GetDependentOperationalIntents st' subreq.ID with
          | error e => exact ⟨rfl, rfl⟩
          | ok deps =>
            simp only
            have hg := scd.GetOperations_erase r r' st st' manager hop deps
            rcases hgA : scd.GetOperations r st deps with ⟨resA, cA⟩
            rcases hgB : scd.GetOperations r' st' deps with ⟨resB, cB⟩
            rw [hgA, hgB] at hg
            simp only at hg
            cases resA with
            | error eA =>
              cases resB with
              | error eB =>
                simp only [Except.map, Except.error.injEq] at hg
                simp [hg]
              | ok lB => simp [Except.map] at hg
            | ok lA =>
              cases resB with
              | error eB => simp [Except.map] at hg
              | ok lB =>
                simp only [Except.map, Except.ok.injEq] at hg
                have hvd := hval
                  { subreq with NotificationIndex := o.NotificationIndex } lA lB hg
                simp only [hv2] at hvd
                simp only [hvd]
                cases env.ValidateDependentOps
                  { subreq with Version := o.Version,
                                NotificationIndex := o.NotificationIndex } lB <;>
                  exact ⟨rfl, rfl⟩
        · have hv3 : ¬ o.Version = "" := by rw [← hv2]; exact hv
          simp [hv, hv2, hv3, hm]
      · simp [hv, hv2]

/-- Two runs of the closure of `PutSubscription`, on stores related by `rel`, return the
same result, when related stores agree on the subscriptions and the dependent operation
ids, differ in their operational intents and constraints only in the OVNs of records of
managers other than `manager`, and stay related after the same upsert with the same
result; `ValidateDependentOps` must not look at the OVNs of other managers, and
`Constraint.ToProto` must copy the OVN and compute the other fields without it. -/
theorem scd.action_noninterference {σ ε π γ : Type} (env : scd.Env ε π γ)
    (r r' : scd.Repository σ) (id : dssmodels.ID) (manager : dssmodels.Manager)
    (extents : dssmodels.Volume4D) (subreq : scdmodels.Subscription) (st st' : σ)
    (rel : σ → σ → Prop)
    (f : scdmodels.Constraint → Except Error γ)
    (hproto : ∀ c, env.ConstraintToProto c
      = match f c with
        | .ok rest => .ok ⟨c.OVN, rest⟩
        | .error e => .error e)
    (hf : ∀ (c : scdmodels.Constraint) (ovn : scdmodels.OVN), f { c with OVN := ovn } = f c)
    (hval : ∀ sub ops ops',
      ops.map (Option.map (scd.eraseForeignOVN manager))
        = ops'.map (Option.map (scd.eraseForeignOVN manager)) →
      env.ValidateDependentOps sub ops = env.ValidateDependentOps sub ops')
    (hrel : rel st st')
    (hsim : ∀ s s', rel s s' →
      (∀ i, r.GetSubscription s i = r'.GetSubscription s' i)
      ∧ (∀ i, r.GetDependentOperationalIntents s i = r'.GetDependentOperationalIntents s' i)
      ∧ (∀ i, Except.map (Option.map (scd.eraseForeignOVN manager))
            (r.GetOperationalIntent s i)
          = Except.map (Option.map (scd.eraseForeignOVN manager))
            (r'.GetOperationalIntent s' i))
      ∧ (∀ sub, (r.UpsertSubscription s sub).1 = (r'.UpsertSubscription s' sub).1
          ∧ rel (r.UpsertSubscription s sub).2 (r'.UpsertSubscription s' sub).2)
      ∧ (∀ v, Except.map (scd.eraseForeignOVNs manager) (r.SearchOperationalIntents s v)
          = Except.map (scd.eraseForeignOVNs manager) (r'.SearchOperationalIntents s' v))
      ∧ (∀ v, Except.map (scd.eraseForeignConstraintOVNs manager) (r.SearchConstraints s v)
          = Except.map (scd.eraseForeignConstraintOVNs manager)
              (r'.SearchConstraints s' v))) :
    (scd.PutSubscription.action env r id manager extents subreq st).1.result
      = (scd.PutSubscription.action env r' id manager extents subreq st').1.result := by
  obtain ⟨hget, hdep, hop, hups, _, _⟩ := hsim st st' hrel
  unfold scd.PutSubscription.action
  rw [hget subreq.ID]
  cases hg : r'.GetSubscription st' subreq.ID with
  | error e => rfl
  | ok old =>
    simp only
    cases hadj : (env.AdjustTimeRange env.now subreq old).2 with
    | some err => rfl
    | none =>
      simp only
      obtain ⟨hc1, hc2⟩ := scd.checkOld_noninterference env r r' manager
        { subreq with StartTime := (env.AdjustTimeRange env.now subreq old).1.1,
                      EndTime := (env.AdjustTimeRange env.now subreq old).1.2 } old st st'
        hdep hop hval
      rcases hcA : scd.PutSubscription.checkOld env r
        { subreq with StartTime := (env.AdjustTimeRange env.now subreq old).1.1,
                      EndTime := (env.AdjustTimeRange env.now subreq old).1.2 } old st
        with ⟨resA, cA, srA⟩
      rcases hcB : scd.PutSubscription.checkOld env r'
        { subreq with StartTime := (env.AdjustTimeRange env.now subreq old).1.1,
                      EndTime := (env.AdjustTimeRange env.now subreq old).1.2 } old st'
        with ⟨resB, cB, srB⟩
      rw [hcA, hcB] at hc1 hc2
      simp only at hc1 hc2
      subst hc1 hc2
      cases resA with
      | error e => rfl
      | ok deps =>
        simp only
        obtain ⟨hu1, hu2⟩ := hups srA
        rcases huA : r.UpsertSubscription st srA with ⟨uA, stA⟩
        rcases huB : r'.UpsertSubscription st' srA with ⟨uB, stB⟩
        rw [huA, huB] at hu1 hu2
        simp only at hu1 hu2
        subst hu1
        cases uA with
        | error e => rfl
        | ok osub =>
          cases osub with
          | none => rfl
          | some sub =>
            simp only
            obtain ⟨_, _, _, _, hops, hcons⟩ := hsim stA stB hu2
            have hr := scd.respond_noninterference env r r' manager extents sub deps stA stB
              f hproto hf hops hcons
            rcases hrA : scd.PutSubscription.respond env r manager extents sub deps stA
              with ⟨resA, c3A⟩
            rcases hrB : scd.PutSubscription.respond env r' manager extents sub deps stB
              with ⟨resB, c3B⟩
            rw [hrA, hrB] at hr
            exact hr

/-- C28: let `Constraint.ToProto` copy the OVN of the constraint into the field `Ovn` and
compute the other fields (`f`) without looking at the OVN. In every successful response of
`PutSubscription`, with `caller` the manager of the context and `sub` the subscription
that `UpsertSubscription` returned: every operational-intent reference whose manager is
not the caller carries `NoOvnPhrase`; the operational-intent references are, in order,
those of the operations found (none when `sub` has no cells), each with the OVN of the
operation if the caller manages it and `NoOvnPhrase` otherwise, when `sub` has
`NotifyForOperationalIntents`, and there are none otherwise; the constraint references
are, in order, those of the constraints found in the extents, each with the OVN of the
constraint if the caller manages it and `NoOvnPhrase` otherwise, when `sub` has
`NotifyForConstraints`, and there are none otherwise. And two runs of the handler
`PutSubscription` with the same request return the same outcome (the same response or the
same error) when they run on stores related by `rel`, where related stores agree on the
subscriptions and on the dependent operation ids, differ in the operational intents read
by id and found by a search and in the constraints found by a search only in the OVNs of
records of managers other than the caller, and stay related after the same upsert with
the same result; `ValidateDependentOps` is taken not to look at those OVNs. -/
theorem C28_response_masks_foreign_OVNs {σ ε π γ : Type} (a : scd.Server)
    (env : scd.Env ε π γ) (r : scd.Repository σ) (ctx : auth.Context)
    (sid version : String) (params : scdpb.PutSubscriptionParameters ε) (st0 : σ)
    (f : scdmodels.Constraint → Except Error γ)
    (hproto : ∀ c, env.ConstraintToProto c
      = match f c with
        | .ok rest => .ok ⟨c.OVN, rest⟩
        | .error e => .error e)
    (hf : ∀ (c : scdmodels.Constraint) (ovn : scdmodels.OVN), f { c with OVN := ovn } = f c) :
    (∀ resp, (a.PutSubscription env r ctx sid version params st0).outcome = .ok resp →
      ∃ caller extents sub subreq st1,
        auth.ManagerFromContext ctx = (caller, true)
        ∧ r.UpsertSubscription st0 subreq = (.ok (some sub), st1)
        ∧ (∀ ref ∈ resp.OperationalIntentReferences,
            ref.Manager ≠ caller → ref.Ovn = env.NoOvnPhrase)
        ∧ (∃ ops, (sub.Cells ≠ [] → ∃ v, r.SearchOperationalIntents st1 v = .ok ops)
            ∧ (sub.Cells = [] → ops = [])
            ∧ (sub.NotifyForOperationalIntents = true →
                List.Forall₂ (fun (op : scdmodels.OperationalIntent)
                    (ref : scdpb.OperationalIntentReference) =>
                      ref.Id = op.ID ∧ ref.Manager = op.Manager
                      ∧ ref.Ovn = if op.Manager = caller then op.OVN else env.NoOvnPhrase)
                  ops resp.OperationalIntentReferences))
        ∧ (sub.NotifyForOperationalIntents = false → resp.OperationalIntentReferences = [])
        ∧ (sub.NotifyForConstraints = true →
            ∃ cs, r.SearchConstraints st1 extents = .ok cs
              ∧ List.Forall₂ (fun (c : scdmodels.Constraint)
                  (ref : scdpb.ConstraintReference γ) =>
                    ref.Ovn = if c.Manager = caller then c.OVN else env.NoOvnPhrase)
                cs resp.ConstraintReferences)
        ∧ (sub.NotifyForConstraints = false → resp.ConstraintReferences = []))
    ∧ (∀ (r' : scd.Repository σ) (st' : σ) (rel : σ → σ → Prop),
        (∀ sub ops ops',
          ops.map (Option.map (scd.eraseForeignOVN (auth.ManagerFromContext ctx).1))
            = ops'.map (Option.map (scd.eraseForeignOVN (auth.ManagerFromContext ctx).1)) →
          env.ValidateDependentOps sub ops = env.ValidateDependentOps sub ops') →
        rel st0 st' →
        (∀ s s', rel s s' →
          (∀ i, r.GetSubscription s i = r'.GetSubscription s' i)
          ∧ (∀ i, r.GetDependentOperationalIntents s i
              = r'.GetDependentOperationalIntents s' i)
          ∧ (∀ i, Except.map (Option.map (scd.eraseForeignOVN (auth.ManagerFromContext ctx).1))
                (r.GetOperationalIntent s i)
              = Except.map (Option.map (scd.eraseForeignOVN (auth.ManagerFromContext ctx).1))
                (r'.GetOperationalIntent s' i))
          ∧ (∀ sub, (r.UpsertSubscription s sub).1 = (r'.UpsertSubscription s' sub).1
              ∧ rel (r.UpsertSubscription s sub).2 (r'.UpsertSubscription s' sub).2)
          ∧ (∀ v, Except.map (scd.eraseForeignOVNs (auth.ManagerFromContext ctx).1)
                (r.SearchOperationalIntents s v)
              = Except.map (scd.eraseForeignOVNs (auth.ManagerFromContext ctx).1)
                (r'.SearchOperationalIntents s' v))
          ∧ (∀ v, Except.map (scd.eraseForeignConstraintOVNs (auth.ManagerFromContext ctx).1)
                (r.SearchConstraints s v)
              = Except.map (scd.eraseForeignConstraintOVNs (auth.ManagerFromContext ctx).1)
                (r'.SearchConstraints s' v))) →
        (a.PutSubscription env r ctx sid version params st0).outcome
          = (a.PutSubscription env r' ctx sid version params st').outcome) := by
  have hovn : ∀ c p, env.ConstraintToProto c = .ok p → p.Ovn = c.OVN := by
    intro c p hp
    rw [hproto c] at hp
    cases hfc : f c with
    | error e => simp [hfc] at hp
    | ok fields =>
      simp only [hfc, Except.ok.injEq] at hp
      rw [← hp]
  constructor
  · intro resp hresp
    obtain ⟨caller, extents, sub, deps, subreq, st1, hctx, hup, hr⟩ :=
      scd.PutSubscription_ok_respond a env r ctx sid version params st0 resp hresp
    obtain ⟨⟨ops, hfound, hnone, hrefs⟩, hcs⟩ :=
      scd.respond_ok env r caller extents sub deps st1 resp hr
    refine ⟨caller, extents, sub, subreq, st1, hctx, hup, ?_, ⟨ops, hfound, hnone, ?_⟩, ?_, ?_,
      ?_⟩
    · intro ref href hne
      rw [hrefs] at href
      by_cases hn : sub.NotifyForOperationalIntents = true
      · simp only [hn, if_true, scd.attachOperations_eq, List.nil_append,
          List.mem_map] at href
        obtain ⟨op, _, hop⟩ := href
        subst hop
        by_cases hm : op.Manager = caller
        · simp [hm, scdmodels.OperationalIntent.ToProto] at hne
        · simp [hm, scdmodels.OperationalIntent.ToProto]
      · simp [hn] at href
    · intro hn
      rw [hrefs]
      simp only [hn, if_true]
      exact scd.attachOperations_masks env caller ops
    · intro hn
      rw [hrefs]
      simp [hn]
    · intro hn
      simp only [hn, if_true] at hcs
      obtain ⟨cs, hsc, hac⟩ := hcs
      obtain ⟨new, hout, hall⟩ := scd.attachConstraints_masks env caller hovn cs [] _ hac
      rw [List.nil_append] at hout
      rw [hout]
      exact ⟨cs, hsc, hall⟩
    · intro hn
      simpa [hn] using hcs
  · intro r' st' rel hval hrel hsim
    cases hprep : scd.PutSubscription.prepare a env ctx sid version params with
    | panic => simp [scd.Server.PutSubscription, hprep]
    | error e => simp [scd.Server.PutSubscription, hprep]
    | ok res =>
      obtain ⟨id, manager, extents, subreq⟩ := res
      obtain ⟨_, hctx, _, _, _⟩ := scd.prepare_ok a env ctx sid version params id manager
        extents subreq hprep
      have hm : (auth.ManagerFromContext ctx).1 = manager := by rw [hctx]
      rw [hm] at hval hsim
      have hact := scd.action_noninterference env r r' id manager extents subreq st0 st' rel
        f hproto hf hval hrel hsim
      have hout : ∀ (rr : scd.Repository σ) (s : σ),
          (a.PutSubscription env rr ctx sid version params s).outcome
            = match (scd.PutSubscription.action env rr id manager extents subreq s).1.result
                with
              | .ok x => .ok x
              | .error e => .error e := by
        intro rr s
        unfold scd.Server.PutSubscription
        simp only [hprep, scd.Transact]
        cases h : (scd.PutSubscription.action env rr id manager extents subreq s).1.result <;>
          simp [h]
      rw [hout r st0, hout r' st', hact]

/-- C28, at a concrete input: the environment `coverEnv` converts a constraint to its OVN
and nothing else and does not validate dependent operations. Two stores find the caller's
own operational intent, an intent of `uss2` and a constraint of `uss2`, and differ in the
OVNs of the two records of `uss2`: a creation by the caller `uss1` that asks for both
kinds of notification returns the same outcome on both. -/
theorem C28_response_masks_foreign_OVNs_witness :
    ((⟨true⟩ : scd.Server).PutSubscription scd.coverEnv
        (scd.recordsRepo [scdmodels.exampleIntent, scd.foreignIntent "x"]
          [scd.exampleConstraint "uss2" "cx"])
        (scd.memCtx "uss1") "sub-1" "" scd.bothParams []).outcome
      = ((⟨true⟩ : scd.Server).PutSubscription scd.coverEnv
        (scd.recordsRepo [scdmodels.exampleIntent, scd.foreignIntent "y"]
          [scd.exampleConstraint "uss2" "cy"])
        (scd.memCtx "uss1") "sub-1" "" scd.bothParams []).outcome :=
  (C28_response_masks_foreign_OVNs ⟨true⟩ scd.coverEnv
      (scd.recordsRepo [scdmodels.exampleIntent, scd.foreignIntent "x"]
        [scd.exampleConstraint "uss2" "cx"]) (scd.memCtx "uss1") "sub-1" "" scd.bothParams []
      (fun _ => .ok ()) (fun _ => rfl) (fun _ _ => rfl)).2
    (scd.recordsRepo [scdmodels.exampleIntent, scd.foreignIntent "y"]
      [scd.exampleConstraint "uss2" "cy"]) [] (fun s s' => s = s')
    (fun _ _ _ _ => rfl) rfl
    (fun s s' h => by
      subst h
      exact ⟨fun _ => rfl, fun _ => rfl, fun _ => rfl, fun _ => ⟨rfl, rfl⟩, fun _ => rfl,
        fun _ => rfl⟩)

/-- The response of the handler on an example store: the caller's own intent keeps its
OVN, the intent and the constraint of `uss2` carry the placeholder; and the response of
`respond` for a subscription that asks for no constraint notification has no constraint
reference. -/
theorem scd.respond_example :
    (match ((⟨true⟩ : scd.Server).PutSubscription scd.coverEnv
        (scd.recordsRepo [scdmodels.exampleIntent, scd.foreignIntent "x"]
          [scd.exampleConstraint "uss2" "cx", scd.exampleConstraint "uss1" "mine"])
        (scd.memCtx "uss1") "sub-1" "" scd.bothParams []).outcome with
      | .ok resp => some (resp.OperationalIntentReferences.map (fun ref => ref.Ovn),
          resp.ConstraintReferences.map (fun ref => ref.Ovn))
      | _ => none)
      = some (["ovn", "Available from USS"], ["Available from USS", "mine"])
    ∧ (match (scd.PutSubscription.respond scd.memEnv
        (scd.recordsRepo [scdmodels.exampleIntent, scd.foreignIntent "x"]
          [scd.exampleConstraint "uss2" "cx"])
        "uss1" scd.openExtents scd.memSub [] []).1 with
      | .ok resp => some (resp.OperationalIntentReferences.map (fun ref => ref.Ovn),
          resp.ConstraintReferences.map (fun ref => ref.Ovn))
      | .error _ => none)
      = some (["ovn", "Available from USS"], []) := by
  decide

/-! ### The covering expected by `TestPolygonCovering` -/

/-- The cell union that `TestPolygonCovering` expects from `CalculateCovering` for the
triangle of the test has 20 cells, all at level 13, in strictly ascending order of cell
id; the first is `0x808fb0ac00000000`. (The function `CalculateCovering` is not part of
these sources; this is about the expected value written in the test.) -/
theorem geo.wantCovering_level_13_ascending :
    geo.wantCovering.length = 20
    ∧ (∀ c ∈ geo.wantCovering, geo.Level c = 13)
    ∧ List.Pairwise (fun a b => a < b) geo.wantCovering
    ∧ geo.wantCovering.head? = some 0x808fb0ac00000000 := by
  decide

end Theorems
